import Mathlib

/-!
# AudioDecoder and its playback (src/audio_decoder.cpp, src/audio_decoder.h,
src/ffmpeg_audio_stream.cpp, src/ffmpeg_audio_stream.h)

A shallow embedding of the audio decoder: the fields of `AudioDecoder` that the
decode loop, the command queue and the consumer-facing calls read and write, and
one Lean function per C++ member function; and of the mixer of
`FFmpegAudioStreamPlayback` that consumes the decoded frames.

Conventions.

* `double` and `float` times are exact rationals; rounding is not modelled.
* `int64_t` timestamps are integers; signed overflow is not modelled.
* Every call into libavformat / libavcodec / libswresample is an answer supplied
  by the caller of the Lean function (`PrepareAnswers`, `CodecAnswers`,
  `DecodeAnswers`): the functions are total in the answers of the library.
* A function that dereferences a pointer returns `Option`; `none` is a null
  dereference in the C++ code (or an exhausted list of library answers).
* A section guarded by `audio_buffer_mutex` is one step. An execution is a list
  of steps (`Op`): whole consumer calls, whole passes of the decode loop, and, for
  a `seek` that the decode thread overtakes between its locked section and its
  push, the two halves of the call as steps of their own.
* A loop of the C++ code whose number of passes is not bounded by its input is a
  function of the number of passes allowed; its result says whether the loop was
  left or is still running.
-/

namespace FFmpegAudio

/-! ## Constants -/

/-- Capacity gate of the decode loop (audio_decoder.cpp, line 45). -/
def MAX_PENDING_FRAMES : Nat := 5

/-- Value of the errno constant EAGAIN (Linux). -/
def EAGAIN : Int := 11

/-- Value of the errno constant ENOMEM (Linux). -/
def ENOMEM : Int := 12

/-- Value of libavutil's AVERROR_EOF, the negated tag 'E','O','F',' '. -/
def AVERROR_EOF : Int := -541478725

/-- Value of libavutil's AV_NOPTS_VALUE, the smallest int64. -/
def AV_NOPTS_VALUE : Int := -9223372036854775808

/-- Value of libavutil's AV_TIME_BASE. -/
def AV_TIME_BASE : Int := 1000000

/-- Bit of `HardwareAudioDecoder::NONE` (audio_decoder.h, line 81). -/
def HW_NONE : Nat := 0

/-- Bits of `HardwareAudioDecoder::ANY`, INT_MAX (audio_decoder.h, line 89). -/
def HW_ANY : Nat := 2147483647

/-! ## Data model -/

/-- The enum `AudioDecoder::DecoderState` (audio_decoder.h, lines 91-97). -/
inductive DecoderState where
  | READY
  | RUNNING
  | FAULTED
  | END_OF_STREAM
  | STOPPED
  deriving DecidableEq, Repr

/-- The class `DecodedAudioFrame` (audio_decoder.h, lines 67-76): a time in
milliseconds and the 32-bit sample words of `sample_data`. -/
structure DecodedAudioFrame where
  time : ℚ
  sample_data : List Nat
  deriving DecidableEq, Repr

/-- The sample formats of libavutil's `AVSampleFormat`. -/
inductive AVSampleFormat where
  | U8 | S16 | S32 | FLT | DBL
  | U8P | S16P | S32P | FLTP | DBLP
  | S64 | S64P
  deriving DecidableEq, Repr

/-- The table of libavutil's `av_sample_fmt_is_planar`. -/
def av_sample_fmt_is_planar : AVSampleFormat → Bool
  | .U8P | .S16P | .S32P | .FLTP | .DBLP | .S64P => true
  | _ => false

/-- The media kinds of libavutil's `AVMediaType` that the decoder tells apart. -/
inductive AVMediaType where
  | AUDIO
  | OTHER
  deriving DecidableEq, Repr

/-- The fields of an `AVStream` that the decoder reads. -/
structure AVStream where
  index : Int
  codec_type : AVMediaType
  codec_id : Nat
  time_base_num : Int
  time_base_den : Int
  start_time : Int
  duration : Int
  deriving DecidableEq, Repr

/-- The fields of an `AVFormatContext` that the decoder reads. -/
structure AVFormatContext where
  streams : List AVStream
  duration : Int
  deriving DecidableEq, Repr

/-- The fields of an `AVCodecContext` that the decoder reads, and whether the
context is open (`avcodec_is_open`): `avcodec_alloc_context3` returns a context
that is not open, a successful `avcodec_open2` opens it. -/
structure AVCodecContext where
  sample_rate : Int
  hw_device_ctx : Bool
  is_open : Bool
  deriving DecidableEq, Repr

/-- The fields of an `AVPacket` that the decoder reads. -/
structure AVPacket where
  stream_index : Int
  deriving DecidableEq, Repr

/-- The fields of an `AVFrame` that the decoder reads; `data` is plane 0 as
32-bit words. -/
structure AVFrame where
  best_effort_timestamp : Int
  pts : Int
  format : AVSampleFormat
  nb_channels : Nat
  sample_rate : Int
  nb_samples : Nat
  data : List Nat
  deriving DecidableEq, Repr

/-- An operation bound into `decoder_commands` (audio_decoder.cpp, lines 320,
434 and 436). -/
inductive Command where
  | seek_command (p_target_timestamp : ℚ)
  | recreate_codec_context
  deriving DecidableEq, Repr

/-- The member variables of `AudioDecoder` (audio_decoder.h, lines 100-125),
with `packet` the packet that `_thread_func` allocates and hands to every
`_decode_next_frame` (`none` when `p_packet->buf` is null). -/
structure AudioDecoder where
  decoded_audio_frames : List DecodedAudioFrame
  decoder_state : DecoderState
  decoder_commands : List Command
  audio_stream : Option AVStream
  format_context : Option AVFormatContext
  audio_codec_context : Option AVCodecContext
  input_opened : Bool
  hw_decoding_allowed : Bool
  audio_time_base_in_seconds : ℚ
  duration : ℚ
  skip_output_until_time : ℚ
  skip_current_outputs : Bool
  last_decoded_frame_time : ℚ
  target_hw_audio_decoders : Nat
  thread : Bool
  thread_abort : Bool
  looping : Bool
  packet : Option AVPacket
  deriving DecidableEq, Repr

/-- The decoder as the constructors leave it (audio_decoder.h, lines 100-125;
audio_decoder.cpp, lines 585-593). -/
def AudioDecoder.new : AudioDecoder where
  decoded_audio_frames := []
  decoder_state := DecoderState.READY
  decoder_commands := []
  audio_stream := none
  format_context := none
  audio_codec_context := none
  input_opened := false
  hw_decoding_allowed := false
  audio_time_base_in_seconds := 0
  duration := 0
  skip_output_until_time := -1
  skip_current_outputs := false
  last_decoded_frame_time := 0
  target_hw_audio_decoders := HW_ANY
  thread := false
  thread_abort := false
  looping := false
  packet := none

/-! ## Consumer-facing calls -/

/-- The call `AudioDecoder::get_decoded_audio_frames` (audio_decoder.cpp, lines
536-541): the returned frames and the decoder afterwards. -/
def get_decoded_audio_frames (s : AudioDecoder) : List DecodedAudioFrame × AudioDecoder :=
  let frames := s.decoded_audio_frames
  (frames, { s with decoded_audio_frames := [] })

/-- The call `AudioDecoder::return_audio_frame` (audio_decoder.cpp, lines
580-583). -/
def return_audio_frame (p_frame : DecodedAudioFrame) (s : AudioDecoder) : AudioDecoder :=
  { s with decoded_audio_frames := s.decoded_audio_frames ++ [p_frame] }

/-- The call `AudioDecoder::return_audio_frames` (audio_decoder.cpp, lines
574-578): one `return_audio_frame` per frame, in order. -/
def return_audio_frames : List DecodedAudioFrame → AudioDecoder → AudioDecoder
  | [], s => s
  | frame :: rest, s => return_audio_frames rest (return_audio_frame frame s)

/-- The section of `AudioDecoder::seek` that holds `audio_buffer_mutex`
(audio_decoder.cpp, lines 426-432). -/
def seek_locked (p_time : ℚ) (s : AudioDecoder) : AudioDecoder :=
  { s with
    decoded_audio_frames := []
    last_decoded_frame_time := p_time
    skip_current_outputs := true }

/-- Modelled from the spec: `CommandQueueMT::push` and `push_and_sync` of
command_queue_mt.h, which is not among the sources. The operation is appended
to the queue ("strictly in FIFO submission order"); that `push_and_sync` also
blocks the caller is not a change of the decoder's fields. -/
def push_command (c : Command) (s : AudioDecoder) : AudioDecoder :=
  { s with decoder_commands := s.decoder_commands ++ [c] }

/-- The rest of `AudioDecoder::seek`, after the mutex is released
(audio_decoder.cpp, lines 433-437): both branches bind `_seek_command`. -/
def seek_push (p_time : ℚ) (p_wait : Bool) (s : AudioDecoder) : AudioDecoder :=
  if p_wait then push_command (Command.seek_command p_time) s
  else push_command (Command.seek_command p_time) s

/-- The call `AudioDecoder::seek` (audio_decoder.cpp, lines 425-438). -/
def seek (p_time : ℚ) (p_wait : Bool) (s : AudioDecoder) : AudioDecoder :=
  seek_push p_time p_wait (seek_locked p_time s)

/-! ## Answers of the libraries -/

/-- The answers of libavformat during one `prepare_decoding`: the results of
`avformat_open_input`, `avformat_find_stream_info` and `av_find_best_stream`,
and the context that a successful open fills in. -/
structure PrepareAnswers where
  avformat_open_input : Int
  opened_context : AVFormatContext
  avformat_find_stream_info : Int
  av_find_best_stream : Int
  deriving DecidableEq, Repr

/-- The answers of libavcodec during one `recreate_codec_context`: whether
`avcodec_find_decoder` finds a codec, the context `avcodec_alloc_context3`
returns (`none` for null), and the results of `avcodec_parameters_to_context`
and `avcodec_open2`. -/
structure CodecAnswers where
  avcodec_find_decoder : Bool
  avcodec_alloc_context3 : Option AVCodecContext
  avcodec_parameters_to_context : Int
  avcodec_open2 : Int
  deriving DecidableEq, Repr

/-- One frame that `avcodec_receive_frame` hands out, with the answers the
libraries give while this frame is handled: the results of
`swr_alloc_set_opts2`, `av_frame_get_buffer` and `swr_convert_frame`, the plane 0
that `swr_convert_frame` writes into the output frame, and the result of
`av_samples_get_buffer_size` for the frame that is enqueued. -/
structure ReceivedFrame where
  frame : AVFrame
  swr_alloc_set_opts2 : Int
  av_frame_get_buffer : Int
  swr_convert_frame : Int
  swr_out_data : List Nat
  av_samples_get_buffer_size : Int
  deriving DecidableEq, Repr

/-- The answers of the libraries during one `_decode_next_frame`: the result of
`av_read_frame` and the packet it fills, the result of `avcodec_send_packet`,
the frames `avcodec_receive_frame` hands out one after the other, and its first
negative result, which ends the drain. -/
structure DecodeAnswers where
  av_read_frame : Int
  packet : AVPacket
  avcodec_send_packet : Int
  frames : List ReceivedFrame
  avcodec_receive_frame : Int
  deriving DecidableEq, Repr

/-! ## Setup -/

/-- The element `streams[i]` of a stream array, `none` outside its bounds. -/
def stream_at (streams : List AVStream) (i : Int) : Option AVStream :=
  if i < 0 then none else streams.get? i.toNat

/-- The call `AudioDecoder::prepare_decoding` (audio_decoder.cpp, lines
89-135), for a decoder built from a file or from a path, so that one of the two
branches of lines 91-116 opens the input. A failed `avformat_open_input` frees
the context and leaves the pointer null; `av_find_best_stream` answers with the
index of a stream of the context. -/
def prepare_decoding (lib : PrepareAnswers) (s : AudioDecoder) : AudioDecoder :=
  let open_input_res := lib.avformat_open_input
  let s1 := { s with
    format_context := if open_input_res ≥ 0 then some lib.opened_context else none
    input_opened := decide (open_input_res ≥ 0) }
  if ¬ s1.input_opened = true then s1
  else if lib.avformat_find_stream_info < 0 then s1
  else
    let audio_stream_index := lib.av_find_best_stream
    if audio_stream_index < 0 then s1
    else
      match stream_at lib.opened_context.streams audio_stream_index with
      | none => s1
      | some st =>
        let tb : ℚ := (st.time_base_num : ℚ) / (st.time_base_den : ℚ)
        { s1 with
          audio_stream := some st
          audio_time_base_in_seconds := tb
          duration :=
            if st.duration > 0 then (st.duration : ℚ) * tb * 1000
            else (lib.opened_context.duration : ℚ) / (AV_TIME_BASE : ℚ) * 1000 }

/-- The call `AudioDecoder::recreate_codec_context` (audio_decoder.cpp, lines
137-157). The context that `avcodec_alloc_context3` returns is not open; it is
open after an `avcodec_open2` that succeeds (line 153). -/
def recreate_codec_context (lib : CodecAnswers) (s : AudioDecoder) : AudioDecoder :=
  match s.audio_stream with
  | none => s
  | some _ =>
    if lib.avcodec_find_decoder then
      let s1 :=
        { s with
          audio_codec_context :=
            lib.avcodec_alloc_context3.map (fun c => { c with is_open := false }) }
      if s1.audio_codec_context = none then s1
      else if lib.avcodec_parameters_to_context < 0 then s1
      else if lib.avcodec_open2 < 0 then s1
      else
        { s1 with
          audio_codec_context := s1.audio_codec_context.map (fun c => { c with is_open := true }) }
    else s

/-! ## The seek command and the hardware fallback -/

/-- The call `AudioDecoder::_seek_command` (audio_decoder.cpp, lines 188-196).
It hands `format_context` to `av_seek_frame` (line 189), reads
`audio_stream->index`, and hands `audio_codec_context` to
`avcodec_flush_buffers` (line 192), which resets the internal state that only an
open context has: `none` when one of the three pointers is null or the codec
context is not open. -/
def _seek_command (p_target_timestamp : ℚ) (s : AudioDecoder) : Option AudioDecoder :=
  match s.format_context, s.audio_stream, s.audio_codec_context with
  | some _, some _, some ctx =>
    if ctx.is_open = true then
      some { s with
        skip_output_until_time := p_target_timestamp
        decoder_state := DecoderState.READY
        skip_current_outputs := false }
    else none
  | _, _, _ => none

/-- The call `AudioDecoder::_try_disable_hw_decoding` (audio_decoder.cpp, lines
307-321). -/
def _try_disable_hw_decoding (p_error_code : Int) (s : AudioDecoder) : AudioDecoder :=
  if ¬ s.hw_decoding_allowed = true ∨ s.target_hw_audio_decoders = HW_NONE
      ∨ s.audio_codec_context = none
      ∨ (s.audio_codec_context.map (fun c => c.hw_device_ctx)) = some false then s
  else
    let s1 := { s with hw_decoding_allowed := false }
    let s2 :=
      if p_error_code = -ENOMEM then { s1 with target_hw_audio_decoders := HW_NONE }
      else s1
    push_command Command.recreate_codec_context s2

/-! ## The frame drain -/

/-- The presentation time of a received frame (audio_decoder.cpp, lines
340-341), in milliseconds. -/
def frame_time (st : AVStream) (audio_time_base_in_seconds : ℚ) (f : AVFrame) : ℚ :=
  let frame_timestamp :=
    if f.best_effort_timestamp ≠ AV_NOPTS_VALUE then f.best_effort_timestamp else f.pts
  ((frame_timestamp - st.start_time : Int) : ℚ) * audio_time_base_in_seconds * 1000

/-- The call `AudioDecoder::_ensure_frame_audio_format` (audio_decoder.cpp,
lines 376-423): `some none` is the null result, `none` a read of
`audio_codec_context->sample_rate` through a null context. -/
def _ensure_frame_audio_format (r : ReceivedFrame) (p_target_audio_format : AVSampleFormat)
    (s : AudioDecoder) : Option (Option AVFrame) :=
  if r.frame.format = p_target_audio_format then some (some r.frame)
  else
    match s.audio_codec_context with
    | none => none
    | some ctx =>
      if r.swr_alloc_set_opts2 < 0 then some none
      else if r.av_frame_get_buffer < 0 then some none
      else if r.swr_convert_frame < 0 then some none
      else
        some (some
          { best_effort_timestamp := AV_NOPTS_VALUE
            pts := AV_NOPTS_VALUE
            format := p_target_audio_format
            nb_channels := 2
            sample_rate := ctx.sample_rate
            nb_samples := r.frame.nb_samples
            data := r.swr_out_data })

/-- The first `n` 32-bit words of a plane, zero where the plane is shorter. -/
def sample_words (n : Nat) (data : List Nat) : List Nat :=
  (List.range n).map (fun i => data.getD i 0)

/-- The `DecodedAudioFrame` built from a normalised frame (audio_decoder.cpp,
lines 356-362). -/
def make_audio_frame (frame_time : ℚ) (data_size : Int) (frame : AVFrame) : DecodedAudioFrame :=
  { time := frame_time
    sample_data := sample_words (data_size.toNat / 4) frame.data }

/-- The section of `_read_decoded_audio_frames` that holds `audio_buffer_mutex`
(audio_decoder.cpp, lines 363-367). -/
def enqueue_locked (audio_frame : DecodedAudioFrame) (s : AudioDecoder) : AudioDecoder :=
  if ¬ s.skip_current_outputs = true then
    { s with decoded_audio_frames := s.decoded_audio_frames ++ [audio_frame] }
  else s

/-- How one pass of the `while (true)` of `_read_decoded_audio_frames` ends. -/
inductive LoopExit where
  | next
  | ret
  deriving DecidableEq, Repr

/-- One pass of the `while (true)` of `_read_decoded_audio_frames` for a frame
that `avcodec_receive_frame` handed out (audio_decoder.cpp, lines 338-372). -/
def read_decoded_frame (r : ReceivedFrame) (s : AudioDecoder) : Option (LoopExit × AudioDecoder) :=
  match s.audio_stream with
  | none => none
  | some st =>
    let ft := frame_time st s.audio_time_base_in_seconds r.frame
    if s.skip_output_until_time > ft ∨ s.skip_current_outputs = true then
      some (LoopExit.next, s)
    else
      let s1 := { s with last_decoded_frame_time := ft }
      match _ensure_frame_audio_format r AVSampleFormat.FLT s1 with
      | none => none
      | some none => some (LoopExit.ret, s1)
      | some (some frame) =>
        if av_sample_fmt_is_planar frame.format = true then some (LoopExit.ret, s1)
        else
          some (LoopExit.next,
            enqueue_locked (make_audio_frame ft r.av_samples_get_buffer_size frame) s1)

/-- The call `AudioDecoder::_read_decoded_audio_frames` (audio_decoder.cpp,
lines 323-374): `frames` are the frames `avcodec_receive_frame` hands out and
`receive_frame_result` its first negative result. -/
def _read_decoded_audio_frames :
    List ReceivedFrame → Int → AudioDecoder → Option AudioDecoder
  | [], receive_frame_result, s =>
    if receive_frame_result < 0 then
      if receive_frame_result ≠ -EAGAIN ∧ receive_frame_result ≠ AVERROR_EOF then
        some (_try_disable_hw_decoding receive_frame_result s)
      else some s
    else none
  | r :: rest, receive_frame_result, s =>
    match read_decoded_frame r s with
    | none => none
    | some (LoopExit.ret, s1) => some s1
    | some (LoopExit.next, s1) => _read_decoded_audio_frames rest receive_frame_result s1

/-! ## The decode step -/

/-- The call `AudioDecoder::_send_packet` (audio_decoder.cpp, lines 285-305):
the result and the decoder afterwards. The error branch reads
`p_packet->stream_index`. -/
def _send_packet (p_codec_context : Option AVCodecContext) (p_packet : Option AVPacket)
    (lib : DecodeAnswers) (s : AudioDecoder) : Option (Int × AudioDecoder) :=
  let send_packet_result := lib.avcodec_send_packet
  if send_packet_result = 0 ∨ send_packet_result = -EAGAIN then
    if p_codec_context = s.audio_codec_context then
      match _read_decoded_audio_frames lib.frames lib.avcodec_receive_frame s with
      | none => none
      | some s1 => some (send_packet_result, s1)
    else some (send_packet_result, s)
  else
    match p_packet, s.format_context with
    | some pkt, some fc =>
      match stream_at fc.streams pkt.stream_index with
      | none => none
      | some st =>
        if st.codec_type = AVMediaType.AUDIO then
          some (send_packet_result, _try_disable_hw_decoding send_packet_result s)
        else some (send_packet_result, s)
    | _, _ => none

/-- The body of `AudioDecoder::_decode_next_frame` after the read
(audio_decoder.cpp, lines 253-282), for the result `read_frame_result` and the
packet `p_packet` (`none` when `p_packet->buf` is null). It reads
`audio_stream->index`. -/
def decode_after_read (read_frame_result : Int) (p_packet : Option AVPacket)
    (lib : DecodeAnswers) (s : AudioDecoder) : Option AudioDecoder :=
  if read_frame_result ≥ 0 then
    let s1 := { s with decoder_state := DecoderState.RUNNING, packet := p_packet }
    match p_packet, s1.audio_stream with
    | some pkt, some st =>
      if pkt.stream_index = st.index then
        match _send_packet s1.audio_codec_context (some pkt) lib s1 with
        | none => none
        | some (send_packet_result, s2) =>
          if send_packet_result = -EAGAIN then some s2
          else some { s2 with packet := none }
      else some { s1 with packet := none }
    | _, _ => none
  else if read_frame_result = AVERROR_EOF then
    match _send_packet s.audio_codec_context none lib s with
    | none => none
    | some (_, s1) =>
      if s1.looping = true then some (seek 0 false s1)
      else some { s1 with decoder_state := DecoderState.END_OF_STREAM }
  else if read_frame_result = -EAGAIN then
    some { s with decoder_state := DecoderState.READY }
  else some s

/-- The call `AudioDecoder::_decode_next_frame` (audio_decoder.cpp, lines
245-283): `av_read_frame` is called when no packet is retained (lines 249-251),
and a successful read fills the packet. -/
def _decode_next_frame (lib : DecodeAnswers) (s : AudioDecoder) : Option AudioDecoder :=
  match s.packet with
  | none =>
    let read_frame_result := lib.av_read_frame
    decode_after_read read_frame_result
      (if read_frame_result ≥ 0 then some lib.packet else none) lib s
  | some pkt => decode_after_read 0 (some pkt) lib s

/-! ## The command queue and the decode loop -/

/-- The operation a queued command runs on the decode thread. -/
def execute_command (lib : CodecAnswers) (c : Command) (s : AudioDecoder) : Option AudioDecoder :=
  match c with
  | Command.seek_command t => _seek_command t s
  | Command.recreate_codec_context => some (recreate_codec_context lib s)

/-- The commands of a flush, run first to last. -/
def flush_commands (lib : CodecAnswers) : List Command → AudioDecoder → Option AudioDecoder
  | [], s => some s
  | c :: rest, s =>
    match execute_command lib c s with
    | none => none
    | some s1 => flush_commands lib rest s1

/-- Modelled from the spec: `CommandQueueMT::flush_if_pending` of
command_queue_mt.h, which is not among the sources. "Operations execute strictly
in FIFO submission order, flushed once per decode-loop iteration", "each
executing to completion before the next"; the queue is empty afterwards. -/
def flush_if_pending (lib : CodecAnswers) (s : AudioDecoder) : Option AudioDecoder :=
  flush_commands lib s.decoder_commands { s with decoder_commands := [] }

/-- The answers of the libraries during one pass of the decode loop. -/
structure IterationAnswers where
  decode : DecodeAnswers
  codec : CodecAnswers
  deriving DecidableEq, Repr

/-- The `READY` and `RUNNING` arm of the `switch` of `_thread_func`
(audio_decoder.cpp, lines 213-223). -/
def decode_if_needed (lib : DecodeAnswers) (s : AudioDecoder) : Option AudioDecoder :=
  let needs_frame := decide (s.decoded_audio_frames.length < MAX_PENDING_FRAMES)
  if needs_frame = true then _decode_next_frame lib s
  else some { s with decoder_state := DecoderState.READY }

/-- The `switch` of one pass of the `while` of `_thread_func`
(audio_decoder.cpp, lines 210-233). -/
def thread_switch (lib : DecodeAnswers) (s : AudioDecoder) : Option AudioDecoder :=
  match s.decoder_state with
  | DecoderState.READY => decode_if_needed lib s
  | DecoderState.RUNNING => decode_if_needed lib s
  | DecoderState.END_OF_STREAM => some s
  | _ => some s

/-- One pass of the `while (!thread_abort)` of `AudioDecoder::_thread_func`
(audio_decoder.cpp, lines 209-235): the switch, then the flush. -/
def thread_iteration (lib : IterationAnswers) (s : AudioDecoder) : Option AudioDecoder :=
  match thread_switch lib.decode s with
  | none => none
  | some s1 => flush_if_pending lib.codec s1

/-- The end of `AudioDecoder::_thread_func`, after the loop (audio_decoder.cpp,
lines 237-242). -/
def thread_exit (s : AudioDecoder) : AudioDecoder :=
  if s.decoder_state ≠ DecoderState.FAULTED then
    { s with decoder_state := DecoderState.STOPPED }
  else s

/-- The call `AudioDecoder::start_decoding` (audio_decoder.cpp, lines 440-453);
`thread` becomes true when the decode thread is launched. -/
def start_decoding (prep : PrepareAnswers) (codec : CodecAnswers) (s : AudioDecoder) :
    AudioDecoder :=
  if s.thread = true then s
  else if s.format_context = none then
    let s1 := recreate_codec_context codec (prepare_decoding prep s)
    if s1.audio_stream = none then { s1 with decoder_state := DecoderState.FAULTED }
    else { s1 with thread := true }
  else { s with thread := true }

/-! ## Sequences of calls -/

/-- The steps of an execution: the consumer's calls, the two halves of a `seek`
whose caller is overtaken by the decode thread between them, and one pass of the
decode loop. -/
inductive Op where
  | get_decoded_audio_frames
  | return_audio_frame (p_frame : DecodedAudioFrame)
  | return_audio_frames (p_frames : List DecodedAudioFrame)
  | seek (p_time : ℚ) (p_wait : Bool)
  | seek_locked (p_time : ℚ)
  | seek_push (p_time : ℚ) (p_wait : Bool)
  | thread_iteration (lib : IterationAnswers)
  deriving DecidableEq, Repr

/-- One step: the frames it returns to the consumer, if it is a
`get_decoded_audio_frames`, and the decoder afterwards. A pass of the decode
loop needs the thread launched and not aborted. -/
def step (op : Op) (s : AudioDecoder) : Option (Option (List DecodedAudioFrame) × AudioDecoder) :=
  match op with
  | Op.get_decoded_audio_frames =>
    some (some (get_decoded_audio_frames s).1, (get_decoded_audio_frames s).2)
  | Op.return_audio_frame f => some (none, return_audio_frame f s)
  | Op.return_audio_frames fs => some (none, return_audio_frames fs s)
  | Op.seek t w => some (none, seek t w s)
  | Op.seek_locked t => some (none, seek_locked t s)
  | Op.seek_push t w => some (none, seek_push t w s)
  | Op.thread_iteration lib =>
    if s.thread = true ∧ s.thread_abort = false then
      match thread_iteration lib s with
      | none => none
      | some s1 => some (none, s1)
    else none

/-- A sequence of steps: the results of its `get_decoded_audio_frames` calls in
order, and the decoder afterwards. -/
def run : List Op → AudioDecoder → Option (List (List DecodedAudioFrame) × AudioDecoder)
  | [], s => some ([], s)
  | op :: rest, s =>
    match step op s with
    | none => none
    | some (out, s1) =>
      match run rest s1 with
      | none => none
      | some (outs, s2) => some (out.toList ++ outs, s2)

/-! ## Decoder selection -/

/-- The device types of libavutil's `AVHWDeviceType`. -/
inductive AVHWDeviceType where
  | NONE | VDPAU | CUDA | VAAPI | DXVA2 | QSV | VIDEOTOOLBOX
  | D3D11VA | DRM | OPENCL | MEDIACODEC | VULKAN | D3D12VA
  deriving DecidableEq, Repr

/-- Bit of `HardwareAudioDecoder::NVDEC` (audio_decoder.h, line 82). -/
def HW_NVDEC : Nat := 1

/-- Bit of `HardwareAudioDecoder::INTEL_QUICK_SYNC` (audio_decoder.h, line 83). -/
def HW_INTEL_QUICK_SYNC : Nat := 2

/-- Bit of `HardwareAudioDecoder::DXVA2` (audio_decoder.h, line 84). -/
def HW_DXVA2 : Nat := 4

/-- Bit of `HardwareAudioDecoder::VDPAU` (audio_decoder.h, line 85). -/
def HW_VDPAU : Nat := 8

/-- Bit of `HardwareAudioDecoder::VAAPI` (audio_decoder.h, line 86). -/
def HW_VAAPI : Nat := 16

/-- Bit of `HardwareAudioDecoder::ANDROID_MEDIACODEC` (audio_decoder.h, line 87). -/
def HW_ANDROID_MEDIACODEC : Nat := 32

/-- Bit of `HardwareAudioDecoder::APPLE_VIDEOTOOLBOX` (audio_decoder.h, line 88). -/
def HW_APPLE_VIDEOTOOLBOX : Nat := 64

/-- Value of the C constant INT_MIN for a 32-bit `int`. -/
def INT_MIN : Int := -2147483648

/-- The call `AudioDecoder::from_av_hw_device_type` (audio_decoder.cpp, lines
159-186). -/
def from_av_hw_device_type : AVHWDeviceType → Nat
  | AVHWDeviceType.NONE => HW_NONE
  | AVHWDeviceType.VDPAU => HW_VDPAU
  | AVHWDeviceType.CUDA => HW_NVDEC
  | AVHWDeviceType.VAAPI => HW_VAAPI
  | AVHWDeviceType.DXVA2 => HW_DXVA2
  | AVHWDeviceType.QSV => HW_INTEL_QUICK_SYNC
  | AVHWDeviceType.MEDIACODEC => HW_ANDROID_MEDIACODEC
  | _ => HW_NONE

/-- The function `get_hw_audio_decoder_score` (audio_decoder.cpp, lines
455-479). -/
def get_hw_audio_decoder_score : AVHWDeviceType → Int
  | AVHWDeviceType.VDPAU => 10
  | AVHWDeviceType.CUDA => 10
  | AVHWDeviceType.VAAPI => 9
  | AVHWDeviceType.DXVA2 => 8
  | AVHWDeviceType.QSV => 9
  | AVHWDeviceType.MEDIACODEC => 10
  | _ => INT_MIN

/-- One entry of the codec registry that `av_codec_iterate` walks: which
implementation it is, its codec id, whether `av_codec_is_decoder` holds, and the
device types that `FFmpegCodec::get_supported_hw_device_types` lists for it
(ffmpeg_codec.h is not among the sources; the list is taken as given). -/
structure AVCodec where
  impl : Nat
  id : Nat
  is_decoder : Bool
  hw_device_types : List AVHWDeviceType
  deriving DecidableEq, Repr

/-- The struct `AudioDecoder::AvailableDecoderInfo` (audio_decoder.h, lines
143-146). -/
structure AvailableDecoderInfo where
  codec : AVCodec
  device_type : AVHWDeviceType
  deriving DecidableEq, Repr

/-- The comparator `AvailableDecoderInfoComparator` (audio_decoder.cpp, lines
481-485). -/
def AvailableDecoderInfoComparator (p_a p_b : AvailableDecoderInfo) : Bool :=
  decide (get_hw_audio_decoder_score p_a.device_type
    > get_hw_audio_decoder_score p_b.device_type)

/-- The test `BitField::has_flag` of the engine: some bit of the flag is set in
the value. -/
def has_flag (value flag : Nat) : Bool :=
  decide (value &&& flag ≠ 0)

/-- The contract of `Vector::sort_custom<AvailableDecoderInfoComparator>` of the
engine's templates, which are not among the sources: the sorted vector holds the
elements it held before, and the comparator ranks no element before one that
precedes it. -/
structure SortCustom where
  sort : List AvailableDecoderInfo → List AvailableDecoderInfo
  perm : ∀ l, List.Perm (sort l) l
  sorted : ∀ l, List.Pairwise (fun a b => AvailableDecoderInfoComparator b a = false) (sort l)

/-- The candidates the `for` of `get_available_decoders` records for one codec
(audio_decoder.cpp, lines 513-521). -/
def hw_candidates (codec : AVCodec) (p_target_decoders : Nat) : List AvailableDecoderInfo :=
  codec.hw_device_types.filterMap (fun type =>
    let hw_audio_decoder := from_av_hw_device_type type
    if hw_audio_decoder = HW_NONE ∨ has_flag p_target_decoders hw_audio_decoder = false then none
    else some { codec := codec, device_type := type })

/-- The `while (true)` of `get_available_decoders` over the entries that
`av_codec_iterate` still has to hand out (audio_decoder.cpp, lines 493-522):
the candidates and the first codec found, starting from `codecs` and
`first_codec`. -/
def iterate_codecs (p_codec_id : Nat) (p_target_decoders : Nat) :
    List AVCodec → List AvailableDecoderInfo → Option AVCodec →
      List AvailableDecoderInfo × Option AVCodec
  | [], codecs, first_codec => (codecs, first_codec)
  | av_codec :: rest, codecs, first_codec =>
    if av_codec.id ≠ p_codec_id ∨ av_codec.is_decoder = false then
      iterate_codecs p_codec_id p_target_decoders rest codecs first_codec
    else
      let first_codec1 :=
        match first_codec with
        | none => some av_codec
        | some c => some c
      if p_target_decoders = HW_NONE then (codecs, first_codec1)
      else
        iterate_codecs p_codec_id p_target_decoders rest
          (codecs ++ hw_candidates av_codec p_target_decoders) first_codec1

/-- The vector of `get_available_decoders` before it is sorted
(audio_decoder.cpp, lines 488-530). -/
def collect_decoders (registry : List AVCodec) (p_codec_id : Nat) (p_target_decoders : Nat) :
    List AvailableDecoderInfo :=
  let found := iterate_codecs p_codec_id p_target_decoders registry [] none
  match found.2 with
  | some first_codec =>
    found.1 ++ [{ codec := first_codec, device_type := AVHWDeviceType.NONE }]
  | none => found.1

/-- The call `AudioDecoder::get_available_decoders` (audio_decoder.cpp, lines
487-534) over the codec registry `registry`; `p_format` is not read. -/
def get_available_decoders (sorter : SortCustom) (registry : List AVCodec) (p_codec_id : Nat)
    (p_target_decoders : Nat) : List AvailableDecoderInfo :=
  sorter.sort (collect_decoders registry p_codec_id p_target_decoders)

/-- The order of the scores, best first: `a` may stand before `b`. -/
def ranks_before (a b : AvailableDecoderInfo) : Prop :=
  get_hw_audio_decoder_score b.device_type ≤ get_hw_audio_decoder_score a.device_type

instance ranks_before_decidable : DecidableRel ranks_before :=
  fun a b => inferInstanceAs (Decidable (get_hw_audio_decoder_score b.device_type
    ≤ get_hw_audio_decoder_score a.device_type))

instance ranks_before_total : IsTotal AvailableDecoderInfo ranks_before :=
  ⟨fun a b => le_total (get_hw_audio_decoder_score b.device_type)
    (get_hw_audio_decoder_score a.device_type)⟩

instance ranks_before_trans : IsTrans AvailableDecoderInfo ranks_before :=
  ⟨fun _ _ _ hab hbc => le_trans hbc hab⟩

/-- A sort that meets the contract `SortCustom`: insertion by score. -/
def insertion_sorter : SortCustom where
  sort := List.insertionSort ranks_before
  perm := fun l => List.perm_insertionSort ranks_before l
  sorted := fun l => by
    have h := List.sorted_insertionSort ranks_before l
    refine List.Pairwise.imp ?_ h
    intro a b hab
    simp only [AvailableDecoderInfoComparator, decide_eq_false_iff_not, not_lt, gt_iff_lt]
    exact hab

/-! ## The byte source -/

/-- Value of the C constant SEEK_SET. -/
def SEEK_SET : Int := 0

/-- Value of the C constant SEEK_CUR. -/
def SEEK_CUR : Int := 1

/-- Value of the C constant SEEK_END. -/
def SEEK_END : Int := 2

/-- Value of libavformat's AVSEEK_SIZE. -/
def AVSEEK_SIZE : Int := 65536

/-- The conversion of an integer to `uint64_t`. -/
def to_uint64 (x : Int) : Nat :=
  (x % 18446744073709551616).toNat

/-- The conversion of a `uint64_t` to `int64_t`. -/
def to_int64 (x : Nat) : Int :=
  if x % 18446744073709551616 < 9223372036854775808 then (x % 18446744073709551616 : Nat)
  else ((x % 18446744073709551616 : Nat) : Int) - 18446744073709551616

/-- The byte source behind `audio_file`, the engine's `FileAccess`: a cursor and
a length, both `uint64_t`. -/
structure ByteSource where
  position : Nat
  length : Nat
  deriving DecidableEq, Repr

/-- The engine's `FileAccess::seek(uint64_t)`: the cursor goes to the position
given, counted from the start. -/
def ByteSource.seek (p_position : Nat) (f : ByteSource) : ByteSource :=
  { f with position := p_position }

/-- The engine's `FileAccess::seek_end(int64_t)`: the cursor goes to the
position given, counted from the end. -/
def ByteSource.seek_end (p_position : Int) (f : ByteSource) : ByteSource :=
  { f with position := to_uint64 ((f.length : Int) + p_position) }

/-- The callback `AudioDecoder::_stream_seek_callback` (audio_decoder.cpp, lines
67-87) on the byte source of the decoder: the value returned and the source
afterwards. The sum of line 71 is formed in `uint64_t`, and the positions and
the length are returned as `int64_t`. -/
def _stream_seek_callback (f : ByteSource) (p_offset : Int) (p_whence : Int) :
    Int × ByteSource :=
  if p_whence = SEEK_CUR then
    let f1 := f.seek (to_uint64 ((f.position : Int) + p_offset))
    (to_int64 f1.position, f1)
  else if p_whence = SEEK_SET then
    let f1 := f.seek (to_uint64 p_offset)
    (to_int64 f1.position, f1)
  else if p_whence = SEEK_END then
    let f1 := f.seek_end p_offset
    (to_int64 f1.position, f1)
  else if p_whence = AVSEEK_SIZE then (to_int64 f.length, f)
  else (-1, f)

/-! ## The playback (src/ffmpeg_audio_stream.cpp, GDExtension build) -/

/-- The constant `LENIENCE_BEFORE_SEEK` (ffmpeg_audio_stream.h, line 62). -/
def LENIENCE_BEFORE_SEEK : ℚ := 2500

/-- The engine's `Math::abs` on a `double`. -/
def math_abs (x : ℚ) : ℚ :=
  if x < 0 then -x else x

/-- The engine's `Math::abs` on an `int`. -/
def math_absi (x : Int) : Int :=
  if x < 0 then -x else x

/-- The call `AudioDecoder::get_decoder_state` (audio_decoder.cpp, lines
543-545). -/
def get_decoder_state (s : AudioDecoder) : DecoderState :=
  s.decoder_state

/-- The call `AudioDecoder::get_last_decoded_frame_time` (audio_decoder.cpp,
lines 547-549). -/
def get_last_decoded_frame_time (s : AudioDecoder) : ℚ :=
  s.last_decoded_frame_time

/-- The call `AudioDecoder::is_running` (audio_decoder.cpp, lines 551-553). -/
def is_running (s : AudioDecoder) : Bool :=
  decide (s.decoder_state = DecoderState.RUNNING)

/-- The call `AudioDecoder::get_duration` (audio_decoder.cpp, lines 555-557). -/
def get_duration (s : AudioDecoder) : ℚ :=
  s.duration

/-- The call `AudioDecoder::get_audio_channel_count` (audio_decoder.cpp, lines
566-572). -/
def get_audio_channel_count (s : AudioDecoder) : Int :=
  if s.audio_stream ≠ none then 2 else 0

/-- The engine's `AudioFrame`: the left and the right sample, as 32-bit words. -/
structure AudioFrame where
  left : Nat
  right : Nat
  deriving DecidableEq, Repr

/-- The member variables of `FFmpegAudioStreamPlayback` that its calls read and
write (ffmpeg_audio_stream.h, lines 62-81); `decoder` is the decoder that `load`
creates and `stream_length` the field `length` of the stream. -/
structure FFmpegAudioStreamPlayback where
  playback_position : ℚ
  last_playback_position : ℚ
  decoder : AudioDecoder
  available_audio_frames : List DecodedAudioFrame
  last_frame : Option DecodedAudioFrame
  frame_read_pos : Int
  looping : Bool
  buffering : Bool
  frames_processed : Int
  playing : Bool
  stream_length : ℚ
  deriving DecidableEq, Repr

/-- The playback as its constructor and `load` leave it (ffmpeg_audio_stream.h,
lines 63-78; ffmpeg_audio_stream.cpp, lines 165-175): the decoder is constructed
and started. -/
def load (prep : PrepareAnswers) (codec : CodecAnswers) : FFmpegAudioStreamPlayback where
  playback_position := 0
  last_playback_position := 0
  decoder := start_decoding prep codec AudioDecoder.new
  available_audio_frames := []
  last_frame := none
  frame_read_pos := 0
  looping := false
  buffering := false
  frames_processed := 0
  playing := false
  stream_length := 0

/-- The call `FFmpegAudioStreamPlayback::seek_into_sync` (ffmpeg_audio_stream.cpp,
lines 145-148). -/
def seek_into_sync (pb : FFmpegAudioStreamPlayback) : FFmpegAudioStreamPlayback :=
  { pb with
    decoder := seek pb.playback_position false pb.decoder
    available_audio_frames := [] }

/-- The call `FFmpegAudioStreamPlayback::get_current_frame_time`
(ffmpeg_audio_stream.cpp, lines 150-155). -/
def get_current_frame_time (pb : FFmpegAudioStreamPlayback) : ℚ :=
  match pb.last_frame with
  | some last_frame => last_frame.time
  | none => 0

/-- The call `FFmpegAudioStreamPlayback::check_next_audio_frame_valid`
(ffmpeg_audio_stream.cpp, lines 157-163). -/
def check_next_audio_frame_valid (p_decoded_frame : DecodedAudioFrame)
    (pb : FFmpegAudioStreamPlayback) : Bool :=
  if pb.looping = true
      ∧ math_abs ((p_decoded_frame.time - get_duration pb.decoder) - pb.playback_position)
        < LENIENCE_BEFORE_SEEK then true
  else
    decide (p_decoded_frame.time ≤ pb.playback_position
      ∧ math_abs (p_decoded_frame.time - pb.playback_position) < LENIENCE_BEFORE_SEEK)

/-- The call `FFmpegAudioStreamPlayback::clear` (ffmpeg_audio_stream.cpp, lines
240-245). -/
def clear (pb : FFmpegAudioStreamPlayback) : FFmpegAudioStreamPlayback :=
  { pb with
    last_frame := none
    available_audio_frames := []
    frames_processed := 0
    playing := false }

/-- The call `FFmpegAudioStreamPlayback::start_internal` (ffmpeg_audio_stream.cpp,
lines 178-187). -/
def start_internal (p_time : ℚ) (pb : FFmpegAudioStreamPlayback) : FFmpegAudioStreamPlayback :=
  if get_decoder_state pb.decoder = DecoderState.FAULTED then { pb with playing := false }
  else
    let pb1 := clear pb
    let pb2 := { pb1 with playback_position := p_time * 1000 }
    let pb3 := { pb2 with decoder := seek pb2.playback_position true pb2.decoder }
    { pb3 with playing := true }

/-- The call `FFmpegAudioStreamPlayback::stop_internal` (ffmpeg_audio_stream.cpp,
lines 189-196). -/
def stop_internal (pb : FFmpegAudioStreamPlayback) : FFmpegAudioStreamPlayback :=
  let pb3 :=
    if pb.playing = true then
      let pb1 := clear pb
      let pb2 := { pb1 with playback_position := 0 }
      { pb2 with decoder := seek pb2.playback_position true pb2.decoder }
    else pb
  { pb3 with playing := false }

/-- The call `FFmpegAudioStreamPlayback::seek_internal` (ffmpeg_audio_stream.cpp,
lines 212-217). -/
def seek_internal (p_time : ℚ) (pb : FFmpegAudioStreamPlayback) : FFmpegAudioStreamPlayback :=
  { pb with
    decoder := seek (p_time * 1000) false pb.decoder
    available_audio_frames := []
    playback_position := p_time * 1000
    frame_read_pos := 0 }

/-- The call `FFmpegAudioStreamPlayback::get_length_internal`
(ffmpeg_audio_stream.cpp, lines 224-226). -/
def get_length_internal (pb : FFmpegAudioStreamPlayback) : ℚ :=
  get_duration pb.decoder / 1000

/-- The locals of `_mix_resampled` that its mixing loop reads and writes, with
the output buffer and the playback. -/
structure MixState where
  p_buffer : List AudioFrame
  pos : Int
  update_playback_position : Bool
  playback : FFmpegAudioStreamPlayback
  deriving DecidableEq, Repr

/-- The loops of lines 54-56 and 135-137 of `_mix_resampled`: the entries from
`pos` up to `p_frames` are set to silence. -/
def fill_silence (p_buffer : List AudioFrame) (pos p_frames : Int) : List AudioFrame :=
  (List.range (p_frames - pos).toNat).foldl
    (fun b i => b.set (pos.toNat + i) { left := 0, right := 0 }) p_buffer

/-- One pass of the `while (frame_read_pos < sample_count)` of `_mix_resampled`
up to its test for the `break` (ffmpeg_audio_stream.cpp, lines 102-105): one
sample of the frame is copied; `none` is a read of `sample_data` at an index
that is negative or not below its size. -/
def mix_sample (audio_frame : DecodedAudioFrame) (m : MixState) : Option MixState :=
  if 0 ≤ m.playback.frame_read_pos
      ∧ m.playback.frame_read_pos * 2 + 1 < (audio_frame.sample_data.length : Int) then
    let frame_read_buffer_left :=
      audio_frame.sample_data.getD (m.playback.frame_read_pos * 2).toNat 0
    let frame_read_buffer_right :=
      audio_frame.sample_data.getD (m.playback.frame_read_pos * 2 + 1).toNat 0
    some
      { m with
        p_buffer := m.p_buffer.set m.pos.toNat
          { left := frame_read_buffer_left, right := frame_read_buffer_right }
        pos := m.pos + 1
        playback := { m.playback with frame_read_pos := m.playback.frame_read_pos + 1 } }
  else none

/-- The `while (frame_read_pos < sample_count)` of `_mix_resampled`
(ffmpeg_audio_stream.cpp, lines 101-109), for at most `n` passes. Every pass
raises `frame_read_pos` by one, so `sample_count - frame_read_pos` passes are all
the loop can make. -/
def mix_samples (p_frames : Int) (audio_frame : DecodedAudioFrame) (sample_count : Int) :
    Nat → MixState → Option MixState
  | 0, m => some m
  | n + 1, m =>
    if m.playback.frame_read_pos < sample_count then
      match mix_sample audio_frame m with
      | none => none
      | some m1 =>
        if m1.pos = p_frames then some m1
        else mix_samples p_frames audio_frame sample_count n m1
    else some m

/-- The end of a pass of the mixing loop of `_mix_resampled`, after the samples
are copied (ffmpeg_audio_stream.cpp, lines 110-119): whether the pass ends with
the `break` of line 118, and the state afterwards. -/
def mix_pass_end (p_frames : Int) (audio_frame : DecodedAudioFrame) (sample_count : Int)
    (m2 : MixState) : Bool × MixState :=
  let m3 : MixState :=
    { m2 with
      update_playback_position := true
      playback := { m2.playback with last_playback_position := audio_frame.time } }
  let m4 : MixState :=
    if ((math_absi (m3.playback.frame_read_pos - sample_count) : Int) : ℚ) < 1 / 10 then
      { m3 with
        playback :=
          { m3.playback with
            available_audio_frames := m3.playback.available_audio_frames.tail
            frame_read_pos := 0 } }
    else m3
  (decide (m4.pos = p_frames), m4)

/-- One pass of the mixing loop of `_mix_resampled` (ffmpeg_audio_stream.cpp,
lines 95-119): whether the pass ends with the `break` of line 118, and the state
afterwards; `none` is the division by a channel count of 0 at line 98, a read
of `sample_data` outside its bounds, or a read of the head of an empty list. -/
def mix_pass (p_frames : Int) (m : MixState) : Option (Bool × MixState) :=
  match m.playback.available_audio_frames with
  | [] => none
  | audio_frame :: _ =>
    let channels := get_audio_channel_count m.playback.decoder
    if channels = 0 then none
    else
      let sample_count := (audio_frame.sample_data.length : Int) / channels
      let m1 : MixState := { m with playback := { m.playback with last_frame := some audio_frame } }
      match mix_samples p_frames audio_frame sample_count
          (sample_count - m1.playback.frame_read_pos).toNat m1 with
      | none => none
      | some m2 => some (mix_pass_end p_frames audio_frame sample_count m2)

/-- The condition of the mixing loop of `_mix_resampled`
(ffmpeg_audio_stream.cpp, line 94). -/
def mix_condition (m : MixState) : Bool :=
  match m.playback.available_audio_frames with
  | [] => false
  | head :: _ => check_next_audio_frame_valid head m.playback

/-- How the mixing loop stands after a number of passes: it was left, it ran
into undefined behaviour, or it is still running. -/
inductive LoopOutcome where
  | left (m : MixState)
  | undefined
  | running (m : MixState)
  deriving DecidableEq, Repr

/-- The mixing loop of `_mix_resampled` (ffmpeg_audio_stream.cpp, lines 94-124)
for at most `n` passes. -/
def mix_loop (p_frames : Int) : Nat → MixState → LoopOutcome
  | 0, m => LoopOutcome.running m
  | n + 1, m =>
    if mix_condition m = true then
      match mix_pass p_frames m with
      | none => LoopOutcome.undefined
      | some (true, m1) => LoopOutcome.left m1
      | some (false, m1) => mix_loop p_frames n m1
    else LoopOutcome.left m

/-- How a call of `_mix_resampled` stands when its mixing loop has made the
passes allowed: it returned a value, with the buffer and the playback as it left
them; it ran into undefined behaviour; or its loop is still running. -/
inductive MixOutcome where
  | returned (value : Int) (p_buffer : List AudioFrame) (playback : FFmpegAudioStreamPlayback)
  | undefined
  | running (m : MixState)
  deriving DecidableEq, Repr

/-- The decision `audio_out_of_sync` of `_mix_resampled` (ffmpeg_audio_stream.cpp,
lines 75-84) for the head frame `peek_audio_frame`. -/
def audio_out_of_sync (peek_audio_frame : DecodedAudioFrame) (pb : FFmpegAudioStreamPlayback) :
    Bool :=
  let out :=
    decide (math_abs (pb.playback_position - peek_audio_frame.time) > LENIENCE_BEFORE_SEEK)
  if pb.looping = true then
    out && decide
      (math_abs (pb.playback_position - get_duration pb.decoder - peek_audio_frame.time)
          > LENIENCE_BEFORE_SEEK
        ∧ math_abs (pb.playback_position + get_duration pb.decoder - peek_audio_frame.time)
          > LENIENCE_BEFORE_SEEK)
  else out

/-- The start of `_mix_resampled` (ffmpeg_audio_stream.cpp, lines 50-66), on the
playback: the length of the stream, the advance of the playback position, and
the resync or the stop at the end of the stream. -/
def mix_end_of_stream (pb : FFmpegAudioStreamPlayback) : FFmpegAudioStreamPlayback :=
  let pb1 := if pb.stream_length = 0 then { pb with stream_length := get_length_internal pb } else pb
  let pb2 := { pb1 with playback_position := pb1.playback_position + 100 }
  if get_decoder_state pb2.decoder = DecoderState.END_OF_STREAM
      ∧ pb2.available_audio_frames.length = 0 then
    if pb2.playback_position < get_last_decoded_frame_time pb2.decoder then seek_into_sync pb2
    else { pb2 with playing := false }
  else pb2

/-- The adjustment of the playback position to the head frame in
`_mix_resampled` (ffmpeg_audio_stream.cpp, lines 70-90). -/
def mix_out_of_sync (pb : FFmpegAudioStreamPlayback) : FFmpegAudioStreamPlayback :=
  match pb.available_audio_frames with
  | [] => pb
  | peek_audio_frame :: _ =>
    if audio_out_of_sync peek_audio_frame pb = true then
      { pb with
        playback_position := peek_audio_frame.time
        last_playback_position := peek_audio_frame.time }
    else pb

/-- The part of `_mix_resampled` after its mixing loop (ffmpeg_audio_stream.cpp,
lines 125-141), for the frame time `frame_time` read at line 68. -/
def mix_epilogue (p_frames : Int) (frame_time : ℚ) (m : MixState) : MixOutcome :=
  let pb5 :=
    if m.playback.available_audio_frames.length = 0 then
      { m.playback with
        available_audio_frames :=
          m.playback.available_audio_frames ++ (get_decoded_audio_frames m.playback.decoder).1
        decoder := (get_decoded_audio_frames m.playback.decoder).2 }
    else m.playback
  let pb6 :=
    { pb5 with
      buffering := is_running pb5.decoder && decide (pb5.available_audio_frames.length = 0) }
  let pb7 :=
    if frame_time ≠ get_current_frame_time pb6 then
      { pb6 with frames_processed := pb6.frames_processed + 1 }
    else pb6
  let p_buffer := fill_silence m.p_buffer m.pos p_frames
  let pb8 :=
    if m.update_playback_position = true ∧ pb7.last_playback_position ≠ 0 then
      { pb7 with playback_position := pb7.last_playback_position }
    else pb7
  MixOutcome.returned p_frames p_buffer pb8

/-- The state in which `_mix_resampled` enters its mixing loop
(ffmpeg_audio_stream.cpp, lines 50-93). -/
def mix_entry (p_buffer : List AudioFrame) (p_frames : Int) (pb : FFmpegAudioStreamPlayback) :
    MixState where
  p_buffer := fill_silence p_buffer 0 p_frames
  pos := 0
  update_playback_position := false
  playback := mix_out_of_sync (mix_end_of_stream pb)

/-- The call `FFmpegAudioStreamPlayback::_mix_resampled` (ffmpeg_audio_stream.cpp,
lines 43-142) in the GDExtension build, with at most `fuel` passes of its mixing
loop. A negative `p_frames` sends the loop of lines 54-56 past the buffer. -/
def _mix_resampled (fuel : Nat) (p_buffer : List AudioFrame) (p_frames : Int)
    (pb : FFmpegAudioStreamPlayback) : MixOutcome :=
  if ¬ pb.playing = true then MixOutcome.returned 0 p_buffer pb
  else if p_frames < 0 then MixOutcome.undefined
  else
    let frame_time := get_current_frame_time (mix_end_of_stream pb)
    match mix_loop p_frames fuel (mix_entry p_buffer p_frames pb) with
    | LoopOutcome.running m => MixOutcome.running m
    | LoopOutcome.undefined => MixOutcome.undefined
    | LoopOutcome.left m => mix_epilogue p_frames frame_time m

/-- The steps of an execution of the playback: its calls `start`, `stop`, `seek`
and `_mix_resampled` (with the passes allowed to its mixing loop), and one pass
of the decode loop of its decoder. -/
inductive PlaybackOp where
  | start (p_time : ℚ)
  | stop
  | seek (p_time : ℚ)
  | mix (fuel : Nat) (p_frames : Int)
  | decoder_pass (lib : IterationAnswers)
  deriving DecidableEq, Repr

/-- One step of the playback; `none` when the decoder's pass or the mixer does
not return. -/
def playback_step (op : PlaybackOp) (pb : FFmpegAudioStreamPlayback) :
    Option FFmpegAudioStreamPlayback :=
  match op with
  | PlaybackOp.start p_time => some (start_internal p_time pb)
  | PlaybackOp.stop => some (stop_internal pb)
  | PlaybackOp.seek p_time => some (seek_internal p_time pb)
  | PlaybackOp.mix fuel p_frames =>
    match _mix_resampled fuel (List.replicate p_frames.toNat { left := 0, right := 0 })
        p_frames pb with
    | MixOutcome.returned _ _ pb1 => some pb1
    | _ => none
  | PlaybackOp.decoder_pass lib =>
    match step (Op.thread_iteration lib) pb.decoder with
    | some (_, d) => some { pb with decoder := d }
    | none => none

/-- A sequence of steps of the playback. -/
def playback_run : List PlaybackOp → FFmpegAudioStreamPlayback →
    Option FFmpegAudioStreamPlayback
  | [], pb => some pb
  | op :: rest, pb =>
    match playback_step op pb with
    | none => none
    | some pb1 => playback_run rest pb1

/-! ## Predicates of the statements -/

/-- The presentation times of the frames a drain is handed, in the order
`avcodec_receive_frame` hands them out. -/
def received_times (s : AudioDecoder) (frames : List ReceivedFrame) : List ℚ :=
  match s.audio_stream with
  | none => []
  | some st => frames.map (fun r => frame_time st s.audio_time_base_in_seconds r.frame)

/-- The fields that steer the drain and the loop and that no drain writes. -/
def SameControl (s s' : AudioDecoder) : Prop :=
  s'.audio_stream = s.audio_stream
    ∧ s'.audio_time_base_in_seconds = s.audio_time_base_in_seconds
    ∧ s'.skip_output_until_time = s.skip_output_until_time
    ∧ s'.skip_current_outputs = s.skip_current_outputs
    ∧ s'.looping = s.looping
    ∧ s'.thread = s.thread
    ∧ s'.thread_abort = s.thread_abort

/-- What a drain that is handed frames with the presentation times `times` may
do: it keeps the control fields, queues nothing but codec re-creations, and
appends frames whose times are, in order, among `times`, none below the skip
threshold and none at all while the discard flag is set. -/
def DrainEffect (times : List ℚ) (s s' : AudioDecoder) : Prop :=
  SameControl s s'
    ∧ (∃ extra, s'.decoder_commands = s.decoder_commands ++ extra
        ∧ ∀ c ∈ extra, c = Command.recreate_codec_context)
    ∧ (∃ added, s'.decoded_audio_frames = s.decoded_audio_frames ++ added
        ∧ List.Sublist (added.map (fun f => f.time)) times
        ∧ (∀ f ∈ added, s.skip_output_until_time ≤ f.time)
        ∧ (s.skip_current_outputs = true → added = []))

/-- The fields that `DrainEffect` speaks about. -/
def drain_fields (s : AudioDecoder) :
    Option AVStream × ℚ × ℚ × Bool × Bool × Bool × Bool × List Command × List DecodedAudioFrame :=
  (s.audio_stream, s.audio_time_base_in_seconds, s.skip_output_until_time,
    s.skip_current_outputs, s.looping, s.thread, s.thread_abort, s.decoder_commands,
    s.decoded_audio_frames)

/-- The later of two seek targets: the one found further down the queue, else
the target of the command itself. -/
def later_seek_target (found : Option ℚ) (c : Command) : Option ℚ :=
  match found, c with
  | some t, _ => some t
  | none, Command.seek_command t => some t
  | none, Command.recreate_codec_context => none

/-- The target of the last seek command of a queue, if it holds one. -/
def last_seek_target : List Command → Option ℚ
  | [] => none
  | c :: rest => later_seek_target (last_seek_target rest) c

/-- A step that passes the capacity gate or empties the buffer: any step but a
`return_audio_frame(s)`, a pass of the decode loop only when its drain is handed
at most one frame. -/
def GatedOp : Op → Prop
  | Op.return_audio_frame _ => False
  | Op.return_audio_frames _ => False
  | Op.thread_iteration lib => lib.decode.frames.length ≤ 1
  | _ => True

/-- A step of the decode loop or a `get_decoded_audio_frames`: no seek and no
`return_audio_frame(s)`. -/
def DecodeOrGet : Op → Prop
  | Op.thread_iteration _ => True
  | Op.get_decoded_audio_frames => True
  | _ => False

/-- The decoder between the call `seek(T)` and any later seek: the loop flag is
unset, no buffered frame is earlier than `T`, and either the seek command for `T`
is the last seek in the queue and the discard flag is still set, or no seek is
queued and the skip threshold is `T`. -/
def AfterSeek (T : ℚ) (s : AudioDecoder) : Prop :=
  s.looping = false
    ∧ (∀ f ∈ s.decoded_audio_frames, T ≤ f.time)
    ∧ ((s.skip_current_outputs = true ∧ last_seek_target s.decoder_commands = some T)
        ∨ (s.skip_output_until_time = T ∧ last_seek_target s.decoder_commands = none))

/-- The presentation times of the frames the codec hands out during a run, in
order, computed with the stream and the time base of `s`. -/
def emitted_times (s : AudioDecoder) : List Op → List ℚ
  | [] => []
  | Op.thread_iteration lib :: rest =>
    received_times s lib.decode.frames ++ emitted_times s rest
  | _ :: rest => emitted_times s rest

/-- The decode loop runs and has the stream it reads: the thread is launched,
not aborted, and `audio_stream` is set, as after a `start_decoding` that found
an audio stream. -/
def DecodeLoopRunning (s : AudioDecoder) : Prop :=
  s.thread = true ∧ s.thread_abort = false ∧ s.audio_stream ≠ none

/-- The handles that `_seek_command` passes to the libraries are usable: the
format context and the audio stream are not null, and the codec context is not
null and open. -/
def SeekHandlesSet (s : AudioDecoder) : Prop :=
  s.format_context ≠ none ∧ s.audio_stream ≠ none
    ∧ s.audio_codec_context.map (fun c => c.is_open) = some true

/-- The call `seek(T)` followed by the flush in which the decode loop executes
the queued seek command. -/
def seek_and_execute (lib : CodecAnswers) (p_time : ℚ) (p_wait : Bool) (s : AudioDecoder) :
    Option AudioDecoder :=
  flush_if_pending lib (seek p_time p_wait s)

/-- The first entry of the registry, in the order of `av_codec_iterate`, that is
a decoder for the codec id. -/
def first_matching_decoder (registry : List AVCodec) (p_codec_id : Nat) : Option AVCodec :=
  registry.find? (fun a => decide (a.id = p_codec_id) && a.is_decoder)

/-- The decoders that the calls of the class reach from a constructed one:
through `start_decoding`, through the steps of an execution (consumer calls,
seeks and passes of the decode loop), through a flush of the command queue, and
through the end of the thread function. -/
inductive ReachableDecoder : AudioDecoder → Prop where
  | constructed : ReachableDecoder AudioDecoder.new
  | started (prep : PrepareAnswers) (codec : CodecAnswers) {s : AudioDecoder} :
    ReachableDecoder s → ReachableDecoder (start_decoding prep codec s)
  | stepped (op : Op) {s s' : AudioDecoder} {out : Option (List DecodedAudioFrame)} :
    ReachableDecoder s → step op s = some (out, s') → ReachableDecoder s'
  | flushed (codec : CodecAnswers) {s s' : AudioDecoder} :
    ReachableDecoder s → flush_if_pending codec s = some s' → ReachableDecoder s'
  | exited {s : AudioDecoder} : ReachableDecoder s → ReachableDecoder (thread_exit s)

/-! ## Example values -/

/-- An audio stream with a time base of one millisecond. -/
def example_stream : AVStream where
  index := 0
  codec_type := AVMediaType.AUDIO
  codec_id := 86018
  time_base_num := 1
  time_base_den := 1000
  start_time := 0
  duration := 10000

/-- Answers of libavformat for an input with `example_stream` as its only and
best audio stream. -/
def example_prepare : PrepareAnswers where
  avformat_open_input := 0
  opened_context := { streams := [example_stream], duration := 10000000 }
  avformat_find_stream_info := 0
  av_find_best_stream := 0

/-- Answers of libavcodec when a software decoder is found and opens. -/
def example_codec : CodecAnswers where
  avcodec_find_decoder := true
  avcodec_alloc_context3 :=
    some { sample_rate := 44100, hw_device_ctx := false, is_open := false }
  avcodec_parameters_to_context := 0
  avcodec_open2 := 0

/-- A decoder after a `start_decoding` that found the stream and the codec. -/
def started_decoder : AudioDecoder :=
  start_decoding example_prepare example_codec AudioDecoder.new

/-- A received frame of 32 stereo float samples with the timestamp `ts`. -/
def example_frame (ts : Int) : ReceivedFrame where
  frame :=
    { best_effort_timestamp := ts
      pts := ts
      format := AVSampleFormat.FLT
      nb_channels := 2
      sample_rate := 44100
      nb_samples := 32
      data := List.replicate 64 0 }
  swr_alloc_set_opts2 := 0
  av_frame_get_buffer := 0
  swr_convert_frame := 0
  swr_out_data := List.replicate 64 0
  av_samples_get_buffer_size := 256

/-- The `DecodedAudioFrame` the drain builds from `example_frame ts` on
`started_decoder`. -/
def example_decoded (ts : Int) : DecodedAudioFrame where
  time := ts
  sample_data := List.replicate 64 0

/-- Answers of one pass of the decode loop: an audio packet is read and
accepted, and the codec hands out one frame per timestamp of `tss`, then
"try again". -/
def example_iteration (tss : List Int) : IterationAnswers where
  decode :=
    { av_read_frame := 0
      packet := { stream_index := 0 }
      avcodec_send_packet := 0
      frames := tss.map example_frame
      avcodec_receive_frame := -EAGAIN }
  codec := example_codec

/-- A run on `started_decoder`: two passes of the decode loop with one frame
each, a seek to 100 ms, a pass that executes the seek command, a pass that is
handed a frame at 150 ms, and a call of `get_decoded_audio_frames`. -/
def example_run : List Op :=
  [Op.thread_iteration (example_iteration [0]), Op.thread_iteration (example_iteration [1]),
    Op.seek 100 false, Op.thread_iteration (example_iteration [90]),
    Op.thread_iteration (example_iteration [150]), Op.get_decoded_audio_frames]

/-- Steps after a seek to 100 ms: a pass of the decode loop that is handed a
frame at 80 ms and then executes the seek command, a pass that is handed frames
at 90, 100 and 150 ms (the demuxer went back to an earlier keyframe), and a call
of `get_decoded_audio_frames`. -/
def example_after_seek : List Op :=
  [Op.thread_iteration (example_iteration [80]),
    Op.thread_iteration (example_iteration [90, 100, 150]), Op.get_decoded_audio_frames]

/-- A run without a seek: two passes of the decode loop, each followed by a
call of `get_decoded_audio_frames`. -/
def example_playback : List Op :=
  [Op.thread_iteration (example_iteration [10, 20]), Op.get_decoded_audio_frames,
    Op.thread_iteration (example_iteration [20, 30]), Op.get_decoded_audio_frames]

/-- The started decoder at the end of its input, with two frames still
buffered. -/
def end_of_stream_decoder : AudioDecoder :=
  { started_decoder with
    decoder_state := DecoderState.END_OF_STREAM
    decoded_audio_frames := [example_decoded 9960, example_decoded 9980] }

/-- Two seeks that overlap: `seek(100)` is called; `seek(200)` is called and has
released `audio_buffer_mutex` (line 432); before it reaches line 436 the decode
loop ends one pass with the flush that executes the seek command for 100 and
makes a further pass in which the codec hands out a frame at 120 ms; then
`seek(200)` pushes its command and returns. -/
def example_overlapping_seeks : List Op :=
  [Op.seek 100 false, Op.seek_locked 200, Op.thread_iteration (example_iteration [80]),
    Op.thread_iteration (example_iteration [120]), Op.seek_push 200 false]

/-- Answers of libavcodec when `avcodec_find_decoder` finds no decoder for the
codec of the stream. -/
def example_no_decoder : CodecAnswers where
  avcodec_find_decoder := false
  avcodec_alloc_context3 := none
  avcodec_parameters_to_context := 0
  avcodec_open2 := 0

/-- Answers of libavformat for an input that opens but holds no audio stream:
`av_find_best_stream` returns AVERROR_STREAM_NOT_FOUND. -/
def example_no_stream : PrepareAnswers where
  avformat_open_input := 0
  opened_context := { streams := [], duration := 0 }
  avformat_find_stream_info := 0
  av_find_best_stream := -1381258232

/-- Answers of one pass of the decode loop at the end of the input:
`av_read_frame` reports AVERROR_EOF, the codec accepts the flush packet and
hands out one last frame per timestamp of `tss`, then reports the end. -/
def example_end_of_input (tss : List Int) : IterationAnswers where
  decode :=
    { av_read_frame := AVERROR_EOF
      packet := { stream_index := 0 }
      avcodec_send_packet := 0
      frames := tss.map example_frame
      avcodec_receive_frame := AVERROR_EOF }
  codec := example_codec

/-- Answers of libavformat for an input that does not open (a network source
that times out). -/
def example_open_fails : PrepareAnswers where
  avformat_open_input := -110
  opened_context := { streams := [], duration := 0 }
  avformat_find_stream_info := 0
  av_find_best_stream := 0

/-- A decoder whose first `start_decoding` met an input that does not open. -/
def faulted_decoder : AudioDecoder :=
  start_decoding example_open_fails example_codec AudioDecoder.new

/-- The decoder `faulted_decoder` after a second `start_decoding`, for which the
input opens. -/
def restarted_decoder : AudioDecoder :=
  start_decoding example_prepare example_codec faulted_decoder

/-- A software decoder for codec 86018. -/
def example_software_codec : AVCodec where
  impl := 2
  id := 86018
  is_decoder := true
  hw_device_types := []

/-- A decoder for codec 86018 with hardware support. -/
def example_hardware_codec : AVCodec where
  impl := 3
  id := 86018
  is_decoder := true
  hw_device_types := [AVHWDeviceType.DXVA2, AVHWDeviceType.VIDEOTOOLBOX, AVHWDeviceType.NONE,
    AVHWDeviceType.CUDA, AVHWDeviceType.VAAPI]

/-- A codec registry: an encoder and two decoders for codec 86018, the second
decoder with hardware support, and a decoder for another codec. -/
def example_registry : List AVCodec :=
  [{ impl := 1, id := 86018, is_decoder := false, hw_device_types := [] },
    example_software_codec, example_hardware_codec,
    { impl := 4, id := 86017, is_decoder := true, hw_device_types := [AVHWDeviceType.CUDA] }]

/-- The started decoder with hardware decoding active: the flag set, every
hardware kind requested, and the codec context bound to a hardware device. -/
def hardware_decoder : AudioDecoder :=
  { started_decoder with
    hw_decoding_allowed := true
    audio_codec_context :=
      some { sample_rate := 44100, hw_device_ctx := true, is_open := true } }

/-- A received frame of 32 mono samples that is already interleaved 32-bit
float; `av_samples_get_buffer_size` answers 1 * 32 * 4 bytes. -/
def mono_float_frame : ReceivedFrame where
  frame :=
    { best_effort_timestamp := 0
      pts := 0
      format := AVSampleFormat.FLT
      nb_channels := 1
      sample_rate := 44100
      nb_samples := 32
      data := List.replicate 32 7 }
  swr_alloc_set_opts2 := 0
  av_frame_get_buffer := 0
  swr_convert_frame := 0
  swr_out_data := []
  av_samples_get_buffer_size := 128

/-- A received frame of 32 mono samples in planar signed 16-bit, which the
resampler converts; `av_samples_get_buffer_size` answers 2 * 32 * 4 bytes. -/
def mono_s16_frame : ReceivedFrame where
  frame :=
    { best_effort_timestamp := 0
      pts := 0
      format := AVSampleFormat.S16P
      nb_channels := 1
      sample_rate := 44100
      nb_samples := 32
      data := List.replicate 16 7 }
  swr_alloc_set_opts2 := 0
  av_frame_get_buffer := 0
  swr_convert_frame := 0
  swr_out_data := List.replicate 64 9
  av_samples_get_buffer_size := 256

/-- Answers of one pass of the decode loop in which the codec hands out the
frames `frames`. -/
def example_iteration_with (frames : List ReceivedFrame) : IterationAnswers where
  decode :=
    { av_read_frame := 0
      packet := { stream_index := 0 }
      avcodec_send_packet := 0
      frames := frames
      avcodec_receive_frame := -EAGAIN }
  codec := example_codec

/-- The started decoder in the state `RUNNING` with five frames buffered. -/
def full_decoder : AudioDecoder :=
  { started_decoder with
    decoder_state := DecoderState.RUNNING
    decoded_audio_frames := [0, 20, 40, 60, 80].map example_decoded }

/-- Answers of a decode step in which an audio packet is read and the codec
answers "try again" to it after handing out one frame per timestamp of `tss`. -/
def example_try_again (tss : List Int) : DecodeAnswers where
  av_read_frame := 0
  packet := { stream_index := 0 }
  avcodec_send_packet := -EAGAIN
  frames := tss.map example_frame
  avcodec_receive_frame := -EAGAIN

/-- Answers of libavcodec when a decoder is found and its context is allocated,
but `avcodec_open2` fails with -EINVAL. -/
def example_codec_not_opened : CodecAnswers where
  avcodec_find_decoder := true
  avcodec_alloc_context3 :=
    some { sample_rate := 44100, hw_device_ctx := false, is_open := false }
  avcodec_parameters_to_context := 0
  avcodec_open2 := -22

/-- A decoder after a `start_decoding` that found the stream but could not open
the codec: the stream is set, so the decode thread is launched. -/
def unopened_decoder : AudioDecoder :=
  start_decoding example_prepare example_codec_not_opened AudioDecoder.new

/-- Answers of a decode step at the end of the input in which the codec rejects
the flush packet with -EINVAL, as a codec that is not open does. -/
def example_rejected_flush : DecodeAnswers where
  av_read_frame := AVERROR_EOF
  packet := { stream_index := 0 }
  avcodec_send_packet := -22
  frames := []
  avcodec_receive_frame := -EAGAIN

/-- A received frame of 64 stereo samples that is already interleaved 32-bit
float, with the timestamp `ts`; `av_samples_get_buffer_size` answers 2 * 64 * 4
bytes (64 is a multiple of 32, so no sample is added for alignment). -/
def long_frame (ts : Int) : ReceivedFrame where
  frame :=
    { best_effort_timestamp := ts
      pts := ts
      format := AVSampleFormat.FLT
      nb_channels := 2
      sample_rate := 44100
      nb_samples := 64
      data := List.replicate 128 3 }
  swr_alloc_set_opts2 := 0
  av_frame_get_buffer := 0
  swr_convert_frame := 0
  swr_out_data := []
  av_samples_get_buffer_size := 512

/-- The start of a playback: it is started, the decode loop executes the seek
and decodes a frame of 32 samples, and a `_mix_resampled` fetches the frame. -/
def example_fetch : List PlaybackOp :=
  [PlaybackOp.start 0, PlaybackOp.decoder_pass (example_iteration [0]),
    PlaybackOp.decoder_pass (example_iteration [0]), PlaybackOp.mix 1 8]

/-- The playback after `example_fetch`: playing, with the read position 0 and a
head frame of 32 samples. -/
def fetched_playback : FFmpegAudioStreamPlayback where
  playback_position := 100
  last_playback_position := 0
  decoder :=
    { started_decoder with
      decoder_state := DecoderState.RUNNING
      skip_output_until_time := 0 }
  available_audio_frames := [example_decoded 0]
  last_frame := none
  frame_read_pos := 0
  looping := false
  buffering := false
  frames_processed := 0
  playing := true
  stream_length := 10

/-- A playback that is stopped in the middle of a frame and started again, on a
stream whose first frame has 32 samples (at 0 ms) and whose later frames have 64
(at 1 ms, 2 ms): it is started, and the decode loop executes the seek and decodes
the first two frames; a first `_mix_resampled` for 40 frames fetches them, a
second one mixes the 32 samples of the first frame and 8 of the second, and a
third one mixes 40 more of the second; the playback is stopped, and the decode
loop executes the seek; it is started, and the decode loop executes the seek and
decodes the first frame again; a `_mix_resampled` fetches it. A frame decoded
while the discard flag is set is dropped. -/
def example_restart : List PlaybackOp :=
  [PlaybackOp.start 0, PlaybackOp.decoder_pass (example_iteration [0]),
    PlaybackOp.decoder_pass (example_iteration [0]),
    PlaybackOp.decoder_pass (example_iteration_with [long_frame 1]),
    PlaybackOp.mix 1 40, PlaybackOp.mix 3 40, PlaybackOp.mix 2 40,
    PlaybackOp.stop, PlaybackOp.decoder_pass (example_iteration_with [long_frame 2]),
    PlaybackOp.start 0, PlaybackOp.decoder_pass (example_iteration [0]),
    PlaybackOp.decoder_pass (example_iteration [0]), PlaybackOp.mix 1 40]

/-- The playback after `example_restart`: playing, with the read position 48
that the stop left behind, and the first frame of the stream, of 32 samples, as
the head frame. -/
def stuck_playback : FFmpegAudioStreamPlayback :=
  { fetched_playback with
    last_playback_position := 1
    frame_read_pos := 48 }

/-- The mixing loop of a `_mix_resampled` for 40 frames on `stuck_playback`,
after its first pass. -/
def stuck_mix : MixState where
  p_buffer := List.replicate 40 { left := 0, right := 0 }
  pos := 0
  update_playback_position := true
  playback :=
    { stuck_playback with
      playback_position := 200
      last_playback_position := 0
      last_frame := some (example_decoded 0) }

/-! ## Theorems -/

/-! ### The frame buffer seen from the consumer -/

theorem return_audio_frames_buffer (fs : List DecodedAudioFrame) (s : AudioDecoder) :
    (return_audio_frames fs s).decoded_audio_frames = s.decoded_audio_frames ++ fs := by
  induction fs generalizing s with
  | nil => simp [return_audio_frames]
  | cons f rest ih => simp [return_audio_frames, ih, return_audio_frame]

/-- C1: for every buffer content, `get_decoded_audio_frames` returns exactly the
buffered frames in order and leaves the buffer empty, so that a second call made
right afterwards returns the empty sequence. -/
theorem get_decoded_audio_frames_drains (s : AudioDecoder) :
    (get_decoded_audio_frames s).1 = s.decoded_audio_frames
      ∧ (get_decoded_audio_frames s).2.decoded_audio_frames = []
      ∧ (get_decoded_audio_frames (get_decoded_audio_frames s).2).1 = [] := by
  simp [get_decoded_audio_frames]

/-- C2: for every buffer content B and every list F of frames,
`return_audio_frames F` followed by `get_decoded_audio_frames` returns B followed
by F in order; the frames after the first `B.length` are the frames handed back,
each with its time and its sample data, and the buffer is empty afterwards. -/
theorem return_then_get_round_trip (fs : List DecodedAudioFrame) (s : AudioDecoder) :
    (get_decoded_audio_frames (return_audio_frames fs s)).1 = s.decoded_audio_frames ++ fs
      ∧ ((get_decoded_audio_frames (return_audio_frames fs s)).1.drop
          s.decoded_audio_frames.length).map (fun f => (f.time, f.sample_data))
        = fs.map (fun f => (f.time, f.sample_data))
      ∧ (get_decoded_audio_frames (return_audio_frames fs s)).2.decoded_audio_frames = [] := by
  simp [get_decoded_audio_frames, return_audio_frames_buffer]

/-! ### The drain of received frames -/

theorem same_control_refl (s : AudioDecoder) : SameControl s s := by
  simp [SameControl]

theorem same_control_trans {s s1 s2 : AudioDecoder} (h1 : SameControl s s1)
    (h2 : SameControl s1 s2) : SameControl s s2 := by
  obtain ⟨a1, a2, a3, a4, a5, a6, a7⟩ := h1
  obtain ⟨b1, b2, b3, b4, b5, b6, b7⟩ := h2
  exact ⟨b1.trans a1, b2.trans a2, b3.trans a3, b4.trans a4, b5.trans a5, b6.trans a6,
    b7.trans a7⟩

theorem drain_effect_refl (s : AudioDecoder) : DrainEffect [] s s := by
  refine ⟨same_control_refl s, ⟨[], by simp⟩, ⟨[], by simp⟩⟩

theorem drain_effect_trans {t1 t2 : List ℚ} {s s1 s2 : AudioDecoder}
    (h1 : DrainEffect t1 s s1) (h2 : DrainEffect t2 s1 s2) : DrainEffect (t1 ++ t2) s s2 := by
  obtain ⟨c1, ⟨e1, he1, hr1⟩, ⟨a1, ha1, hs1, ht1, hf1⟩⟩ := h1
  obtain ⟨c2, ⟨e2, he2, hr2⟩, ⟨a2, ha2, hs2, ht2, hf2⟩⟩ := h2
  refine ⟨same_control_trans c1 c2, ⟨e1 ++ e2, by simp [he2, he1], ?_⟩, ⟨a1 ++ a2, by simp [ha2, ha1], ?_, ?_, ?_⟩⟩
  · intro c hc
    rcases List.mem_append.mp hc with h | h
    · exact hr1 c h
    · exact hr2 c h
  · simpa using List.Sublist.append hs1 hs2
  · intro f hf
    rcases List.mem_append.mp hf with h | h
    · exact ht1 f h
    · have := ht2 f h
      rw [c1.2.2.1] at this
      exact this
  · intro hflag
    have hflag1 : s1.skip_current_outputs = true := by rw [c1.2.2.2.1]; exact hflag
    simp [hf1 hflag, hf2 hflag1]

theorem drain_effect_mono {t t' : List ℚ} {s s' : AudioDecoder} (h : DrainEffect t s s')
    (ht : List.Sublist t t') : DrainEffect t' s s' := by
  obtain ⟨c, e, ⟨a, ha, hs, hrest⟩⟩ := h
  exact ⟨c, e, ⟨a, ha, hs.trans ht, hrest⟩⟩

theorem try_disable_hw_decoding_effect (e : Int) (s : AudioDecoder) :
    DrainEffect [] s (_try_disable_hw_decoding e s) := by
  unfold _try_disable_hw_decoding
  split
  · exact drain_effect_refl s
  · refine ⟨by simp [SameControl, push_command]; split <;> simp, ?_, ⟨[], ?_⟩⟩
    · refine ⟨[Command.recreate_codec_context], ?_, by simp⟩
      simp only [push_command]
      split <;> rfl
    · simp only [push_command]
      split <;> simp

theorem read_decoded_frame_effect (r : ReceivedFrame) (s s1 : AudioDecoder) (x : LoopExit)
    (h : read_decoded_frame r s = some (x, s1)) : DrainEffect (received_times s [r]) s s1 := by
  unfold read_decoded_frame at h
  cases hst : s.audio_stream with
  | none => simp [hst] at h
  | some st =>
    simp only [hst] at h
    have hnil : DrainEffect (received_times s [r]) s
        { s with
          audio_stream := some st
          last_decoded_frame_time :=
            frame_time st s.audio_time_base_in_seconds r.frame } :=
      ⟨by simp [SameControl, hst], ⟨[], by simp⟩, ⟨[], by simp⟩⟩
    split at h
    · simp only [Option.some.injEq, Prod.mk.injEq] at h
      rw [← h.2]
      exact drain_effect_mono (drain_effect_refl s) (List.nil_sublist _)
    · rename_i hskip
      simp only [not_or, not_lt, Bool.not_eq_true] at hskip
      split at h
      · simp at h
      · simp only [Option.some.injEq, Prod.mk.injEq] at h
        rw [← h.2]
        exact hnil
      · rename_i frame _
        split at h
        · simp only [Option.some.injEq, Prod.mk.injEq] at h
          rw [← h.2]
          exact hnil
        · simp only [Option.some.injEq, Prod.mk.injEq] at h
          rw [← h.2]
          refine ⟨by simp [SameControl, enqueue_locked, hskip.2, hst],
            ⟨[], by simp [enqueue_locked, hskip.2]⟩, ?_⟩
          refine ⟨[make_audio_frame (frame_time st s.audio_time_base_in_seconds r.frame)
            r.av_samples_get_buffer_size frame], by simp [enqueue_locked, hskip.2], ?_, ?_, ?_⟩
          · simp [received_times, hst, make_audio_frame]
          · simp [make_audio_frame, hskip.1]
          · simp [hskip.2]

theorem received_times_congr {s s' : AudioDecoder} (h : SameControl s s')
    (frames : List ReceivedFrame) : received_times s' frames = received_times s frames := by
  simp [received_times, h.1, h.2.1]

theorem received_times_cons (s : AudioDecoder) (r : ReceivedFrame) (rest : List ReceivedFrame) :
    received_times s (r :: rest) = received_times s [r] ++ received_times s rest := by
  unfold received_times
  cases s.audio_stream <;> simp

theorem received_times_length (s : AudioDecoder) (frames : List ReceivedFrame) :
    (received_times s frames).length ≤ frames.length := by
  unfold received_times
  cases s.audio_stream <;> simp

theorem read_decoded_audio_frames_effect (frames : List ReceivedFrame) (fin : Int)
    (s s' : AudioDecoder) (h : _read_decoded_audio_frames frames fin s = some s') :
    DrainEffect (received_times s frames) s s' := by
  induction frames generalizing s with
  | nil =>
    unfold _read_decoded_audio_frames at h
    split at h
    · split at h
      · simp only [Option.some.injEq] at h
        rw [← h]
        exact drain_effect_mono (try_disable_hw_decoding_effect fin s) (List.nil_sublist _)
      · simp only [Option.some.injEq] at h
        rw [← h]
        exact drain_effect_mono (drain_effect_refl s) (List.nil_sublist _)
    · simp at h
  | cons r rest ih =>
    unfold _read_decoded_audio_frames at h
    split at h
    · simp at h
    · rename_i s1 heq
      simp only [Option.some.injEq] at h
      rw [← h, received_times_cons]
      exact drain_effect_mono (read_decoded_frame_effect r s s1 _ heq) (List.sublist_append_left _ _)
    · rename_i s1 heq
      have h1 := read_decoded_frame_effect r s s1 _ heq
      have h2 := ih s1 h
      rw [received_times_congr h1.1] at h2
      rw [received_times_cons]
      exact drain_effect_trans h1 h2

theorem send_packet_effect (ctx : Option AVCodecContext) (pkt : Option AVPacket)
    (lib : DecodeAnswers) (s s' : AudioDecoder) (res : Int)
    (h : _send_packet ctx pkt lib s = some (res, s')) :
    res = lib.avcodec_send_packet ∧ DrainEffect (received_times s lib.frames) s s' := by
  unfold _send_packet at h
  simp only at h
  split at h
  · split at h
    · split at h
      · simp at h
      · rename_i s1 heq
        simp only [Option.some.injEq, Prod.mk.injEq] at h
        rw [← h.1, ← h.2]
        exact ⟨rfl, read_decoded_audio_frames_effect _ _ _ _ heq⟩
    · simp only [Option.some.injEq, Prod.mk.injEq] at h
      rw [← h.1, ← h.2]
      exact ⟨rfl, drain_effect_mono (drain_effect_refl s) (List.nil_sublist _)⟩
  · split at h
    · split at h
      · simp at h
      · split at h
        · simp only [Option.some.injEq, Prod.mk.injEq] at h
          rw [← h.1, ← h.2]
          exact ⟨rfl, drain_effect_mono (try_disable_hw_decoding_effect _ s) (List.nil_sublist _)⟩
        · simp only [Option.some.injEq, Prod.mk.injEq] at h
          rw [← h.1, ← h.2]
          exact ⟨rfl, drain_effect_mono (drain_effect_refl s) (List.nil_sublist _)⟩
    · simp at h

theorem drain_effect_congr {t : List ℚ} {s s' s0 s1 : AudioDecoder}
    (h : DrainEffect t s s') (h0 : drain_fields s0 = drain_fields s)
    (h1 : drain_fields s1 = drain_fields s') : DrainEffect t s0 s1 := by
  simp only [drain_fields, Prod.mk.injEq] at h0 h1
  obtain ⟨a1, a2, a3, a4, a5, a6, a7, a8, a9⟩ := h0
  obtain ⟨b1, b2, b3, b4, b5, b6, b7, b8, b9⟩ := h1
  unfold DrainEffect SameControl at *
  rw [a1, a2, a3, a4, a5, a6, a7, a8, a9, b1, b2, b3, b4, b5, b6, b7, b8, b9]
  exact h

theorem received_times_fields {s s0 : AudioDecoder} (h0 : drain_fields s0 = drain_fields s)
    (frames : List ReceivedFrame) : received_times s0 frames = received_times s frames := by
  simp only [drain_fields, Prod.mk.injEq] at h0
  simp [received_times, h0.1, h0.2.1]

theorem drain_effect_rebase {frames : List ReceivedFrame} {s s0 s2 s3 : AudioDecoder}
    (h : DrainEffect (received_times s0 frames) s0 s2) (h0 : drain_fields s0 = drain_fields s)
    (h3 : drain_fields s3 = drain_fields s2) : DrainEffect (received_times s frames) s s3 := by
  rw [received_times_fields h0] at h
  exact drain_effect_congr h h0.symm h3

theorem drain_effect_idle (frames : List ReceivedFrame) {s s3 : AudioDecoder}
    (h3 : drain_fields s3 = drain_fields s) : DrainEffect (received_times s frames) s s3 :=
  drain_effect_congr (drain_effect_mono (drain_effect_refl s) (List.nil_sublist _)) rfl h3

theorem decode_after_read_effect (res : Int) (p_packet : Option AVPacket)
    (lib : DecodeAnswers) (s s' : AudioDecoder)
    (h : decode_after_read res p_packet lib s = some s') :
    DrainEffect (received_times s lib.frames) s s'
      ∨ (s.looping = true
          ∧ ∃ s1, DrainEffect (received_times s lib.frames) s s1 ∧ s' = seek 0 false s1) := by
  unfold decode_after_read at h
  simp only at h
  split at h
  · split at h
    · rename_i pkt st hst
      split at h
      · split at h
        · simp at h
        · rename_i r s2 heq
          have h2 := (send_packet_effect _ _ _ _ _ _ heq).2
          split at h
          · simp only [Option.some.injEq] at h
            rw [← h]
            exact Or.inl (drain_effect_rebase h2 rfl rfl)
          · simp only [Option.some.injEq] at h
            rw [← h]
            exact Or.inl (drain_effect_rebase h2 rfl rfl)
      · simp only [Option.some.injEq] at h
        rw [← h]
        exact Or.inl (drain_effect_idle _ rfl)
    · simp at h
  · split at h
    · split at h
      · simp at h
      · rename_i r s1 heq
        have h1 := (send_packet_effect _ _ _ _ _ _ heq).2
        split at h
        · rename_i hloop
          simp only [Option.some.injEq] at h
          refine Or.inr ⟨?_, s1, h1, h.symm⟩
          rw [← h1.1.2.2.2.2.1]
          exact hloop
        · simp only [Option.some.injEq] at h
          rw [← h]
          exact Or.inl (drain_effect_rebase h1 rfl rfl)
    · split at h
      · simp only [Option.some.injEq] at h
        rw [← h]
        exact Or.inl (drain_effect_idle _ rfl)
      · simp only [Option.some.injEq] at h
        rw [← h]
        exact Or.inl (drain_effect_idle _ rfl)

theorem decode_next_frame_effect (lib : DecodeAnswers) (s s' : AudioDecoder)
    (h : _decode_next_frame lib s = some s') :
    DrainEffect (received_times s lib.frames) s s'
      ∨ (s.looping = true
          ∧ ∃ s1, DrainEffect (received_times s lib.frames) s s1 ∧ s' = seek 0 false s1) := by
  unfold _decode_next_frame at h
  split at h
  · exact decode_after_read_effect _ _ _ _ _ h
  · exact decode_after_read_effect _ _ _ _ _ h

theorem decode_if_needed_effect (lib : DecodeAnswers) (s s' : AudioDecoder)
    (h : decode_if_needed lib s = some s') :
    DrainEffect (received_times s lib.frames) s s'
      ∨ (s.looping = true
          ∧ ∃ s1, DrainEffect (received_times s lib.frames) s s1 ∧ s' = seek 0 false s1) := by
  unfold decode_if_needed at h
  simp only at h
  split at h
  · exact decode_next_frame_effect _ _ _ h
  · simp only [Option.some.injEq] at h
    rw [← h]
    exact Or.inl (drain_effect_idle _ rfl)

theorem thread_switch_effect (lib : DecodeAnswers) (s s' : AudioDecoder)
    (h : thread_switch lib s = some s') :
    DrainEffect (received_times s lib.frames) s s'
      ∨ (s.looping = true
          ∧ ∃ s1, DrainEffect (received_times s lib.frames) s s1 ∧ s' = seek 0 false s1) := by
  unfold thread_switch at h
  split at h
  · exact decode_if_needed_effect _ _ _ h
  · exact decode_if_needed_effect _ _ _ h
  · simp only [Option.some.injEq] at h
    rw [← h]
    exact Or.inl (drain_effect_idle _ rfl)
  · simp only [Option.some.injEq] at h
    rw [← h]
    exact Or.inl (drain_effect_idle _ rfl)

theorem thread_switch_at_capacity (lib : DecodeAnswers) (s s' : AudioDecoder)
    (h : thread_switch lib s = some s')
    (hfull : MAX_PENDING_FRAMES ≤ s.decoded_audio_frames.length) :
    s'.decoded_audio_frames = s.decoded_audio_frames := by
  have hlt : ¬ s.decoded_audio_frames.length < MAX_PENDING_FRAMES := Nat.not_lt.mpr hfull
  unfold thread_switch decode_if_needed at h
  split at h
  · simp only [hlt, decide_False, Bool.false_eq_true, ↓reduceIte, Option.some.injEq] at h
    rw [← h]
  · simp only [hlt, decide_False, Bool.false_eq_true, ↓reduceIte, Option.some.injEq] at h
    rw [← h]
  · simp only [Option.some.injEq] at h
    rw [← h]
  · simp only [Option.some.injEq] at h
    rw [← h]

theorem drain_effect_length_le {t : List ℚ} {s s' : AudioDecoder} (h : DrainEffect t s s') :
    s'.decoded_audio_frames.length ≤ s.decoded_audio_frames.length + t.length := by
  obtain ⟨_, _, ⟨a, ha, hs, _⟩⟩ := h
  have := hs.length_le
  simp only [List.length_map] at this
  rw [ha, List.length_append]
  omega

theorem thread_switch_length (lib : DecodeAnswers) (s s' : AudioDecoder)
    (h : thread_switch lib s = some s') :
    s'.decoded_audio_frames.length
      ≤ max s.decoded_audio_frames.length (MAX_PENDING_FRAMES - 1 + lib.frames.length) := by
  by_cases hfull : MAX_PENDING_FRAMES ≤ s.decoded_audio_frames.length
  · rw [thread_switch_at_capacity lib s s' h hfull]
    exact le_max_left _ _
  · have hlen := received_times_length s lib.frames
    rcases thread_switch_effect lib s s' h with hd | ⟨_, s1, _, hs⟩
    · have := drain_effect_length_le hd
      simp only [MAX_PENDING_FRAMES] at hfull ⊢
      omega
    · rw [hs]
      simp [seek, seek_push, seek_locked, push_command]

theorem seek_command_of_handles (T : ℚ) (s : AudioDecoder) (h : SeekHandlesSet s) :
    _seek_command T s =
      some { s with
        skip_output_until_time := T
        decoder_state := DecoderState.READY
        skip_current_outputs := false } := by
  obtain ⟨hf, hs, hc⟩ := h
  unfold _seek_command
  cases hfc : s.format_context with
  | none => exact absurd hfc hf
  | some fc =>
    cases hst : s.audio_stream with
    | none => exact absurd hst hs
    | some st =>
      cases hctx : s.audio_codec_context with
      | none => simp [hctx] at hc
      | some ctx =>
        have hopen : ctx.is_open = true := by simpa [hctx] using hc
        simp only [hopen, ↓reduceIte]

theorem seek_command_returns (T : ℚ) (s s' : AudioDecoder) (h : _seek_command T s = some s') :
    SeekHandlesSet s
      ∧ s' = { s with
          skip_output_until_time := T
          decoder_state := DecoderState.READY
          skip_current_outputs := false } := by
  unfold _seek_command at h
  split at h
  · rename_i fc st ctx hfc hst hctx
    split at h
    · rename_i hopen
      simp only [Option.some.injEq] at h
      refine ⟨⟨by rw [hfc]; simp, by rw [hst]; simp, by rw [hctx]; simp [hopen]⟩, h.symm⟩
    · simp at h
  · simp at h

theorem execute_command_effect (lib : CodecAnswers) (c : Command) (s s' : AudioDecoder)
    (h : execute_command lib c s = some s') :
    s'.decoded_audio_frames = s.decoded_audio_frames
      ∧ s'.decoder_commands = s.decoder_commands
      ∧ s'.audio_stream = s.audio_stream
      ∧ s'.audio_time_base_in_seconds = s.audio_time_base_in_seconds
      ∧ s'.looping = s.looping
      ∧ s'.thread = s.thread
      ∧ s'.thread_abort = s.thread_abort
      ∧ s'.last_decoded_frame_time = s.last_decoded_frame_time
      ∧ (∀ t, c = Command.seek_command t →
          s'.skip_output_until_time = t ∧ s'.skip_current_outputs = false
            ∧ s'.decoder_state = DecoderState.READY)
      ∧ (c = Command.recreate_codec_context →
          s'.skip_output_until_time = s.skip_output_until_time
            ∧ s'.skip_current_outputs = s.skip_current_outputs
            ∧ s'.decoder_state = s.decoder_state) := by
  cases c with
  | seek_command t =>
    simp only [execute_command] at h
    rw [(seek_command_returns t s s' h).2]
    simp
  | recreate_codec_context =>
    simp only [execute_command, Option.some.injEq] at h
    rw [← h]
    unfold recreate_codec_context
    split
    · simp
    · split
      · simp only
        split
        · simp
        · split
          · simp
          · split <;> simp
      · simp

/-! ### The command flush -/

theorem flush_commands_effect (lib : CodecAnswers) (cmds : List Command) (s s' : AudioDecoder)
    (h : flush_commands lib cmds s = some s') :
    s'.decoded_audio_frames = s.decoded_audio_frames
      ∧ s'.decoder_commands = s.decoder_commands
      ∧ s'.audio_stream = s.audio_stream
      ∧ s'.audio_time_base_in_seconds = s.audio_time_base_in_seconds
      ∧ s'.looping = s.looping
      ∧ s'.thread = s.thread
      ∧ s'.thread_abort = s.thread_abort
      ∧ s'.last_decoded_frame_time = s.last_decoded_frame_time
      ∧ (∀ t, last_seek_target cmds = some t →
          s'.skip_output_until_time = t ∧ s'.skip_current_outputs = false
            ∧ s'.decoder_state = DecoderState.READY)
      ∧ (last_seek_target cmds = none →
          s'.skip_output_until_time = s.skip_output_until_time
            ∧ s'.skip_current_outputs = s.skip_current_outputs
            ∧ s'.decoder_state = s.decoder_state) := by
  induction cmds generalizing s with
  | nil =>
    simp only [flush_commands, Option.some.injEq] at h
    rw [← h]
    simp [last_seek_target]
  | cons c rest ih =>
    unfold flush_commands at h
    split at h
    · simp at h
    · rename_i s1 heq
      obtain ⟨a1, a2, a3, a4, a5, a6, a7, a8, a9, a10⟩ := execute_command_effect lib c s s1 heq
      obtain ⟨b1, b2, b3, b4, b5, b6, b7, b8, b9, b10⟩ := ih s1 h
      refine ⟨b1.trans a1, b2.trans a2, b3.trans a3, b4.trans a4, b5.trans a5, b6.trans a6,
        b7.trans a7, b8.trans a8, ?_, ?_⟩
      · intro t ht
        simp only [last_seek_target] at ht
        cases hrest : last_seek_target rest with
        | some t' =>
          simp only [hrest, later_seek_target, Option.some.injEq] at ht
          rw [← ht]
          exact b9 t' hrest
        | none =>
          simp only [hrest] at ht
          cases c with
          | seek_command t0 =>
            simp only [later_seek_target, Option.some.injEq] at ht
            obtain ⟨c1, c2, c3⟩ := a9 t0 rfl
            obtain ⟨d1, d2, d3⟩ := b10 hrest
            rw [← ht]
            exact ⟨d1.trans c1, d2.trans c2, d3.trans c3⟩
          | recreate_codec_context => simp [later_seek_target] at ht
      · intro hnone
        simp only [last_seek_target] at hnone
        cases hrest : last_seek_target rest with
        | some t' => simp [hrest, later_seek_target] at hnone
        | none =>
          simp only [hrest] at hnone
          cases c with
          | seek_command t0 => simp [later_seek_target] at hnone
          | recreate_codec_context =>
            obtain ⟨c1, c2, c3⟩ := a10 rfl
            obtain ⟨d1, d2, d3⟩ := b10 hrest
            exact ⟨d1.trans c1, d2.trans c2, d3.trans c3⟩

theorem flush_if_pending_effect (lib : CodecAnswers) (s s' : AudioDecoder)
    (h : flush_if_pending lib s = some s') :
    s'.decoded_audio_frames = s.decoded_audio_frames
      ∧ s'.decoder_commands = []
      ∧ s'.audio_stream = s.audio_stream
      ∧ s'.audio_time_base_in_seconds = s.audio_time_base_in_seconds
      ∧ s'.looping = s.looping
      ∧ s'.thread = s.thread
      ∧ s'.thread_abort = s.thread_abort
      ∧ s'.last_decoded_frame_time = s.last_decoded_frame_time
      ∧ (∀ t, last_seek_target s.decoder_commands = some t →
          s'.skip_output_until_time = t ∧ s'.skip_current_outputs = false
            ∧ s'.decoder_state = DecoderState.READY)
      ∧ (last_seek_target s.decoder_commands = none →
          s'.skip_output_until_time = s.skip_output_until_time
            ∧ s'.skip_current_outputs = s.skip_current_outputs
            ∧ s'.decoder_state = s.decoder_state) := by
  unfold flush_if_pending at h
  exact flush_commands_effect lib _ _ _ h

/-! ### The capacity of the frame buffer -/

theorem thread_iteration_length (lib : IterationAnswers) (s s' : AudioDecoder)
    (h : thread_iteration lib s = some s') :
    s'.decoded_audio_frames.length
      ≤ max s.decoded_audio_frames.length (MAX_PENDING_FRAMES - 1 + lib.decode.frames.length) := by
  unfold thread_iteration at h
  split at h
  · simp at h
  · rename_i s1 heq
    rw [(flush_if_pending_effect _ _ _ h).1]
    exact thread_switch_length _ _ _ heq

theorem step_gated_length (op : Op) (s s' : AudioDecoder) (out : Option (List DecodedAudioFrame))
    (hop : GatedOp op) (h : step op s = some (out, s'))
    (hlen : s.decoded_audio_frames.length ≤ MAX_PENDING_FRAMES) :
    s'.decoded_audio_frames.length ≤ MAX_PENDING_FRAMES := by
  cases op with
  | get_decoded_audio_frames =>
    simp only [step, get_decoded_audio_frames, Option.some.injEq, Prod.mk.injEq] at h
    rw [← h.2]
    simp
  | return_audio_frame f => exact absurd hop (by simp [GatedOp])
  | return_audio_frames fs => exact absurd hop (by simp [GatedOp])
  | seek t w =>
    simp only [step, Option.some.injEq, Prod.mk.injEq] at h
    rw [← h.2]
    simp [seek, seek_push, seek_locked, push_command]
  | seek_locked t =>
    simp only [step, Option.some.injEq, Prod.mk.injEq] at h
    rw [← h.2]
    simp [seek_locked]
  | seek_push t w =>
    simp only [step, Option.some.injEq, Prod.mk.injEq] at h
    rw [← h.2]
    simpa [seek_push, push_command] using hlen
  | thread_iteration lib =>
    simp only [step] at h
    split at h
    · split at h
      · simp at h
      · rename_i s1 heq
        simp only [Option.some.injEq, Prod.mk.injEq] at h
        rw [← h.2]
        have hb := thread_iteration_length lib s s1 heq
        simp only [GatedOp] at hop
        simp only [MAX_PENDING_FRAMES] at hb hlen ⊢
        omega
    · simp at h

theorem run_gated_length (ops : List Op) (s s' : AudioDecoder)
    (outs : List (List DecodedAudioFrame)) (hops : ∀ op ∈ ops, GatedOp op)
    (h : run ops s = some (outs, s'))
    (hlen : s.decoded_audio_frames.length ≤ MAX_PENDING_FRAMES) :
    s'.decoded_audio_frames.length ≤ MAX_PENDING_FRAMES := by
  induction ops generalizing s outs with
  | nil =>
    simp only [run, Option.some.injEq, Prod.mk.injEq] at h
    rw [← h.2]
    exact hlen
  | cons op rest ih =>
    unfold run at h
    split at h
    · simp at h
    · rename_i out s1 heq
      split at h
      · simp at h
      · rename_i outs2 s2 heq2
        simp only [Option.some.injEq, Prod.mk.injEq] at h
        rw [h.2] at heq2
        exact ih s1 outs2 (fun o ho => hops o (List.mem_cons_of_mem _ ho)) heq2
          (step_gated_length op s s1 out (hops op (List.mem_cons_self _ _)) heq hlen)

/-- C3 as stated fails: from an empty buffer, `return_audio_frames` with six
frames leaves six frames in the buffer, and so does one pass of the decode loop
whose drain is handed six frames; `MAX_PENDING_FRAMES` is five. -/
theorem frame_buffer_exceeds_capacity :
    AudioDecoder.new.decoded_audio_frames = []
      ∧ (run [Op.return_audio_frames ([0, 1, 2, 3, 4, 5].map example_decoded)]
          AudioDecoder.new).map (fun r => r.2.decoded_audio_frames.length) = some 6
      ∧ started_decoder.decoded_audio_frames = []
      ∧ (run [Op.thread_iteration (example_iteration [0, 1, 2, 3, 4, 5])]
          started_decoder).map (fun r => r.2.decoded_audio_frames)
        = some ([0, 1, 2, 3, 4, 5].map example_decoded)
      ∧ MAX_PENDING_FRAMES < 6 := by
  refine ⟨rfl, by decide, by decide, by decide!, by decide⟩

/-- C3, amended: in every state reached from an empty buffer through
`get_decoded_audio_frames`, `seek` (whole or in its two halves) and passes of the
decode loop whose drain is handed at most one frame, the frame buffer holds at
most `MAX_PENDING_FRAMES` = 5 frames. -/
theorem frame_buffer_within_capacity (ops : List Op) (s s' : AudioDecoder)
    (outs : List (List DecodedAudioFrame)) (hempty : s.decoded_audio_frames = [])
    (hops : ∀ op ∈ ops, GatedOp op) (h : run ops s = some (outs, s')) :
    s'.decoded_audio_frames.length ≤ MAX_PENDING_FRAMES ∧ MAX_PENDING_FRAMES = 5 :=
  ⟨run_gated_length ops s s' outs hops h (by simp [hempty]), rfl⟩

theorem frame_buffer_within_capacity_witness :
    started_decoder.decoded_audio_frames = []
      ∧ (∀ op ∈ example_run, GatedOp op)
      ∧ (run example_run started_decoder).map (fun r => r.1) = some [[example_decoded 150]]
      ∧ ∃ outs s', run example_run started_decoder = some (outs, s')
          ∧ s'.decoded_audio_frames.length ≤ MAX_PENDING_FRAMES := by
  have hops : ∀ op ∈ example_run, GatedOp op := by
    intro op hop
    simp only [example_run, List.mem_cons, List.mem_singleton, List.not_mem_nil, or_false] at hop
    rcases hop with h | h | h | h | h | h <;> subst h <;> simp [GatedOp, example_iteration]
  have hsome : (run example_run started_decoder).isSome = true := by decide!
  obtain ⟨⟨outs, s'⟩, h⟩ := Option.isSome_iff_exists.mp hsome
  exact ⟨by decide, hops, by decide!, outs, s', h,
    (frame_buffer_within_capacity example_run started_decoder s' outs (by decide) hops h).1⟩

/-! ### The skip window after a seek -/

theorem last_seek_target_append_recreate (cmds extra : List Command)
    (h : ∀ c ∈ extra, c = Command.recreate_codec_context) :
    last_seek_target (cmds ++ extra) = last_seek_target cmds := by
  induction cmds with
  | nil =>
    induction extra with
    | nil => rfl
    | cons c rest ih =>
      have hc := h c (List.mem_cons_self _ _)
      have hrest := ih (fun x hx => h x (List.mem_cons_of_mem _ hx))
      simp only [List.nil_append] at hrest ⊢
      simp [last_seek_target, hrest, hc, later_seek_target]
  | cons c rest ih => simp [last_seek_target, ih]

theorem last_seek_target_append_seek (cmds : List Command) (t : ℚ) :
    last_seek_target (cmds ++ [Command.seek_command t]) = some t := by
  induction cmds with
  | nil => simp [last_seek_target, later_seek_target]
  | cons c rest ih => simp [last_seek_target, ih, later_seek_target]

theorem seek_establishes_after_seek (T : ℚ) (w : Bool) (s : AudioDecoder)
    (hloop : s.looping = false) : AfterSeek T (seek T w s) := by
  refine ⟨by simp [seek, seek_push, seek_locked, push_command, hloop], ?_, Or.inl ⟨?_, ?_⟩⟩
  · simp [seek, seek_push, seek_locked, push_command]
  · simp [seek, seek_push, seek_locked, push_command]
  · simp [seek, seek_push, seek_locked, push_command, last_seek_target_append_seek]

theorem thread_iteration_after_seek (T : ℚ) (lib : IterationAnswers) (s s' : AudioDecoder)
    (hinv : AfterSeek T s) (h : thread_iteration lib s = some s') : AfterSeek T s' := by
  unfold thread_iteration at h
  split at h
  · simp at h
  · rename_i s1 heq
    obtain ⟨hloop, hbuf, hphase⟩ := hinv
    have hd : DrainEffect (received_times s lib.decode.frames) s s1 := by
      rcases thread_switch_effect _ _ _ heq with hd | ⟨hl, _⟩
      · exact hd
      · rw [hloop] at hl
        exact absurd hl (by simp)
    obtain ⟨hc, ⟨extra, hcmds, hextra⟩, ⟨added, hadd, _, hge, hflag⟩⟩ := hd
    obtain ⟨f1, _, _, _, f5, _, _, _, f9, f10⟩ := flush_if_pending_effect _ _ _ h
    have hlast : last_seek_target s1.decoder_commands = last_seek_target s.decoder_commands := by
      rw [hcmds]
      exact last_seek_target_append_recreate _ _ hextra
    have hempty : last_seek_target s'.decoder_commands = none := by
      rw [(flush_if_pending_effect _ _ _ h).2.1]
      rfl
    refine ⟨by rw [f5, hc.2.2.2.2.1]; exact hloop, ?_, Or.inr ⟨?_, hempty⟩⟩
    · intro f hf
      rw [f1, hadd] at hf
      rcases List.mem_append.mp hf with hf | hf
      · exact hbuf f hf
      · rcases hphase with ⟨hset, _⟩ | ⟨hskip, _⟩
        · rw [hflag hset] at hf
          exact absurd hf (List.not_mem_nil _)
        · rw [← hskip]
          exact hge f hf
    · rcases hphase with ⟨_, hq⟩ | ⟨hskip, hq⟩
      · exact (f9 T (hlast.trans hq)).1
      · rw [(f10 (hlast.trans hq)).1, hc.2.2.1]
        exact hskip

theorem step_after_seek (T : ℚ) (op : Op) (s s' : AudioDecoder)
    (out : Option (List DecodedAudioFrame)) (hop : DecodeOrGet op) (hinv : AfterSeek T s)
    (h : step op s = some (out, s')) :
    (∀ r ∈ out.toList, ∀ f ∈ r, T ≤ f.time) ∧ AfterSeek T s' := by
  cases op with
  | get_decoded_audio_frames =>
    simp only [step, get_decoded_audio_frames, Option.some.injEq, Prod.mk.injEq] at h
    rw [← h.1, ← h.2]
    refine ⟨?_, hinv.1, by simp, hinv.2.2⟩
    intro r hr f hf
    simp only [Option.toList, List.mem_singleton] at hr
    rw [hr] at hf
    exact hinv.2.1 f hf
  | thread_iteration lib =>
    simp only [step] at h
    split at h
    · split at h
      · simp at h
      · rename_i s1 heq
        simp only [Option.some.injEq, Prod.mk.injEq] at h
        rw [← h.1, ← h.2]
        exact ⟨by simp [Option.toList], thread_iteration_after_seek T lib s s1 hinv heq⟩
    · simp at h
  | return_audio_frame f => exact absurd hop (by simp [DecodeOrGet])
  | return_audio_frames fs => exact absurd hop (by simp [DecodeOrGet])
  | seek t w => exact absurd hop (by simp [DecodeOrGet])
  | seek_locked t => exact absurd hop (by simp [DecodeOrGet])
  | seek_push t w => exact absurd hop (by simp [DecodeOrGet])

theorem run_after_seek (T : ℚ) (ops : List Op) (s s' : AudioDecoder)
    (outs : List (List DecodedAudioFrame)) (hops : ∀ op ∈ ops, DecodeOrGet op)
    (hinv : AfterSeek T s) (h : run ops s = some (outs, s')) :
    (∀ r ∈ outs, ∀ f ∈ r, T ≤ f.time) ∧ AfterSeek T s' := by
  induction ops generalizing s outs with
  | nil =>
    simp only [run, Option.some.injEq, Prod.mk.injEq] at h
    rw [← h.1, ← h.2]
    exact ⟨by simp, hinv⟩
  | cons op rest ih =>
    unfold run at h
    split at h
    · simp at h
    · rename_i out s1 heq
      split at h
      · simp at h
      · rename_i outs2 s2 heq2
        simp only [Option.some.injEq, Prod.mk.injEq] at h
        rw [h.2] at heq2
        obtain ⟨hout, hinv1⟩ :=
          step_after_seek T op s s1 out (hops op (List.mem_cons_self _ _)) hinv heq
        obtain ⟨houts, hinv2⟩ :=
          ih s1 outs2 (fun o ho => hops o (List.mem_cons_of_mem _ ho)) hinv1 heq2
        refine ⟨?_, hinv2⟩
        intro r hr
        rw [← h.1] at hr
        rcases List.mem_append.mp hr with hr | hr
        · exact hout r hr
        · exact houts r hr

/-- A seek that no other seek overlaps: for every target time T and whatever
timestamps the codec hands out afterwards (also below T, as after a seek to an
earlier keyframe), once a call `seek(T)` has been made as one step, with no
command of an earlier seek executed between its locked section and its push,
every later result of `get_decoded_audio_frames` holds no frame whose time is
less than T, as long as the steps that follow are passes of the decode loop and
`get_decoded_audio_frames` calls and the loop flag is unset (no further seek,
neither by the consumer nor by the loop at the end of the input); after the run
the skip threshold is T or the seek command is still queued behind a set discard
flag. -/
theorem seek_drops_frames_before_target (T : ℚ) (w : Bool) (ops : List Op)
    (s s' : AudioDecoder) (outs : List (List DecodedAudioFrame))
    (hloop : s.looping = false) (hops : ∀ op ∈ ops, DecodeOrGet op)
    (h : run (Op.seek T w :: ops) s = some (outs, s')) :
    (∀ r ∈ outs, ∀ f ∈ r, ¬ f.time < T) ∧ AfterSeek T s' := by
  unfold run at h
  simp only [step] at h
  split at h
  · simp at h
  · rename_i outs2 s2 heq2
    simp only [Option.toList, List.nil_append, Option.some.injEq, Prod.mk.injEq] at h
    rw [h.1, h.2] at heq2
    obtain ⟨houts, hinv⟩ :=
      run_after_seek T ops (seek T w s) s' outs hops (seek_establishes_after_seek T w s hloop) heq2
    exact ⟨fun r hr f hf => not_lt.mpr (houts r hr f hf), hinv⟩

theorem seek_drops_frames_before_target_witness :
    started_decoder.looping = false
      ∧ (∀ op ∈ example_after_seek, DecodeOrGet op)
      ∧ (run (Op.seek 100 false :: example_after_seek) started_decoder).map (fun r => r.1)
          = some [[example_decoded 100, example_decoded 150]]
      ∧ ∃ outs s', run (Op.seek 100 false :: example_after_seek) started_decoder = some (outs, s')
          ∧ (∀ r ∈ outs, ∀ f ∈ r, ¬ f.time < 100) ∧ AfterSeek 100 s' := by
  have hops : ∀ op ∈ example_after_seek, DecodeOrGet op := by
    intro op hop
    simp only [example_after_seek, List.mem_cons, List.mem_singleton, List.not_mem_nil,
      or_false] at hop
    rcases hop with h | h | h <;> subst h <;> simp [DecodeOrGet]
  have hsome : (run (Op.seek 100 false :: example_after_seek) started_decoder).isSome = true := by
    decide!
  obtain ⟨⟨outs, s'⟩, h⟩ := Option.isSome_iff_exists.mp hsome
  exact ⟨by decide, hops, by decide!, outs, s', h,
    seek_drops_frames_before_target 100 false example_after_seek started_decoder s' outs
      (by decide) hops h⟩

/-! ### The order of the returned frames -/

theorem thread_iteration_buffer (lib : IterationAnswers) (s s' : AudioDecoder)
    (h : thread_iteration lib s = some s') :
    s'.audio_stream = s.audio_stream
      ∧ s'.audio_time_base_in_seconds = s.audio_time_base_in_seconds
      ∧ List.Sublist (s'.decoded_audio_frames.map (fun f => f.time))
          (s.decoded_audio_frames.map (fun f => f.time)
            ++ received_times s lib.decode.frames) := by
  unfold thread_iteration at h
  split at h
  · simp at h
  · rename_i s1 heq
    obtain ⟨f1, _, f3, f4, _⟩ := flush_if_pending_effect _ _ _ h
    rcases thread_switch_effect _ _ _ heq with hd | ⟨_, s0, hd, hs⟩
    · obtain ⟨hc, _, ⟨added, hadd, hsub, _⟩⟩ := hd
      refine ⟨f3.trans hc.1, f4.trans hc.2.1, ?_⟩
      rw [f1, hadd, List.map_append]
      exact List.Sublist.append (List.Sublist.refl _) hsub
    · obtain ⟨hc, _⟩ := hd
      refine ⟨?_, ?_, ?_⟩
      · rw [f3, hs]
        simpa [seek, seek_push, seek_locked, push_command] using hc.1
      · rw [f4, hs]
        simpa [seek, seek_push, seek_locked, push_command] using hc.2.1
      · rw [f1, hs]
        simp [seek, seek_push, seek_locked, push_command]

theorem emitted_times_fields {s s1 : AudioDecoder} (h1 : s1.audio_stream = s.audio_stream)
    (h2 : s1.audio_time_base_in_seconds = s.audio_time_base_in_seconds) (ops : List Op) :
    emitted_times s1 ops = emitted_times s ops := by
  induction ops with
  | nil => rfl
  | cons op rest ih =>
    cases op <;> simp [emitted_times, ih, received_times, h1, h2]

theorem run_returns_sublist (ops : List Op) (s s' : AudioDecoder)
    (outs : List (List DecodedAudioFrame)) (hops : ∀ op ∈ ops, DecodeOrGet op)
    (h : run ops s = some (outs, s')) :
    List.Sublist ((outs.flatten ++ s'.decoded_audio_frames).map (fun f => f.time))
      (s.decoded_audio_frames.map (fun f => f.time) ++ emitted_times s ops) := by
  induction ops generalizing s outs with
  | nil =>
    simp only [run, Option.some.injEq, Prod.mk.injEq] at h
    rw [← h.1, ← h.2]
    simp [emitted_times]
  | cons op rest ih =>
    unfold run at h
    split at h
    · simp at h
    · rename_i out s1 heq
      split at h
      · simp at h
      · rename_i outs2 s2 heq2
        simp only [Option.some.injEq, Prod.mk.injEq] at h
        rw [h.2] at heq2
        have ih1 := ih s1 outs2 (fun o ho => hops o (List.mem_cons_of_mem _ ho)) heq2
        have hop := hops op (List.mem_cons_self _ _)
        cases op with
        | get_decoded_audio_frames =>
          simp only [step, get_decoded_audio_frames, Option.some.injEq, Prod.mk.injEq] at heq
          have e1 : emitted_times s1 rest = emitted_times s rest :=
            emitted_times_fields (by rw [← heq.2]) (by rw [← heq.2]) rest
          have hb : s1.decoded_audio_frames = [] := by rw [← heq.2]
          rw [e1, hb] at ih1
          rw [← h.1, ← heq.1]
          simp only [Option.toList, List.singleton_append, List.flatten_cons, List.append_assoc,
            List.map_append, emitted_times]
          simp only [List.map_nil, List.nil_append, List.map_append] at ih1
          exact List.Sublist.append (List.Sublist.refl _) ih1
        | thread_iteration lib =>
          simp only [step] at heq
          split at heq
          · split at heq
            · simp at heq
            · rename_i s3 heq3
              simp only [Option.some.injEq, Prod.mk.injEq] at heq
              obtain ⟨g1, g2, g3⟩ := thread_iteration_buffer lib s s3 heq3
              rw [heq.2] at g1 g2 g3
              rw [emitted_times_fields g1 g2] at ih1
              rw [← h.1, ← heq.1]
              simp only [Option.toList, List.nil_append, emitted_times]
              rw [← List.append_assoc]
              exact ih1.trans (List.Sublist.append g3 (List.Sublist.refl _))
          · simp at heq
        | return_audio_frame f => exact absurd hop (by simp [DecodeOrGet])
        | return_audio_frames fs => exact absurd hop (by simp [DecodeOrGet])
        | seek t w => exact absurd hop (by simp [DecodeOrGet])
        | seek_locked t => exact absurd hop (by simp [DecodeOrGet])
        | seek_push t w => exact absurd hop (by simp [DecodeOrGet])

/-- C5 as stated fails: with no seek at all, one pass of the decode loop whose
codec hands out a frame at 20 ms and then a frame at 10 ms is followed by a
`get_decoded_audio_frames` that returns them in that order. -/
theorem returned_frames_out_of_order :
    (run [Op.thread_iteration (example_iteration [20, 10]), Op.get_decoded_audio_frames]
        started_decoder).map (fun r => r.1)
      = some [[example_decoded 20, example_decoded 10]]
      ∧ ¬ List.Sorted (fun a b => a ≤ b)
          ([example_decoded 20, example_decoded 10].map (fun f => f.time)) := by
  refine ⟨by decide!, ?_⟩
  norm_num [example_decoded]

/-- C5, amended: for every sequence of passes of the decode loop and
`get_decoded_audio_frames` calls (no seek call, no `return_audio_frame(s)`), if
the times of the buffered frames followed by the presentation times of the
frames the codec hands out are non-decreasing, then the returned frames, within
each result and across consecutive results, followed by the frames still
buffered, are sorted by non-decreasing time. -/
theorem returned_frames_sorted (ops : List Op) (s s' : AudioDecoder)
    (outs : List (List DecodedAudioFrame)) (hops : ∀ op ∈ ops, DecodeOrGet op)
    (hsorted : List.Sorted (fun a b => a ≤ b)
      (s.decoded_audio_frames.map (fun f => f.time) ++ emitted_times s ops))
    (h : run ops s = some (outs, s')) :
    List.Sorted (fun a b => a ≤ b)
      ((outs.flatten ++ s'.decoded_audio_frames).map (fun f => f.time)) :=
  List.Pairwise.sublist (run_returns_sublist ops s s' outs hops h) hsorted

theorem returned_frames_sorted_witness :
    (∀ op ∈ example_playback, DecodeOrGet op)
      ∧ List.Sorted (fun a b => a ≤ b)
          (started_decoder.decoded_audio_frames.map (fun f => f.time)
            ++ emitted_times started_decoder example_playback)
      ∧ (run example_playback started_decoder).map (fun r => r.1)
          = some [[example_decoded 10, example_decoded 20],
              [example_decoded 20, example_decoded 30]]
      ∧ ∃ outs s', run example_playback started_decoder = some (outs, s')
          ∧ List.Sorted (fun a b => a ≤ b)
              ((outs.flatten ++ s'.decoded_audio_frames).map (fun f => f.time)) := by
  have hops : ∀ op ∈ example_playback, DecodeOrGet op := by
    intro op hop
    simp only [example_playback, List.mem_cons, List.mem_singleton, List.not_mem_nil,
      or_false] at hop
    rcases hop with h | h | h | h <;> subst h <;> simp [DecodeOrGet]
  have hsorted : List.Sorted (fun a b => a ≤ b)
      (started_decoder.decoded_audio_frames.map (fun f => f.time)
        ++ emitted_times started_decoder example_playback) := by
    have e : started_decoder.decoded_audio_frames.map (fun f => f.time)
        ++ emitted_times started_decoder example_playback = [10, 20, 20, 30] := by decide!
    rw [e]
    norm_num
  have hsome : (run example_playback started_decoder).isSome = true := by decide!
  obtain ⟨⟨outs, s'⟩, h⟩ := Option.isSome_iff_exists.mp hsome
  exact ⟨hops, hsorted, by decide!, outs, s', h,
    returned_frames_sorted example_playback started_decoder s' outs hops hsorted h⟩

/-! ### The discard flag between a seek and its command -/

theorem enqueue_locked_after_seek (T : ℚ) (f : DecodedAudioFrame) (s : AudioDecoder) :
    enqueue_locked f (seek T false s) = seek T false s := by
  simp [enqueue_locked, seek, seek_push, seek_locked, push_command]

/-- While the discard flag is set, the decode step of a pass of the loop
(`thread_switch`, before the flush) appends no frame, whatever the codec hands
out: the buffer is as before, or emptied by the loop's own `seek(0)`. -/
theorem decode_step_appends_nothing_while_discarding (lib : DecodeAnswers)
    (s s' : AudioDecoder) (hflag : s.skip_current_outputs = true)
    (h : thread_switch lib s = some s') :
    s'.decoded_audio_frames = s.decoded_audio_frames ∨ s'.decoded_audio_frames = [] := by
  rcases thread_switch_effect lib s s' h with hd | ⟨_, s1, _, hs⟩
  · obtain ⟨_, _, ⟨added, hadd, _, _, hnone⟩⟩ := hd
    left
    rw [hadd, hnone hflag, List.append_nil]
  · right
    rw [hs]
    simp [seek, seek_push, seek_locked, push_command]

theorem decode_step_appends_nothing_while_discarding_witness :
    (seek 100 false started_decoder).skip_current_outputs = true
      ∧ (thread_switch (example_iteration [120, 130]).decode (seek 100 false started_decoder)).map
          (fun s' => s'.decoded_audio_frames) = some []
      ∧ ∀ s', thread_switch (example_iteration [120, 130]).decode (seek 100 false started_decoder)
            = some s' →
          s'.decoded_audio_frames = (seek 100 false started_decoder).decoded_audio_frames
            ∨ s'.decoded_audio_frames = [] :=
  ⟨by decide, by decide!, fun s' h =>
    decode_step_appends_nothing_while_discarding (example_iteration [120, 130]).decode
      (seek 100 false started_decoder) s' (by decide) h⟩

/-- C6, at the failing schedule: after `seek(200)` has returned and while its
seek command is still the only command in the queue, the buffer holds the frame
at 120 ms that the decode loop produced, and the discard flag is cleared; the
next `get_decoded_audio_frames` hands that frame to the consumer. -/
theorem overlapping_seeks_leave_decoded_frame :
    (run example_overlapping_seeks started_decoder).map
        (fun r => (r.2.decoded_audio_frames, r.2.decoder_commands, r.2.skip_current_outputs,
          r.2.skip_output_until_time))
      = some ([example_decoded 120], [Command.seek_command 200], false, 100)
      ∧ (run (example_overlapping_seeks ++ [Op.get_decoded_audio_frames]) started_decoder).map
          (fun r => r.1) = some [[example_decoded 120]] := by
  refine ⟨by decide!, by decide!⟩

/-- C4, at the failing schedule: `seek(100)` is called; `seek(200)` is called,
and between its locked section and its push the decode loop executes the seek
command for 100, which clears the discard flag, and decodes a frame at 120 ms;
after `seek(200)` has returned, a pass of the decode loop decodes a frame at
250 ms and executes the seek command for 200: the skip threshold is 200 and the
queue is empty. The next `get_decoded_audio_frames` returns the frames at 120
and 250 ms, the first of them earlier than 200. -/
theorem overlapping_seek_returns_earlier_frame :
    (run (example_overlapping_seeks ++ [Op.thread_iteration (example_iteration [250])])
        started_decoder).map
        (fun r => (r.2.skip_output_until_time, r.2.decoder_commands, r.2.skip_current_outputs,
          r.2.decoded_audio_frames))
      = some (200, [], false, [example_decoded 120, example_decoded 250])
      ∧ (run (example_overlapping_seeks
            ++ [Op.thread_iteration (example_iteration [250]), Op.get_decoded_audio_frames])
          started_decoder).map (fun r => r.1)
        = some [[example_decoded 120, example_decoded 250]]
      ∧ (example_decoded 120).time < 200 := by
  refine ⟨by decide!, by decide!, by decide!⟩

/-! ### The seek command -/

theorem seek_handles_congr {s s' : AudioDecoder} (h1 : s'.format_context = s.format_context)
    (h2 : s'.audio_stream = s.audio_stream)
    (h3 : s'.audio_codec_context = s.audio_codec_context) (h : SeekHandlesSet s) :
    SeekHandlesSet s' := by
  unfold SeekHandlesSet at h ⊢
  rw [h1, h2, h3]
  exact h

theorem flush_commands_append (lib : CodecAnswers) (a b : List Command) (s : AudioDecoder) :
    flush_commands lib (a ++ b) s = (flush_commands lib a s).bind (flush_commands lib b) := by
  induction a generalizing s with
  | nil => rfl
  | cons c rest ih =>
    simp only [List.cons_append, flush_commands]
    cases execute_command lib c s with
    | none => rfl
    | some s1 => exact ih s1

theorem flush_seek_commands_returns (lib : CodecAnswers) (cmds : List Command) (s : AudioDecoder)
    (hh : SeekHandlesSet s) (hc : ∀ c ∈ cmds, ∃ t, c = Command.seek_command t) :
    ∃ s', flush_commands lib cmds s = some s' ∧ SeekHandlesSet s' := by
  induction cmds generalizing s with
  | nil => exact ⟨s, rfl, hh⟩
  | cons c rest ih =>
    obtain ⟨t, ht⟩ := hc c (List.mem_cons_self _ _)
    subst ht
    have h1 := seek_command_of_handles t s hh
    obtain ⟨s', h', hh'⟩ := ih
      { s with
        skip_output_until_time := t
        decoder_state := DecoderState.READY
        skip_current_outputs := false }
      (seek_handles_congr (s := s) rfl rfl rfl hh)
      (fun c hcm => hc c (List.mem_cons_of_mem _ hcm))
    exact ⟨s', by simp only [flush_commands, execute_command, h1, h'], hh'⟩

theorem seek_and_execute_effect (lib : CodecAnswers) (T : ℚ) (w : Bool) (s s1 : AudioDecoder)
    (h : seek_and_execute lib T w s = some s1) :
    s1.decoded_audio_frames = [] ∧ s1.decoder_commands = []
      ∧ s1.skip_current_outputs = false ∧ s1.skip_output_until_time = T
      ∧ s1.decoder_state = DecoderState.READY ∧ s1.last_decoded_frame_time = T
      ∧ s1.audio_stream = s.audio_stream ∧ SeekHandlesSet s1 := by
  have hlast : last_seek_target (seek T w s).decoder_commands = some T := by
    cases w <;> simp [seek, seek_push, seek_locked, push_command, last_seek_target_append_seek]
  have hhandles : SeekHandlesSet s1 := by
    have hq : (seek T w s).decoder_commands = s.decoder_commands ++ [Command.seek_command T] := by
      cases w <;> rfl
    have h0 := h
    unfold seek_and_execute flush_if_pending at h0
    rw [hq, flush_commands_append] at h0
    cases hmid : flush_commands lib s.decoder_commands
        { seek T w s with decoder_commands := [] } with
    | none => simp [hmid] at h0
    | some m =>
      simp only [hmid, Option.some_bind, flush_commands, execute_command] at h0
      cases hsk : _seek_command T m with
      | none => simp [hsk] at h0
      | some m2 =>
        simp only [hsk, Option.some.injEq] at h0
        obtain ⟨hm, hm2⟩ := seek_command_returns T m m2 hsk
        rw [← h0, hm2]
        exact seek_handles_congr (s := m) rfl rfl rfl hm
  unfold seek_and_execute at h
  obtain ⟨f1, f2, f3, _, _, _, _, f8, f9, _⟩ := flush_if_pending_effect _ _ _ h
  obtain ⟨g1, g2, g3⟩ := f9 T hlast
  refine ⟨?_, f2, g2, g1, g3, ?_, ?_, hhandles⟩
  · rw [f1]
    cases w <;> simp [seek, seek_push, seek_locked, push_command]
  · rw [f8]
    cases w <;> simp [seek, seek_push, seek_locked, push_command]
  · rw [f3]
    cases w <;> simp [seek, seek_push, seek_locked, push_command]

theorem seek_and_execute_fixed (lib : CodecAnswers) (T : ℚ) (w : Bool) (s1 : AudioDecoder)
    (hh : SeekHandlesSet s1) (h1 : s1.decoded_audio_frames = [])
    (h2 : s1.decoder_commands = []) (h3 : s1.skip_current_outputs = false)
    (h4 : s1.skip_output_until_time = T) (h5 : s1.decoder_state = DecoderState.READY)
    (h6 : s1.last_decoded_frame_time = T) : seek_and_execute lib T w s1 = some s1 := by
  have hmid : SeekHandlesSet
      { s1 with
        decoded_audio_frames := []
        last_decoded_frame_time := T
        skip_current_outputs := true
        decoder_commands := [] } := seek_handles_congr (s := s1) rfl rfl rfl hh
  have hcmd := seek_command_of_handles T _ hmid
  have hrun : seek_and_execute lib T w s1 =
      some
        { s1 with
          decoded_audio_frames := []
          last_decoded_frame_time := T
          skip_current_outputs := false
          decoder_commands := []
          skip_output_until_time := T
          decoder_state := DecoderState.READY } := by
    cases w <;>
      simp [seek_and_execute, flush_if_pending, seek, seek_push, seek_locked, push_command,
        flush_commands, execute_command, h2, hcmd]
  rw [hrun]
  cases s1
  simp only at h1 h2 h3 h4 h5 h6
  subst h1 h2 h3 h4 h5 h6
  rfl

/-- C9: for every decoder state s and every T, performing `seek(T)` (the call,
then the flush that executes the queued commands, the seek command last) twice
in a row yields what performing it once yields. Whenever the first `seek(T)` is
executed to its end, in a decoder s1, then s1 has an empty frame buffer, the
discard flag cleared, the skip threshold T, the state `READY` and the
last-decoded-frame time T, and the second `seek(T)` is executed to its end in
that same decoder s1, so any pass of the decode loop that follows does the same
after two seeks as after one. The first `seek(T)` is executed to its end when
the handles of the seek command are usable and the queue holds nothing but seek
commands. -/
theorem seek_twice_same_as_once (lib lib2 : CodecAnswers) (T : ℚ) (w w2 : Bool)
    (s : AudioDecoder) :
    (seek_and_execute lib T w s).bind (seek_and_execute lib2 T w2) = seek_and_execute lib T w s
      ∧ (∀ s1, seek_and_execute lib T w s = some s1 →
          s1.decoded_audio_frames = [] ∧ s1.skip_current_outputs = false
            ∧ s1.skip_output_until_time = T ∧ s1.decoder_state = DecoderState.READY
            ∧ s1.last_decoded_frame_time = T
            ∧ seek_and_execute lib2 T w2 s1 = some s1)
      ∧ (∀ d, ((seek_and_execute lib T w s).bind (seek_and_execute lib2 T w2)).bind
            (thread_iteration d)
          = (seek_and_execute lib T w s).bind (thread_iteration d))
      ∧ (SeekHandlesSet s → (∀ c ∈ s.decoder_commands, ∃ t, c = Command.seek_command t) →
          ∃ s1, seek_and_execute lib T w s = some s1) := by
  have hfix : ∀ s1, seek_and_execute lib T w s = some s1 →
      s1.decoded_audio_frames = [] ∧ s1.skip_current_outputs = false
        ∧ s1.skip_output_until_time = T ∧ s1.decoder_state = DecoderState.READY
        ∧ s1.last_decoded_frame_time = T
        ∧ seek_and_execute lib2 T w2 s1 = some s1 := by
    intro s1 h1
    obtain ⟨e1, e2, e3, e4, e5, e6, _, e8⟩ := seek_and_execute_effect lib T w s s1 h1
    exact ⟨e1, e3, e4, e5, e6, seek_and_execute_fixed lib2 T w2 s1 e8 e1 e2 e3 e4 e5 e6⟩
  have htwice : (seek_and_execute lib T w s).bind (seek_and_execute lib2 T w2)
      = seek_and_execute lib T w s := by
    cases h1 : seek_and_execute lib T w s with
    | none => rfl
    | some s1 =>
      rw [Option.some_bind]
      exact (hfix s1 h1).2.2.2.2.2
  refine ⟨htwice, hfix, fun d => by rw [htwice], ?_⟩
  intro hh hc
  have hq : (seek T w s).decoder_commands = s.decoder_commands ++ [Command.seek_command T] := by
    cases w <;> rfl
  obtain ⟨s1, h1, _⟩ := flush_seek_commands_returns lib (seek T w s).decoder_commands
    { seek T w s with decoder_commands := [] }
    (seek_handles_congr (s := s) (by cases w <;> rfl) (by cases w <;> rfl) (by cases w <;> rfl) hh)
    (by
      intro c hcm
      rw [hq] at hcm
      rcases List.mem_append.mp hcm with hm | hm
      · exact hc c hm
      · exact ⟨T, List.mem_singleton.mp hm⟩)
  exact ⟨s1, h1⟩

theorem seek_twice_same_as_once_witness :
    SeekHandlesSet end_of_stream_decoder
      ∧ (∀ c ∈ end_of_stream_decoder.decoder_commands, ∃ t, c = Command.seek_command t)
      ∧ ((seek_and_execute example_codec 100 false end_of_stream_decoder).bind
            (seek_and_execute example_codec 100 true)).map
          (fun s1 => (s1.decoded_audio_frames, s1.skip_current_outputs,
            s1.skip_output_until_time, s1.decoder_state, s1.last_decoded_frame_time))
        = some ([], false, 100, DecoderState.READY, 100)
      ∧ (seek_and_execute example_codec 100 false end_of_stream_decoder).bind
            (seek_and_execute example_codec 100 true)
          = seek_and_execute example_codec 100 false end_of_stream_decoder
      ∧ ∃ s1, seek_and_execute example_codec 100 false end_of_stream_decoder = some s1 :=
  have hq : ∀ c ∈ end_of_stream_decoder.decoder_commands, ∃ t, c = Command.seek_command t :=
    fun c hc => by
      have hnil : end_of_stream_decoder.decoder_commands = [] := by decide!
      rw [hnil] at hc
      exact absurd hc (List.not_mem_nil c)
  ⟨by unfold SeekHandlesSet; decide, hq, by decide!,
    (seek_twice_same_as_once example_codec example_codec 100 false true
      end_of_stream_decoder).1,
    (seek_twice_same_as_once example_codec example_codec 100 false true
      end_of_stream_decoder).2.2.2 (by unfold SeekHandlesSet; decide) hq⟩

/-! ### Setup faults -/

theorem prepare_decoding_without_stream (prep : PrepareAnswers) (s : AudioDecoder)
    (ha : s.audio_stream = none)
    (hno : prep.avformat_open_input < 0 ∨ prep.avformat_find_stream_info < 0
      ∨ prep.av_find_best_stream < 0) :
    (prepare_decoding prep s).audio_stream = none
      ∧ (prepare_decoding prep s).thread = s.thread
      ∧ (prepare_decoding prep s).decoder_state = s.decoder_state := by
  unfold prepare_decoding
  simp only
  split
  · simp [ha]
  · rename_i h1
    split
    · simp [ha]
    · rename_i h2
      split
      · simp [ha]
      · rename_i h3
        simp only [ge_iff_le, Bool.not_eq_true, Bool.not_eq_false, decide_eq_true_eq] at h1
        omega

/-- Setup without an audio stream: when the input does not open, its stream
info is not found, or `av_find_best_stream` fails,
`start_decoding` on a decoder that was not started leaves `decoder_state` equal
to `FAULTED` and does not launch the decode thread. -/
theorem start_decoding_without_stream (prep : PrepareAnswers) (codec : CodecAnswers)
    (s : AudioDecoder) (ht : s.thread = false) (hf : s.format_context = none)
    (ha : s.audio_stream = none)
    (hno : prep.avformat_open_input < 0 ∨ prep.avformat_find_stream_info < 0
      ∨ prep.av_find_best_stream < 0) :
    (start_decoding prep codec s).decoder_state = DecoderState.FAULTED
      ∧ (start_decoding prep codec s).thread = false := by
  obtain ⟨p1, p2, _⟩ := prepare_decoding_without_stream prep s ha hno
  have hr : (recreate_codec_context codec (prepare_decoding prep s)) = prepare_decoding prep s := by
    simp only [recreate_codec_context, p1]
  unfold start_decoding
  simp only [ht, Bool.false_eq_true, ↓reduceIte, hf, hr, p1]
  exact ⟨trivial, p2.trans ht⟩

theorem start_decoding_without_stream_witness :
    AudioDecoder.new.thread = false ∧ AudioDecoder.new.format_context = none
      ∧ AudioDecoder.new.audio_stream = none
      ∧ (start_decoding example_no_stream example_codec AudioDecoder.new).decoder_state
          = DecoderState.FAULTED
      ∧ (start_decoding example_no_stream example_codec AudioDecoder.new).thread = false :=
  ⟨rfl, rfl, rfl,
    start_decoding_without_stream example_no_stream example_codec AudioDecoder.new rfl rfl rfl
      (Or.inr (Or.inr (by decide)))⟩

/-- C10, at the failing input: the input opens and has an audio stream, but
`avcodec_find_decoder` finds no decoder for its codec. `start_decoding` leaves
`decoder_state` at `READY`, not `FAULTED`, and launches the decode thread with a
null `audio_codec_context`. -/
theorem start_decoding_without_decoder :
    (start_decoding example_prepare example_no_decoder AudioDecoder.new).decoder_state
        = DecoderState.READY
      ∧ (start_decoding example_prepare example_no_decoder AudioDecoder.new).thread = true
      ∧ (start_decoding example_prepare example_no_decoder AudioDecoder.new).audio_codec_context
          = none
      ∧ (start_decoding example_prepare example_no_decoder AudioDecoder.new).audio_stream
          = some example_stream := by
  refine ⟨by decide!, by decide!, by decide!, by decide!⟩

/-! ### Fields that the steps leave alone -/

theorem thread_iteration_keeps_looping (lib : IterationAnswers) (s s' : AudioDecoder)
    (h : thread_iteration lib s = some s') : s'.looping = s.looping := by
  unfold thread_iteration at h
  split at h
  · simp at h
  · rename_i s1 heq
    rw [(flush_if_pending_effect _ _ _ h).2.2.2.2.1]
    rcases thread_switch_effect _ _ _ heq with hd | ⟨_, s0, hd, hs⟩
    · exact hd.1.2.2.2.2.1
    · rw [hs]
      simpa [seek, seek_push, seek_locked, push_command] using hd.1.2.2.2.2.1

theorem step_keeps_looping (op : Op) (s s' : AudioDecoder)
    (out : Option (List DecodedAudioFrame)) (h : step op s = some (out, s')) :
    s'.looping = s.looping := by
  cases op with
  | get_decoded_audio_frames =>
    simp only [step, get_decoded_audio_frames, Option.some.injEq, Prod.mk.injEq] at h
    rw [← h.2]
  | return_audio_frame f =>
    simp only [step, return_audio_frame, Option.some.injEq, Prod.mk.injEq] at h
    rw [← h.2]
  | return_audio_frames fs =>
    simp only [step, Option.some.injEq, Prod.mk.injEq] at h
    rw [← h.2]
    clear h
    induction fs generalizing s with
    | nil => rfl
    | cons f rest ih => simp only [return_audio_frames]; rw [ih]; rfl
  | seek t w =>
    simp only [step, Option.some.injEq, Prod.mk.injEq] at h
    rw [← h.2]
    cases w <;> rfl
  | seek_locked t =>
    simp only [step, Option.some.injEq, Prod.mk.injEq] at h
    rw [← h.2]
    rfl
  | seek_push t w =>
    simp only [step, Option.some.injEq, Prod.mk.injEq] at h
    rw [← h.2]
    cases w <;> rfl
  | thread_iteration lib =>
    simp only [step] at h
    split at h
    · split at h
      · simp at h
      · rename_i s1 heq
        simp only [Option.some.injEq, Prod.mk.injEq] at h
        rw [← h.2]
        exact thread_iteration_keeps_looping lib s s1 heq
    · simp at h

/-- The loop flag is never written: a decoder that is constructed, started and
then taken through any sequence of consumer calls and passes of the decode loop
has `looping` unset, so its decode loop never issues a `seek(0)` of its own. -/
theorem looping_stays_unset (prep : PrepareAnswers) (codec : CodecAnswers) (ops : List Op)
    (s' : AudioDecoder) (outs : List (List DecodedAudioFrame))
    (h : run ops (start_decoding prep codec AudioDecoder.new) = some (outs, s')) :
    s'.looping = false := by
  have h0 : (start_decoding prep codec AudioDecoder.new).looping = false := by
    unfold start_decoding
    simp only [AudioDecoder.new, Bool.false_eq_true, ↓reduceIte]
    have hp : ∀ s : AudioDecoder, (prepare_decoding prep s).looping = s.looping := by
      intro s
      unfold prepare_decoding
      simp only
      split
      · rfl
      · split
        · rfl
        · split
          · rfl
          · split <;> rfl
    have hr : ∀ s : AudioDecoder, (recreate_codec_context codec s).looping = s.looping := by
      intro s
      unfold recreate_codec_context
      split
      · rfl
      · split
        · simp only
          split
          · rfl
          · split
            · rfl
            · split <;> rfl
        · rfl
    split
    · simp only [hr, hp]
    · simp only [hr, hp]
  have hrun : ∀ (ops : List Op) (s s' : AudioDecoder) (outs : List (List DecodedAudioFrame)),
      run ops s = some (outs, s') → s'.looping = s.looping := by
    intro ops
    induction ops with
    | nil =>
      intro s s' outs h
      simp only [run, Option.some.injEq, Prod.mk.injEq] at h
      rw [← h.2]
    | cons op rest ih =>
      intro s s' outs h
      unfold run at h
      split at h
      · simp at h
      · rename_i out s1 heq
        split at h
        · simp at h
        · rename_i outs2 s2 heq2
          simp only [Option.some.injEq, Prod.mk.injEq] at h
          rw [h.2] at heq2
          rw [ih s1 s' outs2 heq2]
          exact step_keeps_looping op s s1 out heq
  rw [hrun ops _ s' outs h]
  exact h0

theorem looping_stays_unset_witness :
    (run example_run (start_decoding example_prepare example_codec AudioDecoder.new)).isSome = true
      ∧ ∀ outs s', run example_run (start_decoding example_prepare example_codec AudioDecoder.new)
            = some (outs, s') → s'.looping = false :=
  ⟨by decide!, fun outs s' h =>
    looping_stays_unset example_prepare example_codec example_run s' outs h⟩

/-- A first `start_decoding` launches the decode thread only with an audio
stream found: the loop it starts has the stream that `_seek_command` and the
frame drain read. -/
theorem started_thread_has_stream (prep : PrepareAnswers) (codec : CodecAnswers)
    (h : (start_decoding prep codec AudioDecoder.new).thread = true) :
    DecodeLoopRunning (start_decoding prep codec AudioDecoder.new) := by
  have hab : ∀ s : AudioDecoder, (prepare_decoding prep s).thread_abort = s.thread_abort := by
    intro s
    unfold prepare_decoding
    simp only
    split
    · rfl
    · split
      · rfl
      · split
        · rfl
        · split <;> rfl
  have hrb : ∀ s : AudioDecoder, (recreate_codec_context codec s).thread_abort = s.thread_abort := by
    intro s
    unfold recreate_codec_context
    split
    · rfl
    · split
      · simp only
        split
        · rfl
        · split
          · rfl
          · split <;> rfl
      · rfl
  have htr : ∀ s : AudioDecoder, (prepare_decoding prep s).thread = s.thread := by
    intro s
    unfold prepare_decoding
    simp only
    split
    · rfl
    · split
      · rfl
      · split
        · rfl
        · split <;> rfl
  have hrr : ∀ s : AudioDecoder, (recreate_codec_context codec s).thread = s.thread := by
    intro s
    unfold recreate_codec_context
    split
    · rfl
    · split
      · simp only
        split
        · rfl
        · split
          · rfl
          · split <;> rfl
      · rfl
  unfold start_decoding at h ⊢
  simp only [AudioDecoder.new, Bool.false_eq_true, ↓reduceIte] at h ⊢
  split at h
  · simp only [hrr, htr] at h
    exact absurd h (by simp)
  · rename_i hst
    simp only [hst, ↓reduceIte]
    exact ⟨rfl, by simp only [hrb, hab], hst⟩

theorem started_thread_has_stream_witness :
    (start_decoding example_prepare example_codec AudioDecoder.new).thread = true
      ∧ DecodeLoopRunning (start_decoding example_prepare example_codec AudioDecoder.new) :=
  ⟨by decide!, started_thread_has_stream example_prepare example_codec (by decide!)⟩

/-! ### The end of the input -/

theorem try_disable_hw_decoding_keeps_loop_state (e : Int) (s : AudioDecoder) :
    (_try_disable_hw_decoding e s).decoder_state = s.decoder_state
      ∧ (_try_disable_hw_decoding e s).packet = s.packet := by
  unfold _try_disable_hw_decoding
  split
  · exact ⟨rfl, rfl⟩
  · simp only [push_command]
    split <;> exact ⟨rfl, rfl⟩

theorem read_decoded_frame_keeps_loop_state (r : ReceivedFrame) (s s1 : AudioDecoder)
    (x : LoopExit) (h : read_decoded_frame r s = some (x, s1)) :
    s1.decoder_state = s.decoder_state ∧ s1.packet = s.packet := by
  unfold read_decoded_frame at h
  split at h
  · simp at h
  · simp only at h
    split at h
    · simp only [Option.some.injEq, Prod.mk.injEq] at h
      rw [← h.2]
      exact ⟨rfl, rfl⟩
    · split at h
      · simp at h
      · simp only [Option.some.injEq, Prod.mk.injEq] at h
        rw [← h.2]
        exact ⟨rfl, rfl⟩
      · split at h
        · simp only [Option.some.injEq, Prod.mk.injEq] at h
          rw [← h.2]
          exact ⟨rfl, rfl⟩
        · simp only [Option.some.injEq, Prod.mk.injEq] at h
          rw [← h.2]
          unfold enqueue_locked
          split <;> exact ⟨rfl, rfl⟩

theorem read_decoded_audio_frames_keeps_loop_state (frames : List ReceivedFrame) (fin : Int)
    (s s' : AudioDecoder) (h : _read_decoded_audio_frames frames fin s = some s') :
    s'.decoder_state = s.decoder_state ∧ s'.packet = s.packet := by
  induction frames generalizing s with
  | nil =>
    unfold _read_decoded_audio_frames at h
    split at h
    · split at h
      · simp only [Option.some.injEq] at h
        rw [← h]
        exact try_disable_hw_decoding_keeps_loop_state fin s
      · simp only [Option.some.injEq] at h
        rw [← h]
        exact ⟨rfl, rfl⟩
    · simp at h
  | cons r rest ih =>
    unfold _read_decoded_audio_frames at h
    split at h
    · simp at h
    · rename_i s1 heq
      simp only [Option.some.injEq] at h
      rw [← h]
      exact read_decoded_frame_keeps_loop_state r s s1 _ heq
    · rename_i s1 heq
      obtain ⟨a1, a2⟩ := read_decoded_frame_keeps_loop_state r s s1 _ heq
      obtain ⟨b1, b2⟩ := ih s1 h
      exact ⟨b1.trans a1, b2.trans a2⟩

theorem send_packet_keeps_loop_state (ctx : Option AVCodecContext) (pkt : Option AVPacket)
    (lib : DecodeAnswers) (s s' : AudioDecoder) (res : Int)
    (h : _send_packet ctx pkt lib s = some (res, s')) :
    s'.decoder_state = s.decoder_state ∧ s'.packet = s.packet := by
  unfold _send_packet at h
  simp only at h
  split at h
  · split at h
    · split at h
      · simp at h
      · rename_i s1 heq
        simp only [Option.some.injEq, Prod.mk.injEq] at h
        rw [← h.2]
        exact read_decoded_audio_frames_keeps_loop_state _ _ _ _ heq
    · simp only [Option.some.injEq, Prod.mk.injEq] at h
      rw [← h.2]
      exact ⟨rfl, rfl⟩
  · split at h
    · split at h
      · simp at h
      · split at h
        · simp only [Option.some.injEq, Prod.mk.injEq] at h
          rw [← h.2]
          exact try_disable_hw_decoding_keeps_loop_state _ s
        · simp only [Option.some.injEq, Prod.mk.injEq] at h
          rw [← h.2]
          exact ⟨rfl, rfl⟩
    · simp at h

theorem prepare_decoding_keeps_state (prep : PrepareAnswers) (s : AudioDecoder) :
    (prepare_decoding prep s).decoder_state = s.decoder_state := by
  unfold prepare_decoding
  simp only
  split
  · rfl
  · split
    · rfl
    · split
      · rfl
      · split <;> rfl

theorem recreate_codec_context_keeps_state (codec : CodecAnswers) (s : AudioDecoder) :
    (recreate_codec_context codec s).decoder_state = s.decoder_state := by
  unfold recreate_codec_context
  split
  · rfl
  · split
    · simp only
      split
      · rfl
      · split
        · rfl
        · split <;> rfl
    · rfl

/-- The state `FAULTED` is left by nothing but an executed seek command: a
faulted decoder stays faulted through `start_decoding`, `seek`,
`get_decoded_audio_frames`, `return_audio_frame(s)`, the switch of a pass of the
decode loop, the end of the thread function, and a flush of a queue that holds no
seek command. -/
theorem faulted_kept_outside_seek_command (s : AudioDecoder)
    (hf : s.decoder_state = DecoderState.FAULTED) :
    (∀ prep codec, (start_decoding prep codec s).decoder_state = DecoderState.FAULTED)
      ∧ (∀ T w, (seek T w s).decoder_state = DecoderState.FAULTED)
      ∧ (get_decoded_audio_frames s).2.decoder_state = DecoderState.FAULTED
      ∧ (∀ fs, (return_audio_frames fs s).decoder_state = DecoderState.FAULTED)
      ∧ (∀ lib, thread_switch lib s = some s)
      ∧ thread_exit s = s
      ∧ (∀ c s', last_seek_target s.decoder_commands = none → flush_if_pending c s = some s' →
          s'.decoder_state = DecoderState.FAULTED) := by
  refine ⟨?_, ?_, hf, ?_, ?_, ?_, ?_⟩
  · intro prep codec
    unfold start_decoding
    split
    · exact hf
    · split
      · simp only
        split
        · rfl
        · simp only [recreate_codec_context_keeps_state, prepare_decoding_keeps_state]
          exact hf
      · exact hf
  · intro T w
    cases w <;> exact hf
  · intro fs
    have hgen : ∀ (fs : List DecodedAudioFrame) (s : AudioDecoder),
        (return_audio_frames fs s).decoder_state = s.decoder_state := by
      intro fs
      induction fs with
      | nil => intro s; rfl
      | cons f rest ih => intro s; simp only [return_audio_frames]; rw [ih]; rfl
    rw [hgen fs s]
    exact hf
  · intro lib
    simp only [thread_switch, hf]
  · simp [thread_exit, hf]
  · intro c s' hnone hflush
    rw [((flush_if_pending_effect c s s' hflush).2.2.2.2.2.2.2.2.2 hnone).2.2]
    exact hf

theorem faulted_kept_outside_seek_command_witness :
    faulted_decoder.decoder_state = DecoderState.FAULTED
      ∧ (∀ prep codec,
          (start_decoding prep codec faulted_decoder).decoder_state = DecoderState.FAULTED)
      ∧ (∀ T w, (seek T w faulted_decoder).decoder_state = DecoderState.FAULTED)
      ∧ (get_decoded_audio_frames faulted_decoder).2.decoder_state = DecoderState.FAULTED
      ∧ (∀ fs, (return_audio_frames fs faulted_decoder).decoder_state = DecoderState.FAULTED)
      ∧ (∀ lib, thread_switch lib faulted_decoder = some faulted_decoder)
      ∧ thread_exit faulted_decoder = faulted_decoder
      ∧ (∀ c s', last_seek_target faulted_decoder.decoder_commands = none →
          flush_if_pending c faulted_decoder = some s' →
          s'.decoder_state = DecoderState.FAULTED) :=
  ⟨by decide!, faulted_kept_outside_seek_command faulted_decoder (by decide!)⟩

/-- C12, at the failing input: a first `start_decoding` meets an input that does
not open and leaves the decoder `FAULTED` with no thread; a second
`start_decoding`, for which the input opens, launches the decode thread and
leaves `FAULTED`; a `seek(0)` and the pass of the decode loop that flushes its
command then set `decoder_state` to `READY`, and the pass after that decodes a
frame and sets `RUNNING`. -/
theorem faulted_left_by_seek_after_restart :
    faulted_decoder.decoder_state = DecoderState.FAULTED
      ∧ faulted_decoder.thread = false
      ∧ restarted_decoder.decoder_state = DecoderState.FAULTED
      ∧ restarted_decoder.thread = true
      ∧ (run [Op.seek 0 false, Op.thread_iteration (example_iteration [0])]
          restarted_decoder).map (fun r => r.2.decoder_state) = some DecoderState.READY
      ∧ (run [Op.seek 0 false, Op.thread_iteration (example_iteration [0]),
            Op.thread_iteration (example_iteration [0]), Op.get_decoded_audio_frames]
          restarted_decoder).map (fun r => (r.2.decoder_state, r.1))
        = some (DecoderState.RUNNING, [[example_decoded 0]]) := by
  refine ⟨by decide!, by decide!, by decide!, by decide!, by decide!, by decide!⟩

/-! ### Decoder selection -/

/-- C13: for every codec registry, codec id and requested hardware set, the
list that `get_available_decoders` returns is ordered by non-increasing
preference score of the device type, for any `sort_custom` that meets its
contract; the score is 10 for VDPAU, CUDA and MEDIACODEC, 9 for VAAPI and QSV, 8
for DXVA2, and INT_MIN, below which no score lies, for every other device type,
the software type NONE among them. -/
theorem get_available_decoders_ordered (sorter : SortCustom) (registry : List AVCodec)
    (p_codec_id p_target_decoders : Nat) :
    List.Pairwise
        (fun a b => get_hw_audio_decoder_score b.device_type
          ≤ get_hw_audio_decoder_score a.device_type)
        (get_available_decoders sorter registry p_codec_id p_target_decoders)
      ∧ get_hw_audio_decoder_score AVHWDeviceType.VDPAU = 10
      ∧ get_hw_audio_decoder_score AVHWDeviceType.CUDA = 10
      ∧ get_hw_audio_decoder_score AVHWDeviceType.MEDIACODEC = 10
      ∧ get_hw_audio_decoder_score AVHWDeviceType.VAAPI = 9
      ∧ get_hw_audio_decoder_score AVHWDeviceType.QSV = 9
      ∧ get_hw_audio_decoder_score AVHWDeviceType.DXVA2 = 8
      ∧ (∀ t, t ∉ [AVHWDeviceType.VDPAU, AVHWDeviceType.CUDA, AVHWDeviceType.MEDIACODEC,
            AVHWDeviceType.VAAPI, AVHWDeviceType.QSV, AVHWDeviceType.DXVA2] →
          get_hw_audio_decoder_score t = INT_MIN)
      ∧ get_hw_audio_decoder_score AVHWDeviceType.NONE = INT_MIN
      ∧ (∀ t, INT_MIN ≤ get_hw_audio_decoder_score t) := by
  refine ⟨?_, rfl, rfl, rfl, rfl, rfl, rfl, ?_, rfl, ?_⟩
  · unfold get_available_decoders
    refine List.Pairwise.imp ?_ (sorter.sorted _)
    intro a b hab
    simpa [AvailableDecoderInfoComparator] using hab
  · intro t ht
    cases t <;> first | rfl | (exact absurd ht (by simp))
  · intro t
    cases t <;> decide

theorem hw_candidates_not_software (codec : AVCodec) (p_target_decoders : Nat)
    (x : AvailableDecoderInfo) (hx : x ∈ hw_candidates codec p_target_decoders) :
    from_av_hw_device_type x.device_type ≠ HW_NONE ∧ x.device_type ≠ AVHWDeviceType.NONE := by
  unfold hw_candidates at hx
  simp only [List.mem_filterMap] at hx
  obtain ⟨t, _, ht⟩ := hx
  split at ht
  · simp at ht
  · rename_i hcond
    simp only [Option.some.injEq] at ht
    rw [← ht]
    simp only [not_or] at hcond
    refine ⟨hcond.1, ?_⟩
    intro hnone
    simp only at hnone
    rw [hnone] at hcond
    exact hcond.1 rfl

theorem iterate_codecs_result (p_codec_id p_target_decoders : Nat) (registry : List AVCodec)
    (codecs : List AvailableDecoderInfo) (first_codec : Option AVCodec) :
    (iterate_codecs p_codec_id p_target_decoders registry codecs first_codec).2
        = (match first_codec with
          | some c => some c
          | none => first_matching_decoder registry p_codec_id)
      ∧ ∃ more, (iterate_codecs p_codec_id p_target_decoders registry codecs first_codec).1
            = codecs ++ more
          ∧ (∀ x ∈ more, from_av_hw_device_type x.device_type ≠ HW_NONE
              ∧ x.device_type ≠ AVHWDeviceType.NONE)
          ∧ (first_matching_decoder registry p_codec_id = none → more = []) := by
  induction registry generalizing codecs first_codec with
  | nil =>
    refine ⟨?_, [], by simp [iterate_codecs], by simp, fun _ => rfl⟩
    cases first_codec <;> simp [iterate_codecs, first_matching_decoder]
  | cons a rest ih =>
    unfold iterate_codecs
    split
    · rename_i hskip
      have hno : (decide (a.id = p_codec_id) && a.is_decoder) = false := by
        rcases hskip with h | h
        · simp [h]
        · simp [h]
      obtain ⟨h1, more, h2, h3, h4⟩ := ih codecs first_codec
      refine ⟨?_, more, h2, h3, ?_⟩
      · rw [h1]
        cases first_codec <;> simp [first_matching_decoder, List.find?, hno]
      · intro hnone
        apply h4
        simpa [first_matching_decoder, List.find?, hno] using hnone
    · rename_i hmatch
      have hyes : (decide (a.id = p_codec_id) && a.is_decoder) = true := by
        simp only [not_or, Decidable.not_not, Bool.not_eq_false] at hmatch
        simp [hmatch.1, hmatch.2]
      simp only
      split
      · refine ⟨?_, [], by simp, by simp, fun _ => rfl⟩
        cases first_codec <;> simp [first_matching_decoder, List.find?, hyes]
      · obtain ⟨h1, more, h2, h3, _⟩ :=
          ih (codecs ++ hw_candidates a p_target_decoders)
            (match first_codec with
              | none => some a
              | some c => some c)
        refine ⟨?_, hw_candidates a p_target_decoders ++ more, ?_, ?_, ?_⟩
        · rw [h1]
          cases first_codec <;> simp [first_matching_decoder, List.find?, hyes]
        · rw [h2, List.append_assoc]
        · intro x hx
          rcases List.mem_append.mp hx with h | h
          · exact hw_candidates_not_software a p_target_decoders x h
          · exact h3 x h
        · intro hnone
          simp [first_matching_decoder, List.find?, hyes] at hnone

theorem collect_decoders_software (registry : List AVCodec) (p_codec_id p_target_decoders : Nat) :
    (∀ c, first_matching_decoder registry p_codec_id = some c →
        (collect_decoders registry p_codec_id p_target_decoders).filter
            (fun x => decide (x.device_type = AVHWDeviceType.NONE))
          = [{ codec := c, device_type := AVHWDeviceType.NONE }])
      ∧ (first_matching_decoder registry p_codec_id = none →
          collect_decoders registry p_codec_id p_target_decoders = []) := by
  obtain ⟨h1, more, h2, h3, h4⟩ :=
    iterate_codecs_result p_codec_id p_target_decoders registry [] none
  simp only [List.nil_append] at h2
  have hfilter : more.filter (fun x => decide (x.device_type = AVHWDeviceType.NONE)) = [] := by
    rw [List.filter_eq_nil_iff]
    intro x hx
    simpa using (h3 x hx).2
  refine ⟨?_, ?_⟩
  · intro c hc
    simp only [hc] at h1
    unfold collect_decoders
    simp only [h1, h2, List.filter_append, hfilter, List.nil_append]
    simp
  · intro hnone
    simp only [hnone] at h1
    unfold collect_decoders
    simp only [h1, h2]
    exact h4 hnone

/-- C14: for every codec registry, codec id and requested hardware set (the
empty set NONE too): when the registry holds a decoder for the codec id, the list
that `get_available_decoders` returns holds exactly one candidate with the device
type NONE, and its codec is the first decoder for that id in the order of
`av_codec_iterate`; when the registry holds none, the list is empty. -/
theorem software_fallback_is_first_decoder (sorter : SortCustom) (registry : List AVCodec)
    (p_codec_id p_target_decoders : Nat) :
    (∀ c, first_matching_decoder registry p_codec_id = some c →
        (get_available_decoders sorter registry p_codec_id p_target_decoders).filter
            (fun x => decide (x.device_type = AVHWDeviceType.NONE))
          = [{ codec := c, device_type := AVHWDeviceType.NONE }])
      ∧ (first_matching_decoder registry p_codec_id = none →
          get_available_decoders sorter registry p_codec_id p_target_decoders = []) := by
  obtain ⟨h1, h2⟩ := collect_decoders_software registry p_codec_id p_target_decoders
  unfold get_available_decoders
  refine ⟨?_, ?_⟩
  · intro c hc
    have hp := (sorter.perm (collect_decoders registry p_codec_id p_target_decoders)).filter
      (fun x => decide (x.device_type = AVHWDeviceType.NONE))
    rw [h1 c hc] at hp
    exact List.perm_singleton.mp hp
  · intro hnone
    have hp := sorter.perm (collect_decoders registry p_codec_id p_target_decoders)
    rw [h2 hnone] at hp ⊢
    exact List.perm_nil.mp hp

theorem software_fallback_is_first_decoder_witness :
    first_matching_decoder example_registry 86018 = some example_software_codec
      ∧ get_available_decoders insertion_sorter example_registry 86018 HW_ANY
        = [{ codec := example_hardware_codec, device_type := AVHWDeviceType.CUDA },
            { codec := example_hardware_codec, device_type := AVHWDeviceType.VAAPI },
            { codec := example_hardware_codec, device_type := AVHWDeviceType.DXVA2 },
            { codec := example_software_codec, device_type := AVHWDeviceType.NONE }]
      ∧ get_available_decoders insertion_sorter example_registry 86018 HW_NONE
        = [{ codec := example_software_codec, device_type := AVHWDeviceType.NONE }]
      ∧ (get_available_decoders insertion_sorter example_registry 86018 HW_ANY).filter
            (fun x => decide (x.device_type = AVHWDeviceType.NONE))
          = [{ codec := example_software_codec, device_type := AVHWDeviceType.NONE }]
      ∧ first_matching_decoder example_registry 7 = none
      ∧ get_available_decoders insertion_sorter example_registry 7 HW_ANY = [] :=
  ⟨by decide, by decide, by decide,
    (software_fallback_is_first_decoder insertion_sorter example_registry 86018 HW_ANY).1 _
      (by decide),
    by decide,
    (software_fallback_is_first_decoder insertion_sorter example_registry 7 HW_ANY).2
      (by decide)⟩

/-! ### The hardware fallback -/

/-- C15: for every decoder state in which hardware decoding is active
(`hw_decoding_allowed` set, the requested hardware set not NONE, the codec
context bound to a hardware device) and every error code e,
`_try_disable_hw_decoding(e)` clears `hw_decoding_allowed`, sets the requested
hardware set to NONE if e is -ENOMEM and leaves it as it is otherwise, appends
exactly one `recreate_codec_context` command to the queue, and changes no other
field, the codec context among them. -/
theorem try_disable_hw_decoding_active (e : Int) (s : AudioDecoder) (ctx : AVCodecContext)
    (hallowed : s.hw_decoding_allowed = true) (htarget : s.target_hw_audio_decoders ≠ HW_NONE)
    (hctx : s.audio_codec_context = some ctx) (hdev : ctx.hw_device_ctx = true) :
    _try_disable_hw_decoding e s =
        { s with
          hw_decoding_allowed := false
          target_hw_audio_decoders := if e = -ENOMEM then HW_NONE else s.target_hw_audio_decoders
          decoder_commands := s.decoder_commands ++ [Command.recreate_codec_context] }
      ∧ (_try_disable_hw_decoding e s).hw_decoding_allowed = false
      ∧ (e = -ENOMEM → (_try_disable_hw_decoding e s).target_hw_audio_decoders = HW_NONE)
      ∧ (e ≠ -ENOMEM →
          (_try_disable_hw_decoding e s).target_hw_audio_decoders = s.target_hw_audio_decoders)
      ∧ (_try_disable_hw_decoding e s).decoder_commands
          = s.decoder_commands ++ [Command.recreate_codec_context]
      ∧ (_try_disable_hw_decoding e s).audio_codec_context = s.audio_codec_context := by
  have hcond : ¬ (¬ s.hw_decoding_allowed = true ∨ s.target_hw_audio_decoders = HW_NONE
      ∨ s.audio_codec_context = none
      ∨ (s.audio_codec_context.map (fun c => c.hw_device_ctx)) = some false) := by
    simp [hallowed, htarget, hctx, hdev]
  have heq : _try_disable_hw_decoding e s =
      { s with
        hw_decoding_allowed := false
        target_hw_audio_decoders := if e = -ENOMEM then HW_NONE else s.target_hw_audio_decoders
        decoder_commands := s.decoder_commands ++ [Command.recreate_codec_context] } := by
    unfold _try_disable_hw_decoding
    simp only [hcond, ↓reduceIte, push_command]
    split <;> rfl
  refine ⟨heq, ?_, ?_, ?_, ?_, ?_⟩
  · rw [heq]
  · intro he
    rw [heq]
    simp [he]
  · intro he
    rw [heq]
    simp [he]
  · rw [heq]
  · rw [heq]

theorem try_disable_hw_decoding_active_witness :
    hardware_decoder.hw_decoding_allowed = true
      ∧ hardware_decoder.target_hw_audio_decoders ≠ HW_NONE
      ∧ hardware_decoder.audio_codec_context
          = some { sample_rate := 44100, hw_device_ctx := true, is_open := true }
      ∧ (_try_disable_hw_decoding (-ENOMEM) hardware_decoder).target_hw_audio_decoders = HW_NONE
      ∧ (_try_disable_hw_decoding (-5) hardware_decoder).target_hw_audio_decoders = HW_ANY
      ∧ (_try_disable_hw_decoding (-ENOMEM) hardware_decoder).decoder_commands
          = [Command.recreate_codec_context]
      ∧ (_try_disable_hw_decoding (-ENOMEM) hardware_decoder).hw_decoding_allowed = false :=
  ⟨by decide, by decide, by decide, by decide!, by decide!, by decide!,
    (try_disable_hw_decoding_active (-ENOMEM) hardware_decoder
      { sample_rate := 44100, hw_device_ctx := true, is_open := true } (by decide) (by decide)
      (by decide)
      (by decide)).2.1⟩

/-! ### The seek callback of the byte source -/

theorem to_uint64_in_range (x : Int) (h0 : 0 ≤ x) (h1 : x < 9223372036854775808) :
    to_uint64 x = x.toNat ∧ to_int64 x.toNat = x := by
  have e1 : x % 18446744073709551616 = x := Int.emod_eq_of_lt h0 (by omega)
  have e2 : x.toNat % 18446744073709551616 = x.toNat := Nat.mod_eq_of_lt (by omega)
  refine ⟨by simp only [to_uint64, e1], ?_⟩
  unfold to_int64
  rw [e2]
  have : x.toNat < 9223372036854775808 := by omega
  simp only [this, ↓reduceIte]
  omega

/-- C16 as stated fails: for a source at position 0 and the offset -1 with the
whence SEEK_CUR, the sum of line 71 is formed in `uint64_t`, so the source is
asked for the position 2^64 - 1, which is not 0 + (-1). -/
theorem stream_seek_before_start :
    _stream_seek_callback { position := 0, length := 10 } (-1) SEEK_CUR
        = (-1, { position := 18446744073709551615, length := 10 })
      ∧ ((18446744073709551615 : Nat) : Int) ≠ (0 : Int) + (-1) := by
  refine ⟨by decide, by decide⟩

/-- C16, amended: for every byte source at a position p whose length n is below
2^63 and every offset o: the callback moves the source to p+o for SEEK_CUR, to o
for SEEK_SET and to n+o for SEEK_END, and returns that position, whenever the
target is a position, that is, lies in 0 .. 2^63-1; for AVSEEK_SIZE it returns n
and leaves the source as it is; for any other whence it returns -1 and leaves
the source as it is. -/
theorem stream_seek_callback_moves (f : ByteSource) (o : Int)
    (hn : f.length < 9223372036854775808) :
    (0 ≤ (f.position : Int) + o → (f.position : Int) + o < 9223372036854775808 →
        _stream_seek_callback f o SEEK_CUR
          = ((f.position : Int) + o, { f with position := ((f.position : Int) + o).toNat }))
      ∧ (0 ≤ o → o < 9223372036854775808 →
          _stream_seek_callback f o SEEK_SET = (o, { f with position := o.toNat }))
      ∧ (0 ≤ (f.length : Int) + o → (f.length : Int) + o < 9223372036854775808 →
          _stream_seek_callback f o SEEK_END
            = ((f.length : Int) + o, { f with position := ((f.length : Int) + o).toNat }))
      ∧ _stream_seek_callback f o AVSEEK_SIZE = ((f.length : Int), f)
      ∧ (∀ w, w ≠ SEEK_CUR → w ≠ SEEK_SET → w ≠ SEEK_END → w ≠ AVSEEK_SIZE →
          _stream_seek_callback f o w = (-1, f)) := by
  refine ⟨?_, ?_, ?_, ?_, ?_⟩
  · intro h0 h1
    obtain ⟨e1, e2⟩ := to_uint64_in_range _ h0 h1
    simp only [_stream_seek_callback, ↓reduceIte, ByteSource.seek, e1, e2]
  · intro h0 h1
    obtain ⟨e1, e2⟩ := to_uint64_in_range _ h0 h1
    have hne : ¬ SEEK_SET = SEEK_CUR := by decide
    simp only [_stream_seek_callback, hne, ↓reduceIte, ByteSource.seek, e1, e2]
  · intro h0 h1
    obtain ⟨e1, e2⟩ := to_uint64_in_range _ h0 h1
    have hne1 : ¬ SEEK_END = SEEK_CUR := by decide
    have hne2 : ¬ SEEK_END = SEEK_SET := by decide
    simp only [_stream_seek_callback, hne1, hne2, ↓reduceIte, ByteSource.seek_end, e1, e2]
  · have hne1 : ¬ AVSEEK_SIZE = SEEK_CUR := by decide
    have hne2 : ¬ AVSEEK_SIZE = SEEK_SET := by decide
    have hne3 : ¬ AVSEEK_SIZE = SEEK_END := by decide
    have e := (to_uint64_in_range (f.length : Int) (by omega) (by omega)).2
    simp only [Int.toNat_ofNat] at e
    simp only [_stream_seek_callback, hne1, hne2, hne3, ↓reduceIte, e]
  · intro w h1 h2 h3 h4
    simp only [_stream_seek_callback, h1, h2, h3, h4, ↓reduceIte]

theorem stream_seek_callback_moves_witness :
    (1000 : Nat) < 9223372036854775808
      ∧ _stream_seek_callback { position := 100, length := 1000 } (-40) SEEK_CUR
          = (60, { position := 60, length := 1000 })
      ∧ _stream_seek_callback { position := 100, length := 1000 } 250 SEEK_SET
          = (250, { position := 250, length := 1000 })
      ∧ _stream_seek_callback { position := 100, length := 1000 } (-1) SEEK_END
          = (999, { position := 999, length := 1000 })
      ∧ _stream_seek_callback { position := 100, length := 1000 } 0 AVSEEK_SIZE
          = (1000, { position := 100, length := 1000 })
      ∧ _stream_seek_callback { position := 100, length := 1000 } 0 (SEEK_SET + 131072)
          = (-1, { position := 100, length := 1000 }) :=
  ⟨by decide,
    (stream_seek_callback_moves { position := 100, length := 1000 } (-40) (by decide)).1
      (by decide) (by decide),
    by decide, by decide, by decide, by decide⟩

/-! ### The frame normaliser -/

theorem sample_words_length (n : Nat) (data : List Nat) : (sample_words n data).length = n := by
  simp [sample_words]

/-- C17, at the failing input: a mono frame of 32 samples that is already
interleaved 32-bit float is returned by `_ensure_frame_audio_format` as it is,
with its single channel, and the `DecodedAudioFrame` built from it holds 32
floats for 32 samples, not 2 × 32. -/
theorem mono_float_frame_passes_through :
    _ensure_frame_audio_format mono_float_frame AVSampleFormat.FLT started_decoder
        = some (some mono_float_frame.frame)
      ∧ mono_float_frame.frame.nb_channels = 1
      ∧ mono_float_frame.frame.nb_samples = 32
      ∧ (run [Op.thread_iteration (example_iteration_with [mono_float_frame]),
            Op.get_decoded_audio_frames] started_decoder).map
          (fun r => r.1.map (fun fs => fs.map (fun f => f.sample_data.length)))
        = some [[32]] := by
  refine ⟨by decide, by decide, by decide, by decide!⟩

/-- The frames that the normaliser converts: for every received frame, whenever
`_ensure_frame_audio_format` with the target interleaved 32-bit float yields a
frame, that frame has the target sample format, which is interleaved, and the
sample count of the input; a frame that was not yet in the target format comes
out with a stereo (2-channel) layout, while a frame already in it is the input
frame itself, whose channel count is not looked at. The `DecodedAudioFrame`
built from the frame holds a quarter of the byte count that
`av_samples_get_buffer_size` answers, which is 2 × nb_samples floats for a
converted frame when the answer is 2 × nb_samples × 4. -/
theorem normalised_frame_format (r : ReceivedFrame) (s : AudioDecoder) (f : AVFrame)
    (h : _ensure_frame_audio_format r AVSampleFormat.FLT s = some (some f)) :
    f.format = AVSampleFormat.FLT
      ∧ av_sample_fmt_is_planar f.format = false
      ∧ f.nb_samples = r.frame.nb_samples
      ∧ (r.frame.format ≠ AVSampleFormat.FLT → f.nb_channels = 2)
      ∧ (r.frame.format = AVSampleFormat.FLT → f = r.frame)
      ∧ (∀ t, (make_audio_frame t r.av_samples_get_buffer_size f).sample_data.length
          = r.av_samples_get_buffer_size.toNat / 4)
      ∧ (∀ t, r.frame.format ≠ AVSampleFormat.FLT →
          r.av_samples_get_buffer_size = ((2 * f.nb_samples * 4 : Nat) : Int) →
          (make_audio_frame t r.av_samples_get_buffer_size f).sample_data.length
            = 2 * r.frame.nb_samples) := by
  have hlen : ∀ t, (make_audio_frame t r.av_samples_get_buffer_size f).sample_data.length
      = r.av_samples_get_buffer_size.toNat / 4 := by
    intro t
    simp [make_audio_frame, sample_words_length]
  unfold _ensure_frame_audio_format at h
  split at h
  · rename_i hfmt
    simp only [Option.some.injEq] at h
    rw [← h]
    rw [← h] at hlen
    refine ⟨hfmt, by rw [hfmt]; rfl, rfl, fun hne => absurd hfmt hne, fun _ => rfl, hlen, ?_⟩
    intro t hne
    exact absurd hfmt hne
  · rename_i hfmt
    split at h
    · simp at h
    · split at h
      · simp at h
      · split at h
        · simp at h
        · split at h
          · simp at h
          · simp only [Option.some.injEq] at h
            have hs : f.nb_samples = r.frame.nb_samples := by rw [← h]
            refine ⟨by rw [← h], by rw [← h]; rfl, hs, fun _ => by rw [← h],
              fun he => absurd he hfmt, hlen, ?_⟩
            intro t _ hsize
            rw [hlen t, hsize, hs]
            simp only [Int.toNat_ofNat]
            omega

theorem normalised_frame_format_witness :
    _ensure_frame_audio_format mono_s16_frame AVSampleFormat.FLT started_decoder
        = some (some
          { best_effort_timestamp := AV_NOPTS_VALUE
            pts := AV_NOPTS_VALUE
            format := AVSampleFormat.FLT
            nb_channels := 2
            sample_rate := 44100
            nb_samples := 32
            data := List.replicate 64 9 })
      ∧ (run [Op.thread_iteration (example_iteration_with [mono_s16_frame]),
            Op.get_decoded_audio_frames] started_decoder).map
          (fun r => r.1.map (fun fs => fs.map (fun f => f.sample_data.length)))
        = some [[64]]
      ∧ ∀ f, _ensure_frame_audio_format mono_s16_frame AVSampleFormat.FLT started_decoder
            = some (some f) →
          f.format = AVSampleFormat.FLT ∧ av_sample_fmt_is_planar f.format = false
            ∧ f.nb_samples = mono_s16_frame.frame.nb_samples :=
  ⟨by decide, by decide!, fun f h =>
    ⟨(normalised_frame_format mono_s16_frame started_decoder f h).1,
      (normalised_frame_format mono_s16_frame started_decoder f h).2.1,
      (normalised_frame_format mono_s16_frame started_decoder f h).2.2.1⟩⟩

/-- C18: for every received frame, whenever `_ensure_frame_audio_format` with
the target interleaved 32-bit float returns a frame, the format of that frame is
the target format, which is not planar; hence the planar-output assertion of
`_read_decoded_audio_frames` never fires: a pass of its loop ends the function
early only when the normaliser returned no frame. -/
theorem planar_assertion_never_fires (r : ReceivedFrame) (s : AudioDecoder) :
    (∀ f, _ensure_frame_audio_format r AVSampleFormat.FLT s = some (some f) →
        f.format = AVSampleFormat.FLT ∧ av_sample_fmt_is_planar f.format = false)
      ∧ av_sample_fmt_is_planar AVSampleFormat.FLT = false
      ∧ (∀ s1, read_decoded_frame r s = some (LoopExit.ret, s1) →
          _ensure_frame_audio_format r AVSampleFormat.FLT s1 = some none) := by
  have hfmt : ∀ (s0 : AudioDecoder) (f : AVFrame),
      _ensure_frame_audio_format r AVSampleFormat.FLT s0 = some (some f) →
      f.format = AVSampleFormat.FLT ∧ av_sample_fmt_is_planar f.format = false := by
    intro s0 f h
    unfold _ensure_frame_audio_format at h
    split at h
    · rename_i hf
      simp only [Option.some.injEq] at h
      rw [← h]
      exact ⟨hf, by rw [hf]; rfl⟩
    · split at h
      · simp at h
      · split at h
        · simp at h
        · split at h
          · simp at h
          · split at h
            · simp at h
            · simp only [Option.some.injEq] at h
              rw [← h]
              exact ⟨rfl, rfl⟩
  refine ⟨hfmt s, rfl, ?_⟩
  intro s1 h
  unfold read_decoded_frame at h
  split at h
  · simp at h
  · simp only at h
    split at h
    · simp at h
    · split at h
      · simp at h
      · rename_i heq
        simp only [Option.some.injEq, Prod.mk.injEq, true_and] at h
        rw [← h]
        exact heq
      · rename_i f heq
        have hp := (hfmt _ f heq).2
        simp only [hp, Bool.false_eq_true, ↓reduceIte, Option.some.injEq, Prod.mk.injEq] at h
        exact absurd h.1 (by decide)

/-! ### Backpressure -/

/-- C19: for every pass of the decode loop that starts in the state `READY` or
`RUNNING` with at least `MAX_PENDING_FRAMES` = 5 frames buffered, the switch
does nothing but set `decoder_state` to `READY`, whatever the libraries would
answer: no packet is read or retained, nothing is sent to the codec, the buffer
is as before; the flush of the pending commands runs on that decoder. -/
theorem full_buffer_pass_only_sets_ready (lib : IterationAnswers) (s : AudioDecoder)
    (hstate : s.decoder_state = DecoderState.READY ∨ s.decoder_state = DecoderState.RUNNING)
    (hfull : MAX_PENDING_FRAMES ≤ s.decoded_audio_frames.length) :
    thread_switch lib.decode s = some { s with decoder_state := DecoderState.READY }
      ∧ thread_iteration lib s
          = flush_if_pending lib.codec { s with decoder_state := DecoderState.READY }
      ∧ MAX_PENDING_FRAMES = 5 := by
  have hlt : ¬ s.decoded_audio_frames.length < MAX_PENDING_FRAMES := Nat.not_lt.mpr hfull
  have hsw : thread_switch lib.decode s = some { s with decoder_state := DecoderState.READY } := by
    rcases hstate with h | h
    · simp only [thread_switch, h, decode_if_needed, hlt, decide_False, Bool.false_eq_true,
        ↓reduceIte]
    · simp only [thread_switch, h, decode_if_needed, hlt, decide_False, Bool.false_eq_true,
        ↓reduceIte]
  refine ⟨hsw, ?_, rfl⟩
  simp only [thread_iteration, hsw]

theorem full_buffer_pass_only_sets_ready_witness :
    (full_decoder.decoder_state = DecoderState.READY
        ∨ full_decoder.decoder_state = DecoderState.RUNNING)
      ∧ MAX_PENDING_FRAMES ≤ full_decoder.decoded_audio_frames.length
      ∧ (thread_iteration (example_iteration [100]) full_decoder).map
          (fun s' => (s'.decoder_state, s'.decoded_audio_frames, s'.packet))
        = some (DecoderState.READY, [0, 20, 40, 60, 80].map example_decoded, none)
      ∧ thread_switch (example_iteration [100]).decode full_decoder
          = some { full_decoder with decoder_state := DecoderState.READY } :=
  ⟨by decide, by decide, by decide!,
    (full_buffer_pass_only_sets_ready (example_iteration [100]) full_decoder (by decide)
      (by decide)).1⟩

/-! ### The retained packet -/

theorem decode_after_read_packet (res : Int) (pkt : AVPacket) (lib : DecodeAnswers)
    (s s' : AudioDecoder) (hres : res ≥ 0)
    (h : decode_after_read res (some pkt) lib s = some s') :
    ∃ st, s.audio_stream = some st
      ∧ (pkt.stream_index = st.index → lib.avcodec_send_packet = -EAGAIN →
          s'.packet = some pkt)
      ∧ (¬ (pkt.stream_index = st.index ∧ lib.avcodec_send_packet = -EAGAIN) →
          s'.packet = none) := by
  unfold decode_after_read at h
  simp only [hres, ↓reduceIte] at h
  cases hst : s.audio_stream with
  | none => simp [hst] at h
  | some st =>
    refine ⟨st, rfl, ?_, ?_⟩
    · intro haudio hagain
      simp only [hst, haudio, ↓reduceIte] at h
      split at h
      · simp at h
      · rename_i r s2 heq
        obtain ⟨hr, _⟩ := send_packet_effect _ _ _ _ _ _ heq
        have hp := (send_packet_keeps_loop_state _ _ _ _ _ _ heq).2
        rw [hr, hagain] at h
        simp only [↓reduceIte, Option.some.injEq] at h
        rw [← h, hp]
    · intro hnot
      simp only [hst] at h
      split at h
      · rename_i haudio
        split at h
        · simp at h
        · rename_i r s2 heq
          obtain ⟨hr, _⟩ := send_packet_effect _ _ _ _ _ _ heq
          have hne : ¬ r = -EAGAIN := by
            rw [hr]
            exact fun he => hnot ⟨haudio, he⟩
          simp only [hne, ↓reduceIte, Option.some.injEq] at h
          rw [← h]
      · simp only [Option.some.injEq] at h
        rw [← h]

/-- C20: for every decode step that has a packet at hand, read in this step or
retained by the step before, and that returns: if the packet belongs to the
audio stream and the codec answers -EAGAIN to it, the packet is retained, and
the next decode step calls no `av_read_frame` and goes on with that same packet,
whatever a read would answer; in every other case (the packet accepted,
rejected with another code, or of another stream) no packet is held at the end
of the step. -/
theorem packet_retained_only_on_try_again (lib : DecodeAnswers) (s s' : AudioDecoder)
    (hread : s.packet = none → lib.av_read_frame ≥ 0)
    (h : _decode_next_frame lib s = some s') :
    ∃ st, s.audio_stream = some st
      ∧ ((s.packet.getD lib.packet).stream_index = st.index →
          lib.avcodec_send_packet = -EAGAIN →
          s'.packet = some (s.packet.getD lib.packet)
            ∧ ∀ lib2, _decode_next_frame lib2 s'
                = decode_after_read 0 (some (s.packet.getD lib.packet)) lib2 s')
      ∧ (¬ ((s.packet.getD lib.packet).stream_index = st.index
            ∧ lib.avcodec_send_packet = -EAGAIN) →
          s'.packet = none) := by
  have key : ∃ res, res ≥ 0
      ∧ decode_after_read res (some (s.packet.getD lib.packet)) lib s = some s' := by
    unfold _decode_next_frame at h
    cases hp : s.packet with
    | none =>
      have hr := hread hp
      simp only [hp, hr, ↓reduceIte] at h
      exact ⟨lib.av_read_frame, hr, by simpa using h⟩
    | some pkt =>
      simp only [hp] at h
      exact ⟨0, le_refl _, by simpa using h⟩
  obtain ⟨res, hres, hd⟩ := key
  obtain ⟨st, hst, h1, h2⟩ := decode_after_read_packet res _ lib s s' hres hd
  refine ⟨st, hst, ?_, h2⟩
  intro haudio hagain
  have hp := h1 haudio hagain
  refine ⟨hp, ?_⟩
  intro lib2
  simp only [_decode_next_frame, hp]

theorem packet_retained_only_on_try_again_witness :
    (started_decoder.packet = none → (example_try_again [0]).av_read_frame ≥ 0)
      ∧ (_decode_next_frame (example_try_again [0]) started_decoder).map
          (fun s' => (s'.packet, s'.decoded_audio_frames))
        = some (some { stream_index := 0 }, [example_decoded 0])
      ∧ (_decode_next_frame (example_iteration [0]).decode started_decoder).map
          (fun s' => (s'.packet, s'.decoded_audio_frames))
        = some (none, [example_decoded 0])
      ∧ ∀ s', _decode_next_frame (example_try_again [0]) started_decoder = some s' →
          ∃ st, started_decoder.audio_stream = some st
            ∧ ((started_decoder.packet.getD (example_try_again [0]).packet).stream_index
                  = st.index →
                (example_try_again [0]).avcodec_send_packet = -EAGAIN →
                s'.packet = some (started_decoder.packet.getD (example_try_again [0]).packet)
                  ∧ ∀ lib2, _decode_next_frame lib2 s'
                      = decode_after_read 0
                          (some (started_decoder.packet.getD (example_try_again [0]).packet))
                          lib2 s')
            ∧ (¬ ((started_decoder.packet.getD (example_try_again [0]).packet).stream_index
                    = st.index
                  ∧ (example_try_again [0]).avcodec_send_packet = -EAGAIN) →
                s'.packet = none) :=
  ⟨fun _ => by decide, by decide!, by decide!, fun s' h =>
    packet_retained_only_on_try_again (example_try_again [0]) started_decoder s'
      (fun _ => by decide) h⟩

/-! ### The writers of the last-decoded-frame time -/

theorem try_disable_hw_decoding_keeps_time (e : Int) (s : AudioDecoder) :
    (_try_disable_hw_decoding e s).last_decoded_frame_time = s.last_decoded_frame_time := by
  unfold _try_disable_hw_decoding
  split
  · rfl
  · simp only [push_command]
    split <;> rfl

theorem read_decoded_frame_time (r : ReceivedFrame) (s s1 : AudioDecoder) (x : LoopExit)
    (h : read_decoded_frame r s = some (x, s1)) :
    s1.last_decoded_frame_time = s.last_decoded_frame_time
      ∨ s1.last_decoded_frame_time ∈ received_times s [r] := by
  unfold read_decoded_frame at h
  split at h
  · simp at h
  · rename_i st hst
    have hrt : received_times s [r] = [frame_time st s.audio_time_base_in_seconds r.frame] := by
      simp [received_times, hst]
    simp only at h
    split at h
    · simp only [Option.some.injEq, Prod.mk.injEq] at h
      rw [← h.2]
      exact Or.inl rfl
    · split at h
      · simp at h
      · simp only [Option.some.injEq, Prod.mk.injEq] at h
        rw [← h.2, hrt]
        exact Or.inr (by simp)
      · split at h
        · simp only [Option.some.injEq, Prod.mk.injEq] at h
          rw [← h.2, hrt]
          exact Or.inr (by simp)
        · simp only [Option.some.injEq, Prod.mk.injEq] at h
          rw [← h.2, hrt]
          refine Or.inr ?_
          unfold enqueue_locked
          split <;> simp

theorem read_decoded_audio_frames_time (frames : List ReceivedFrame) (fin : Int)
    (s s' : AudioDecoder) (h : _read_decoded_audio_frames frames fin s = some s') :
    s'.last_decoded_frame_time = s.last_decoded_frame_time
      ∨ s'.last_decoded_frame_time ∈ received_times s frames := by
  induction frames generalizing s with
  | nil =>
    unfold _read_decoded_audio_frames at h
    split at h
    · split at h
      · simp only [Option.some.injEq] at h
        rw [← h]
        exact Or.inl (try_disable_hw_decoding_keeps_time fin s)
      · simp only [Option.some.injEq] at h
        rw [← h]
        exact Or.inl rfl
    · simp at h
  | cons r rest ih =>
    rw [received_times_cons]
    unfold _read_decoded_audio_frames at h
    split at h
    · simp at h
    · rename_i s1 heq
      simp only [Option.some.injEq] at h
      rw [← h]
      rcases read_decoded_frame_time r s s1 _ heq with a | a
      · exact Or.inl a
      · exact Or.inr (List.mem_append_left _ a)
    · rename_i s1 heq
      have hc := (read_decoded_frame_effect r s s1 _ heq).1
      rcases ih s1 h with b | b
      · rw [b]
        rcases read_decoded_frame_time r s s1 _ heq with a | a
        · exact Or.inl a
        · exact Or.inr (List.mem_append_left _ a)
      · rw [received_times_congr hc] at b
        exact Or.inr (List.mem_append_right _ b)

theorem send_packet_time (ctx : Option AVCodecContext) (pkt : Option AVPacket)
    (lib : DecodeAnswers) (s s' : AudioDecoder) (res : Int)
    (h : _send_packet ctx pkt lib s = some (res, s')) :
    s'.last_decoded_frame_time = s.last_decoded_frame_time
      ∨ s'.last_decoded_frame_time ∈ received_times s lib.frames := by
  unfold _send_packet at h
  simp only at h
  split at h
  · split at h
    · split at h
      · simp at h
      · rename_i s1 heq
        simp only [Option.some.injEq, Prod.mk.injEq] at h
        rw [← h.2]
        exact read_decoded_audio_frames_time _ _ _ _ heq
    · simp only [Option.some.injEq, Prod.mk.injEq] at h
      rw [← h.2]
      exact Or.inl rfl
  · split at h
    · split at h
      · simp at h
      · split at h
        · simp only [Option.some.injEq, Prod.mk.injEq] at h
          rw [← h.2]
          exact Or.inl (try_disable_hw_decoding_keeps_time _ s)
        · simp only [Option.some.injEq, Prod.mk.injEq] at h
          rw [← h.2]
          exact Or.inl rfl
    · simp at h

theorem decode_after_read_time (res : Int) (p_packet : Option AVPacket)
    (lib : DecodeAnswers) (s s' : AudioDecoder)
    (h : decode_after_read res p_packet lib s = some s') :
    s'.last_decoded_frame_time = s.last_decoded_frame_time
      ∨ s'.last_decoded_frame_time ∈ received_times s lib.frames
      ∨ (s.looping = true ∧ s'.last_decoded_frame_time = 0) := by
  unfold decode_after_read at h
  simp only at h
  split at h
  · split at h
    · split at h
      · split at h
        · simp at h
        · rename_i r s2 heq
          have ht := send_packet_time _ _ _ _ _ _ heq
          have hrt : ∀ p : Option AVPacket,
              received_times { s with decoder_state := DecoderState.RUNNING, packet := p }
                lib.frames = received_times s lib.frames := fun _ => rfl
          rw [hrt] at ht
          split at h
          · simp only [Option.some.injEq] at h
            rw [← h]
            rcases ht with a | a
            · exact Or.inl a
            · exact Or.inr (Or.inl a)
          · simp only [Option.some.injEq] at h
            rw [← h]
            rcases ht with a | a
            · exact Or.inl a
            · exact Or.inr (Or.inl a)
      · simp only [Option.some.injEq] at h
        rw [← h]
        exact Or.inl rfl
    · simp at h
  · split at h
    · split at h
      · simp at h
      · rename_i r s1 heq
        have hl : s1.looping = s.looping := (send_packet_effect _ _ _ _ _ _ heq).2.1.2.2.2.2.1
        split at h
        · rename_i hloop
          simp only [Option.some.injEq] at h
          rw [← h]
          refine Or.inr (Or.inr ⟨by rw [← hl]; exact hloop, ?_⟩)
          simp [seek, seek_push, seek_locked, push_command]
        · simp only [Option.some.injEq] at h
          rw [← h]
          rcases send_packet_time _ _ _ _ _ _ heq with a | a
          · exact Or.inl a
          · exact Or.inr (Or.inl a)
    · split at h
      · simp only [Option.some.injEq] at h
        rw [← h]
        exact Or.inl rfl
      · simp only [Option.some.injEq] at h
        rw [← h]
        exact Or.inl rfl

theorem thread_iteration_time (lib : IterationAnswers) (s s' : AudioDecoder)
    (h : thread_iteration lib s = some s') :
    s'.last_decoded_frame_time = s.last_decoded_frame_time
      ∨ s'.last_decoded_frame_time ∈ received_times s lib.decode.frames
      ∨ (s.looping = true ∧ s'.last_decoded_frame_time = 0) := by
  unfold thread_iteration at h
  split at h
  · simp at h
  · rename_i s1 heq
    rw [(flush_if_pending_effect _ _ _ h).2.2.2.2.2.2.2.1]
    have hd : ∀ s1, decode_if_needed lib.decode s = some s1 →
        s1.last_decoded_frame_time = s.last_decoded_frame_time
          ∨ s1.last_decoded_frame_time ∈ received_times s lib.decode.frames
          ∨ (s.looping = true ∧ s1.last_decoded_frame_time = 0) := by
      intro s1 hs
      unfold decode_if_needed at hs
      simp only at hs
      split at hs
      · unfold _decode_next_frame at hs
        split at hs
        · exact decode_after_read_time _ _ _ _ _ hs
        · exact decode_after_read_time _ _ _ _ _ hs
      · simp only [Option.some.injEq] at hs
        rw [← hs]
        exact Or.inl rfl
    unfold thread_switch at heq
    split at heq
    · exact hd s1 heq
    · exact hd s1 heq
    · simp only [Option.some.injEq] at heq
      rw [← heq]
      exact Or.inl rfl
    · simp only [Option.some.injEq] at heq
      rw [← heq]
      exact Or.inl rfl

/-- C21 as stated fails: a `seek(100)` called by the consumer on a decoder whose
last-decoded-frame time is 0 leaves it at 100 (line 430), before any pass of the
decode loop. -/
theorem seek_writes_last_decoded_frame_time :
    started_decoder.last_decoded_frame_time = 0
      ∧ (seek 100 false started_decoder).last_decoded_frame_time = 100
      ∧ (run [Op.seek 100 false] started_decoder).map (fun r => r.2.last_decoded_frame_time)
        = some 100 := by
  refine ⟨by decide!, by decide!, by decide!⟩

/-- C21, amended: `last_decoded_frame_time` is written by `seek` and by the frame
drain of the decode loop, and by nothing else. For every decoder:
`get_decoded_audio_frames`, `return_audio_frame` and `return_audio_frames` leave
it as it is; `seek(T)` sets it to T, in its locked section; a flush of the
command queue leaves it as it is; and a pass of the decode loop leaves it as it
is, or at the presentation time of a frame the codec handed out in that pass, or
at 0 through the `seek(0)` that the decode step issues at the end of the input
when the loop flag is set. -/
theorem last_decoded_frame_time_writers (s : AudioDecoder) :
    (get_decoded_audio_frames s).2.last_decoded_frame_time = s.last_decoded_frame_time
      ∧ (∀ f, (return_audio_frame f s).last_decoded_frame_time = s.last_decoded_frame_time)
      ∧ (∀ fs, (return_audio_frames fs s).last_decoded_frame_time = s.last_decoded_frame_time)
      ∧ (∀ T w, (seek T w s).last_decoded_frame_time = T)
      ∧ (∀ T, (seek_locked T s).last_decoded_frame_time = T)
      ∧ (∀ T w, (seek_push T w s).last_decoded_frame_time = s.last_decoded_frame_time)
      ∧ (∀ c s', flush_if_pending c s = some s' →
          s'.last_decoded_frame_time = s.last_decoded_frame_time)
      ∧ (∀ lib s', thread_iteration lib s = some s' →
          s'.last_decoded_frame_time = s.last_decoded_frame_time
            ∨ s'.last_decoded_frame_time ∈ received_times s lib.decode.frames
            ∨ (s.looping = true ∧ s'.last_decoded_frame_time = 0)) := by
  refine ⟨rfl, fun _ => rfl, ?_, ?_, fun _ => rfl, ?_, ?_, ?_⟩
  · intro fs
    have hgen : ∀ (fs : List DecodedAudioFrame) (s : AudioDecoder),
        (return_audio_frames fs s).last_decoded_frame_time = s.last_decoded_frame_time := by
      intro fs
      induction fs with
      | nil => intro s; rfl
      | cons f rest ih => intro s; simp only [return_audio_frames]; rw [ih]; rfl
    exact hgen fs s
  · intro T w
    cases w <;> rfl
  · intro T w
    cases w <;> rfl
  · intro c s' h
    exact (flush_if_pending_effect c s s' h).2.2.2.2.2.2.2.1
  · intro lib s' h
    exact thread_iteration_time lib s s' h

theorem last_decoded_frame_time_writers_witness :
    (thread_iteration (example_iteration [40]) started_decoder).map
        (fun s' => s'.last_decoded_frame_time) = some 40
      ∧ received_times started_decoder (example_iteration [40]).decode.frames = [40]
      ∧ ∀ s', thread_iteration (example_iteration [40]) started_decoder = some s' →
          s'.last_decoded_frame_time = started_decoder.last_decoded_frame_time
            ∨ s'.last_decoded_frame_time
                ∈ received_times started_decoder (example_iteration [40]).decode.frames
            ∨ (started_decoder.looping = true ∧ s'.last_decoded_frame_time = 0) :=
  ⟨by decide!, by decide!, fun s' h =>
    (last_decoded_frame_time_writers started_decoder).2.2.2.2.2.2.2 (example_iteration [40]) s' h⟩

/-! ### The place of the software fallback -/

theorem hw_score_at_least_eight (t : AVHWDeviceType) (h : from_av_hw_device_type t ≠ HW_NONE) :
    8 ≤ get_hw_audio_decoder_score t := by
  cases t <;> first | exact absurd rfl h | decide

theorem collect_decoders_members (registry : List AVCodec) (p_codec_id p_target_decoders : Nat)
    (x : AvailableDecoderInfo) (hx : x ∈ collect_decoders registry p_codec_id p_target_decoders) :
    x.device_type = AVHWDeviceType.NONE ∨ from_av_hw_device_type x.device_type ≠ HW_NONE := by
  obtain ⟨_, more, h2, h3, _⟩ :=
    iterate_codecs_result p_codec_id p_target_decoders registry [] none
  simp only [List.nil_append] at h2
  unfold collect_decoders at hx
  simp only [h2] at hx
  split at hx
  · rcases List.mem_append.mp hx with h | h
    · exact Or.inr (h3 x h).1
    · simp only [List.mem_singleton] at h
      rw [h]
      exact Or.inl rfl
  · exact Or.inr (h3 x hx).1

/-- C22: for every codec registry, codec id and requested hardware set for
which `get_available_decoders` returns a list that is not empty, the registry
holds a decoder for the codec id and the last element of the list is the
software candidate, the first such decoder with the device type NONE, for any
`sort_custom` that meets its contract; every other candidate of the list has a
device type that `from_av_hw_device_type` maps to a kind other than NONE, every
such device type has a score of at least 8, and the score of the software type
NONE is below 8. -/
theorem software_fallback_is_last_decoder (sorter : SortCustom) (registry : List AVCodec)
    (p_codec_id p_target_decoders : Nat)
    (hne : get_available_decoders sorter registry p_codec_id p_target_decoders ≠ []) :
    (∃ c, first_matching_decoder registry p_codec_id = some c
        ∧ (get_available_decoders sorter registry p_codec_id p_target_decoders).getLast?
          = some { codec := c, device_type := AVHWDeviceType.NONE })
      ∧ (∀ x ∈ get_available_decoders sorter registry p_codec_id p_target_decoders,
          x.device_type ≠ AVHWDeviceType.NONE →
          from_av_hw_device_type x.device_type ≠ HW_NONE)
      ∧ (∀ t, from_av_hw_device_type t ≠ HW_NONE → 8 ≤ get_hw_audio_decoder_score t)
      ∧ get_hw_audio_decoder_score AVHWDeviceType.NONE < 8 := by
  obtain ⟨h1, h2⟩ := collect_decoders_software registry p_codec_id p_target_decoders
  have hperm := sorter.perm (collect_decoders registry p_codec_id p_target_decoders)
  have hsorted := sorter.sorted (collect_decoders registry p_codec_id p_target_decoders)
  have hmem : ∀ x ∈ get_available_decoders sorter registry p_codec_id p_target_decoders,
      x.device_type = AVHWDeviceType.NONE ∨ from_av_hw_device_type x.device_type ≠ HW_NONE := by
    intro x hx
    unfold get_available_decoders at hx
    exact collect_decoders_members registry p_codec_id p_target_decoders x (hperm.mem_iff.mp hx)
  refine ⟨?_, ?_, hw_score_at_least_eight, by decide⟩
  · cases hfirst : first_matching_decoder registry p_codec_id with
    | none =>
      exfalso
      apply hne
      unfold get_available_decoders
      rw [h2 hfirst] at hperm ⊢
      exact List.perm_nil.mp hperm
    | some c =>
      refine ⟨c, rfl, ?_⟩
      have hfilter := hperm.filter (fun x => decide (x.device_type = AVHWDeviceType.NONE))
      rw [h1 c hfirst] at hfilter
      have hone := List.perm_singleton.mp hfilter
      have hsw : ∀ x ∈ get_available_decoders sorter registry p_codec_id p_target_decoders,
          x.device_type = AVHWDeviceType.NONE →
          x = { codec := c, device_type := AVHWDeviceType.NONE } := by
        intro x hx hnone
        unfold get_available_decoders at hx
        have : x ∈ (sorter.sort (collect_decoders registry p_codec_id p_target_decoders)).filter
            (fun x => decide (x.device_type = AVHWDeviceType.NONE)) := by
          simp [List.mem_filter, hx, hnone]
        rw [hone] at this
        simpa using this
      have hin : ({ codec := c, device_type := AVHWDeviceType.NONE } : AvailableDecoderInfo)
          ∈ get_available_decoders sorter registry p_codec_id p_target_decoders := by
        unfold get_available_decoders
        have : ({ codec := c, device_type := AVHWDeviceType.NONE } : AvailableDecoderInfo)
            ∈ (sorter.sort (collect_decoders registry p_codec_id p_target_decoders)).filter
              (fun x => decide (x.device_type = AVHWDeviceType.NONE)) := by
          rw [hone]
          simp
        exact (List.mem_filter.mp this).1
      rw [List.getLast?_eq_getLast _ hne]
      have hlast_mem := List.getLast_mem hne
      have hsplit := List.dropLast_append_getLast hne
      by_cases hd : ((get_available_decoders sorter registry p_codec_id p_target_decoders).getLast
          hne).device_type = AVHWDeviceType.NONE
      · rw [hsw _ hlast_mem hd]
      · exfalso
        have hscore : 8 ≤ get_hw_audio_decoder_score
            ((get_available_decoders sorter registry p_codec_id p_target_decoders).getLast
              hne).device_type := by
          rcases hmem _ hlast_mem with h | h
          · exact absurd h hd
          · exact hw_score_at_least_eight _ h
        rw [← hsplit] at hin
        rcases List.mem_append.mp hin with h | h
        · have hpw : List.Pairwise (fun a b => AvailableDecoderInfoComparator b a = false)
              ((get_available_decoders sorter registry p_codec_id p_target_decoders).dropLast
                ++ [(get_available_decoders sorter registry p_codec_id p_target_decoders).getLast
                  hne]) := by
            rw [hsplit]
            exact hsorted
          have hrel := (List.pairwise_append.mp hpw).2.2 _ h _ (List.mem_singleton.mpr rfl)
          simp only [AvailableDecoderInfoComparator, decide_eq_false_iff_not, not_lt,
            gt_iff_lt] at hrel
          have hmin : get_hw_audio_decoder_score AVHWDeviceType.NONE = INT_MIN := rfl
          rw [hmin] at hrel
          have : INT_MIN < 8 := by decide
          omega
        · simp only [List.mem_singleton] at h
          apply hd
          rw [← h]
  · intro x hx hnot
    rcases hmem x hx with h | h
    · exact absurd h hnot
    · exact h

theorem software_fallback_is_last_decoder_witness :
    get_available_decoders insertion_sorter example_registry 86018 HW_ANY ≠ []
      ∧ (get_available_decoders insertion_sorter example_registry 86018 HW_ANY).getLast?
        = some { codec := example_software_codec, device_type := AVHWDeviceType.NONE }
      ∧ ∃ c, first_matching_decoder example_registry 86018 = some c
          ∧ (get_available_decoders insertion_sorter example_registry 86018 HW_ANY).getLast?
            = some { codec := c, device_type := AVHWDeviceType.NONE } :=
  ⟨by decide, by decide,
    (software_fallback_is_last_decoder insertion_sorter example_registry 86018 HW_ANY
      (by decide)).1⟩

/-! ### The flag of the hardware fallback -/

theorem try_disable_hw_decoding_idle (e : Int) (s : AudioDecoder)
    (h : s.hw_decoding_allowed = false) : _try_disable_hw_decoding e s = s := by
  unfold _try_disable_hw_decoding
  simp [h]

theorem read_decoded_frame_keeps_hw (r : ReceivedFrame) (s s1 : AudioDecoder) (x : LoopExit)
    (h : read_decoded_frame r s = some (x, s1)) :
    s1.hw_decoding_allowed = s.hw_decoding_allowed := by
  unfold read_decoded_frame at h
  split at h
  · simp at h
  · simp only at h
    split at h
    · simp only [Option.some.injEq, Prod.mk.injEq] at h
      rw [← h.2]
    · split at h
      · simp at h
      · simp only [Option.some.injEq, Prod.mk.injEq] at h
        rw [← h.2]
      · split at h
        · simp only [Option.some.injEq, Prod.mk.injEq] at h
          rw [← h.2]
        · simp only [Option.some.injEq, Prod.mk.injEq] at h
          rw [← h.2]
          unfold enqueue_locked
          split <;> rfl

theorem read_decoded_audio_frames_keeps_hw_off (frames : List ReceivedFrame) (fin : Int)
    (s s' : AudioDecoder) (hoff : s.hw_decoding_allowed = false)
    (h : _read_decoded_audio_frames frames fin s = some s') :
    s'.hw_decoding_allowed = false := by
  induction frames generalizing s with
  | nil =>
    unfold _read_decoded_audio_frames at h
    split at h
    · split at h
      · simp only [Option.some.injEq] at h
        rw [← h, try_disable_hw_decoding_idle fin s hoff]
        exact hoff
      · simp only [Option.some.injEq] at h
        rw [← h]
        exact hoff
    · simp at h
  | cons r rest ih =>
    unfold _read_decoded_audio_frames at h
    split at h
    · simp at h
    · rename_i s1 heq
      simp only [Option.some.injEq] at h
      rw [← h, read_decoded_frame_keeps_hw r s s1 _ heq]
      exact hoff
    · rename_i s1 heq
      exact ih s1 (by rw [read_decoded_frame_keeps_hw r s s1 _ heq]; exact hoff) h

theorem send_packet_keeps_hw_off (ctx : Option AVCodecContext) (pkt : Option AVPacket)
    (lib : DecodeAnswers) (s s' : AudioDecoder) (res : Int)
    (hoff : s.hw_decoding_allowed = false)
    (h : _send_packet ctx pkt lib s = some (res, s')) :
    s'.hw_decoding_allowed = false := by
  unfold _send_packet at h
  simp only at h
  split at h
  · split at h
    · split at h
      · simp at h
      · rename_i s1 heq
        simp only [Option.some.injEq, Prod.mk.injEq] at h
        rw [← h.2]
        exact read_decoded_audio_frames_keeps_hw_off _ _ _ _ hoff heq
    · simp only [Option.some.injEq, Prod.mk.injEq] at h
      rw [← h.2]
      exact hoff
  · split at h
    · split at h
      · simp at h
      · split at h
        · simp only [Option.some.injEq, Prod.mk.injEq] at h
          rw [← h.2, try_disable_hw_decoding_idle _ s hoff]
          exact hoff
        · simp only [Option.some.injEq, Prod.mk.injEq] at h
          rw [← h.2]
          exact hoff
    · simp at h

theorem decode_after_read_keeps_hw_off (res : Int) (p_packet : Option AVPacket)
    (lib : DecodeAnswers) (s s' : AudioDecoder) (hoff : s.hw_decoding_allowed = false)
    (h : decode_after_read res p_packet lib s = some s') :
    s'.hw_decoding_allowed = false := by
  unfold decode_after_read at h
  simp only at h
  split at h
  · split at h
    · split at h
      · split at h
        · simp at h
        · rename_i r s2 heq
          have h2 := send_packet_keeps_hw_off _ _ _ _ _ _ (by exact hoff) heq
          split at h
          · simp only [Option.some.injEq] at h
            rw [← h]
            exact h2
          · simp only [Option.some.injEq] at h
            rw [← h]
            exact h2
      · simp only [Option.some.injEq] at h
        rw [← h]
        exact hoff
    · simp at h
  · split at h
    · split at h
      · simp at h
      · rename_i r s1 heq
        have h1 := send_packet_keeps_hw_off _ _ _ _ _ _ hoff heq
        split at h
        · simp only [Option.some.injEq] at h
          rw [← h]
          simpa [seek, seek_push, seek_locked, push_command] using h1
        · simp only [Option.some.injEq] at h
          rw [← h]
          exact h1
    · split at h
      · simp only [Option.some.injEq] at h
        rw [← h]
        exact hoff
      · simp only [Option.some.injEq] at h
        rw [← h]
        exact hoff

theorem thread_switch_keeps_hw_off (lib : DecodeAnswers) (s s' : AudioDecoder)
    (hoff : s.hw_decoding_allowed = false) (h : thread_switch lib s = some s') :
    s'.hw_decoding_allowed = false := by
  have hd : ∀ s1, decode_if_needed lib s = some s1 → s1.hw_decoding_allowed = false := by
    intro s1 hs
    unfold decode_if_needed at hs
    simp only at hs
    split at hs
    · unfold _decode_next_frame at hs
      split at hs
      · exact decode_after_read_keeps_hw_off _ _ _ _ _ hoff hs
      · exact decode_after_read_keeps_hw_off _ _ _ _ _ hoff hs
    · simp only [Option.some.injEq] at hs
      rw [← hs]
      exact hoff
  unfold thread_switch at h
  split at h
  · exact hd s' h
  · exact hd s' h
  · simp only [Option.some.injEq] at h
    rw [← h]
    exact hoff
  · simp only [Option.some.injEq] at h
    rw [← h]
    exact hoff

theorem prepare_decoding_keeps_hw (prep : PrepareAnswers) (s : AudioDecoder) :
    (prepare_decoding prep s).hw_decoding_allowed = s.hw_decoding_allowed := by
  unfold prepare_decoding
  simp only
  split
  · rfl
  · split
    · rfl
    · split
      · rfl
      · split <;> rfl

theorem recreate_codec_context_keeps_hw (codec : CodecAnswers) (s : AudioDecoder) :
    (recreate_codec_context codec s).hw_decoding_allowed = s.hw_decoding_allowed := by
  unfold recreate_codec_context
  split
  · rfl
  · split
    · simp only
      split
      · rfl
      · split
        · rfl
        · split <;> rfl
    · rfl

theorem start_decoding_keeps_hw (prep : PrepareAnswers) (codec : CodecAnswers)
    (s : AudioDecoder) :
    (start_decoding prep codec s).hw_decoding_allowed = s.hw_decoding_allowed := by
  unfold start_decoding
  split
  · rfl
  · split
    · simp only
      split
      · simp only [recreate_codec_context_keeps_hw, prepare_decoding_keeps_hw]
      · simp only [recreate_codec_context_keeps_hw, prepare_decoding_keeps_hw]
    · rfl

theorem flush_commands_keeps_hw (lib : CodecAnswers) (cmds : List Command) (s s' : AudioDecoder)
    (h : flush_commands lib cmds s = some s') :
    s'.hw_decoding_allowed = s.hw_decoding_allowed := by
  induction cmds generalizing s with
  | nil =>
    simp only [flush_commands, Option.some.injEq] at h
    rw [← h]
  | cons c rest ih =>
    unfold flush_commands at h
    split at h
    · simp at h
    · rename_i s1 heq
      rw [ih s1 h]
      cases c with
      | seek_command t =>
        simp only [execute_command] at heq
        rw [(seek_command_returns t s s1 heq).2]
      | recreate_codec_context =>
        simp only [execute_command, Option.some.injEq] at heq
        rw [← heq]
        exact recreate_codec_context_keeps_hw lib s

theorem flush_if_pending_keeps_hw (lib : CodecAnswers) (s s' : AudioDecoder)
    (h : flush_if_pending lib s = some s') :
    s'.hw_decoding_allowed = s.hw_decoding_allowed := by
  unfold flush_if_pending at h
  exact (flush_commands_keeps_hw lib _ _ _ h).trans rfl

theorem step_keeps_hw_off (op : Op) (s s' : AudioDecoder)
    (out : Option (List DecodedAudioFrame)) (hoff : s.hw_decoding_allowed = false)
    (h : step op s = some (out, s')) : s'.hw_decoding_allowed = false := by
  cases op with
  | get_decoded_audio_frames =>
    simp only [step, get_decoded_audio_frames, Option.some.injEq, Prod.mk.injEq] at h
    rw [← h.2]
    exact hoff
  | return_audio_frame f =>
    simp only [step, return_audio_frame, Option.some.injEq, Prod.mk.injEq] at h
    rw [← h.2]
    exact hoff
  | return_audio_frames fs =>
    simp only [step, Option.some.injEq, Prod.mk.injEq] at h
    rw [← h.2]
    have hgen : ∀ (fs : List DecodedAudioFrame) (s : AudioDecoder),
        (return_audio_frames fs s).hw_decoding_allowed = s.hw_decoding_allowed := by
      intro fs
      induction fs with
      | nil => intro s; rfl
      | cons f rest ih => intro s; simp only [return_audio_frames]; rw [ih]; rfl
    rw [hgen fs s]
    exact hoff
  | seek t w =>
    simp only [step, Option.some.injEq, Prod.mk.injEq] at h
    rw [← h.2]
    cases w <;> exact hoff
  | seek_locked t =>
    simp only [step, Option.some.injEq, Prod.mk.injEq] at h
    rw [← h.2]
    exact hoff
  | seek_push t w =>
    simp only [step, Option.some.injEq, Prod.mk.injEq] at h
    rw [← h.2]
    cases w <;> exact hoff
  | thread_iteration lib =>
    simp only [step] at h
    split at h
    · split at h
      · simp at h
      · rename_i s1 heq
        simp only [Option.some.injEq, Prod.mk.injEq] at h
        rw [← h.2]
        unfold thread_iteration at heq
        split at heq
        · simp at heq
        · rename_i s0 hsw
          rw [flush_if_pending_keeps_hw _ _ _ heq]
          exact thread_switch_keeps_hw_off _ _ _ hoff hsw
    · simp at h

/-- C23: in every decoder reached from a constructed one through
`start_decoding`, consumer calls, seeks, passes of the decode loop, flushes of
the command queue and the end of the thread function, `hw_decoding_allowed` is
false (the constructor leaves it false and no call sets it); hence, for every
error code, `_try_disable_hw_decoding` returns the decoder as it is: no field is
changed and no command is queued. -/
theorem hw_decoding_never_allowed (s : AudioDecoder) (h : ReachableDecoder s) :
    s.hw_decoding_allowed = false ∧ ∀ e, _try_disable_hw_decoding e s = s := by
  have hoff : s.hw_decoding_allowed = false := by
    induction h with
    | constructed => rfl
    | started prep codec _ ih => rw [start_decoding_keeps_hw]; exact ih
    | stepped op _ hstep ih => exact step_keeps_hw_off op _ _ _ ih hstep
    | flushed codec _ hflush ih => rw [flush_if_pending_keeps_hw _ _ _ hflush]; exact ih
    | exited _ ih =>
      unfold thread_exit
      split
      · exact ih
      · exact ih
  exact ⟨hoff, fun e => try_disable_hw_decoding_idle e s hoff⟩

theorem hw_decoding_never_allowed_witness :
    ReachableDecoder (seek 100 false started_decoder)
      ∧ (seek 100 false started_decoder).hw_decoding_allowed = false
      ∧ ∀ e, _try_disable_hw_decoding e (seek 100 false started_decoder)
          = seek 100 false started_decoder :=
  have hr : ReachableDecoder (seek 100 false started_decoder) :=
    ReachableDecoder.stepped (Op.seek 100 false)
      (ReachableDecoder.started example_prepare example_codec ReachableDecoder.constructed) rfl
  ⟨hr, hw_decoding_never_allowed (seek 100 false started_decoder) hr⟩

/-! ### The flush packet at the end of the input -/

/-- C24, at the failing input: a decoder whose codec did not open runs its
decode loop; at the end of the input the decode step calls `_send_packet` with
no packet, the codec answers -EINVAL, and the error branch reads
`p_packet->stream_index` through the null pointer: the call does not complete,
and neither does the decode step. With a packet at hand the same answers are
handled and the call returns. -/
theorem send_packet_reads_absent_packet :
    unopened_decoder.thread = true
      ∧ unopened_decoder.packet = none
      ∧ example_rejected_flush.av_read_frame = AVERROR_EOF
      ∧ _send_packet unopened_decoder.audio_codec_context none example_rejected_flush
          unopened_decoder = none
      ∧ _decode_next_frame example_rejected_flush unopened_decoder = none
      ∧ (_send_packet unopened_decoder.audio_codec_context (some { stream_index := 0 })
          example_rejected_flush unopened_decoder).map (fun r => r.1) = some (-22) := by
  refine ⟨by decide!, by decide!, by decide, by decide!, by decide!, by decide!⟩

/-- The call `_send_packet` with no packet reads no field of the packet exactly
when the codec answers 0 or -EAGAIN: then the call does what it does for any
packet; for every other answer it reads `p_packet->stream_index` through the
null pointer and does not complete. -/
theorem send_packet_without_packet (ctx : Option AVCodecContext) (lib : DecodeAnswers)
    (s : AudioDecoder) :
    (lib.avcodec_send_packet = 0 ∨ lib.avcodec_send_packet = -EAGAIN →
        ∀ pkt, _send_packet ctx none lib s = _send_packet ctx pkt lib s)
      ∧ (lib.avcodec_send_packet ≠ 0 → lib.avcodec_send_packet ≠ -EAGAIN →
          _send_packet ctx none lib s = none) := by
  refine ⟨?_, ?_⟩
  · intro h pkt
    simp only [_send_packet, h, ↓reduceIte]
  · intro h0 h1
    have hn : ¬ (lib.avcodec_send_packet = 0 ∨ lib.avcodec_send_packet = -EAGAIN) := by
      intro h
      rcases h with h | h
      · exact h0 h
      · exact h1 h
    simp only [_send_packet, hn, ↓reduceIte]

theorem send_packet_without_packet_witness :
    ((example_end_of_input [9980]).decode.avcodec_send_packet = 0
        ∨ (example_end_of_input [9980]).decode.avcodec_send_packet = -EAGAIN)
      ∧ (_send_packet started_decoder.audio_codec_context none
            (example_end_of_input [9980]).decode started_decoder).map
          (fun r => (r.1, r.2.decoded_audio_frames)) = some (0, [example_decoded 9980])
      ∧ (example_rejected_flush.avcodec_send_packet ≠ 0
        ∧ example_rejected_flush.avcodec_send_packet ≠ -EAGAIN)
      ∧ _send_packet started_decoder.audio_codec_context none example_rejected_flush
          started_decoder = none :=
  ⟨by decide, by decide!, ⟨by decide, by decide⟩,
    (send_packet_without_packet started_decoder.audio_codec_context example_rejected_flush
      started_decoder).2 (by decide) (by decide)⟩

/-! ### The mixing loop of the playback -/

theorem mix_loop_running (p_frames : Int) (m : MixState) (hc : mix_condition m = true)
    (hp : mix_pass p_frames m = some (false, m)) (n : Nat) :
    mix_loop p_frames n m = LoopOutcome.running m := by
  induction n with
  | zero => rfl
  | succ k ih => simp only [mix_loop, hc, hp, ↓reduceIte, ih]

/-- C25, at the failing input: a playback that is stopped after 48 samples of a
frame of 64 and started again keeps its read position 48 (`clear` does not reset
it); with the first frame of the stream, of 32 samples, as the head frame, a
pass of the mixing loop of `_mix_resampled` for 40 frames copies nothing, leaves
`pos` at 0, does not remove the head frame and does not reset `frame_read_pos`;
the pass after it starts in the same state, and the loop is still running after
any number of passes. The sample counts of both frames are multiples of 32, and
the byte counts of their buffers are channels × samples × 4. -/
theorem mix_loop_never_left :
    playback_run example_restart (load example_prepare example_codec) = some stuck_playback
      ∧ ((long_frame 1).frame.nb_samples % 32 = 0
        ∧ (long_frame 1).av_samples_get_buffer_size
          = (((long_frame 1).frame.nb_channels * (long_frame 1).frame.nb_samples * 4 : Nat) : Int)
        ∧ (example_frame 0).frame.nb_samples % 32 = 0
        ∧ (example_frame 0).av_samples_get_buffer_size
          = (((example_frame 0).frame.nb_channels * (example_frame 0).frame.nb_samples * 4 : Nat)
            : Int))
      ∧ stuck_playback.playing = true
      ∧ stuck_playback.frame_read_pos = 48
      ∧ stuck_playback.available_audio_frames.map
          (fun f => (f.sample_data.length : Int) / get_audio_channel_count stuck_playback.decoder)
        = [32]
      ∧ mix_condition stuck_mix = true
      ∧ mix_pass 40 stuck_mix = some (false, stuck_mix)
      ∧ stuck_mix.pos = 0
      ∧ stuck_mix.playback.frame_read_pos = 48
      ∧ stuck_mix.playback.available_audio_frames = stuck_playback.available_audio_frames
      ∧ ∀ fuel, _mix_resampled (fuel + 1) (List.replicate 40 { left := 0, right := 0 }) 40
          stuck_playback = MixOutcome.running stuck_mix := by
  have hc : mix_condition stuck_mix = true := by decide!
  have hp : mix_pass 40 stuck_mix = some (false, stuck_mix) := by decide!
  refine ⟨by decide!, ⟨by decide, by decide, by decide, by decide⟩, by decide, by decide,
    by decide!, hc, hp, by decide, by decide, by decide!, ?_⟩
  intro fuel
  have hplay : stuck_playback.playing = true := by decide
  have hc0 : mix_condition (mix_entry (List.replicate 40 { left := 0, right := 0 }) 40
      stuck_playback) = true := by decide!
  have hp0 : mix_pass 40 (mix_entry (List.replicate 40 { left := 0, right := 0 }) 40
      stuck_playback) = some (false, stuck_mix) := by decide!
  have hneg : ¬ ((40 : Int) < 0) := by decide
  simp only [_mix_resampled, hplay, not_true_eq_false, ↓reduceIte, hneg, mix_loop, hc0, hp0,
    mix_loop_running 40 stuck_mix hc hp fuel]

theorem mix_samples_succ (p_frames : Int) (f : DecodedAudioFrame) (sc : Int) (k : Nat)
    (m : MixState) (hlt : m.playback.frame_read_pos < sc)
    (h0 : 0 ≤ m.playback.frame_read_pos) (hlen : 2 * sc ≤ (f.sample_data.length : Int)) :
    ∃ m1, m1.pos = m.pos + 1
      ∧ m1.playback = { m.playback with frame_read_pos := m.playback.frame_read_pos + 1 }
      ∧ mix_samples p_frames f sc (k + 1) m
        = if m1.pos = p_frames then some m1 else mix_samples p_frames f sc k m1 := by
  have hin : 0 ≤ m.playback.frame_read_pos
      ∧ m.playback.frame_read_pos * 2 + 1 < (f.sample_data.length : Int) :=
    ⟨h0, by omega⟩
  refine ⟨{ m with
      p_buffer := m.p_buffer.set m.pos.toNat
        { left := f.sample_data.getD (m.playback.frame_read_pos * 2).toNat 0
          right := f.sample_data.getD (m.playback.frame_read_pos * 2 + 1).toNat 0 }
      pos := m.pos + 1
      playback := { m.playback with frame_read_pos := m.playback.frame_read_pos + 1 } },
    rfl, rfl, ?_⟩
  simp only [mix_samples, hlt, mix_sample, hin, and_self, ↓reduceIte]

theorem mix_samples_effect (p_frames : Int) (f : DecodedAudioFrame) (sc : Int) (n : Nat)
    (m : MixState) (hfuel : sc - m.playback.frame_read_pos ≤ n)
    (h0 : 0 ≤ m.playback.frame_read_pos) (hlen : 2 * sc ≤ (f.sample_data.length : Int))
    (hle : m.playback.frame_read_pos ≤ sc) (hpos : m.pos < p_frames) :
    ∃ m', mix_samples p_frames f sc n m = some m'
      ∧ m'.playback = { m.playback with frame_read_pos := m'.playback.frame_read_pos }
      ∧ m.pos ≤ m'.pos
      ∧ m'.pos ≤ p_frames
      ∧ (m'.pos = p_frames ∨ m'.playback.frame_read_pos = sc) := by
  induction n generalizing m with
  | zero =>
    have hfrp : m.playback.frame_read_pos = sc := by
      simp only [Nat.cast_zero] at hfuel
      omega
    exact ⟨m, rfl, rfl, le_refl _, le_of_lt hpos, Or.inr hfrp⟩
  | succ k ih =>
    by_cases hlt : m.playback.frame_read_pos < sc
    · obtain ⟨m1, hp1, hb1, hms⟩ := mix_samples_succ p_frames f sc k m hlt h0 hlen
      have hfrp1 : m1.playback.frame_read_pos = m.playback.frame_read_pos + 1 := by rw [hb1]
      by_cases heq : m1.pos = p_frames
      · refine ⟨m1, by rw [hms, if_pos heq], ?_, ?_, ?_, Or.inl heq⟩
        · rw [hb1]
        · omega
        · omega
      · obtain ⟨m', h1, h2, h3, h4, h6⟩ := ih m1
          (by
            simp only [Nat.cast_succ] at hfuel
            omega)
          (by omega) (by omega) (by omega)
        refine ⟨m', by rw [hms, if_neg heq]; exact h1, ?_, ?_, h4, h6⟩
        · rw [h2, hb1]
        · omega
    · have hfrp : m.playback.frame_read_pos = sc := by omega
      exact ⟨m, by simp only [mix_samples, hlt, ↓reduceIte], rfl, le_refl _, le_of_lt hpos,
        Or.inr hfrp⟩

theorem math_absi_lt_tenth (x : Int) : ((math_absi x : Int) : ℚ) < 1 / 10 ↔ x = 0 := by
  unfold math_absi
  constructor
  · intro h
    split at h
    · have h1 : ((-x : Int) : ℚ) < 1 := lt_trans h (by norm_num)
      have h2 : -x < 1 := by exact_mod_cast h1
      omega
    · have h1 : ((x : Int) : ℚ) < 1 := lt_trans h (by norm_num)
      have h2 : x < 1 := by exact_mod_cast h1
      omega
  · intro h
    rw [h]
    norm_num

theorem mix_pass_end_effect (p_frames : Int) (f : DecodedAudioFrame) (sc : Int) (m2 : MixState) :
    (mix_pass_end p_frames f sc m2).1 = decide ((mix_pass_end p_frames f sc m2).2.pos = p_frames)
      ∧ (mix_pass_end p_frames f sc m2).2.pos = m2.pos
      ∧ (mix_pass_end p_frames f sc m2).2.playback.decoder = m2.playback.decoder
      ∧ (m2.playback.frame_read_pos = sc →
          (mix_pass_end p_frames f sc m2).2.playback.available_audio_frames
              = m2.playback.available_audio_frames.tail
            ∧ (mix_pass_end p_frames f sc m2).2.playback.frame_read_pos = 0)
      ∧ (m2.playback.frame_read_pos ≠ sc →
          (mix_pass_end p_frames f sc m2).2.playback.available_audio_frames
              = m2.playback.available_audio_frames
            ∧ (mix_pass_end p_frames f sc m2).2.playback.frame_read_pos
              = m2.playback.frame_read_pos) := by
  have hcond : (((math_absi (m2.playback.frame_read_pos - sc) : Int) : ℚ) < 1 / 10)
      ↔ m2.playback.frame_read_pos = sc := by
    rw [math_absi_lt_tenth]
    omega
  unfold mix_pass_end
  by_cases hfin : m2.playback.frame_read_pos = sc
  · have hc := hcond.mpr hfin
    simp only [hc, ↓reduceIte]
    exact ⟨trivial, trivial, trivial, fun _ => ⟨trivial, trivial⟩, fun h => absurd hfin h⟩
  · have hc : ¬ (((math_absi (m2.playback.frame_read_pos - sc) : Int) : ℚ) < 1 / 10) :=
      fun h => hfin (hcond.mp h)
    simp only [hc, ↓reduceIte]
    exact ⟨trivial, trivial, trivial, fun h => absurd h hfin, fun _ => ⟨trivial, trivial⟩⟩

theorem mix_pass_effect (p_frames : Int) (m : MixState) (head : DecodedAudioFrame)
    (rest : List DecodedAudioFrame)
    (havail : m.playback.available_audio_frames = head :: rest)
    (hstream : m.playback.decoder.audio_stream ≠ none)
    (h0 : 0 ≤ m.playback.frame_read_pos)
    (hle : m.playback.frame_read_pos ≤ (head.sample_data.length : Int) / 2)
    (hpos : m.pos < p_frames) :
    ∃ m', mix_pass p_frames m = some (decide (m'.pos = p_frames), m')
      ∧ m'.playback.decoder = m.playback.decoder
      ∧ m.pos ≤ m'.pos
      ∧ m'.pos ≤ p_frames
      ∧ (m'.pos = p_frames
        ∨ (m'.playback.available_audio_frames = rest ∧ m'.playback.frame_read_pos = 0)) := by
  obtain ⟨p_buffer, pos, upd, pbk⟩ := m
  obtain ⟨pp, lpp, dec, avail, lf, frp, lp, bf, fp, pl, sl⟩ := pbk
  simp only at havail hstream h0 hle hpos
  subst havail
  have hch : get_audio_channel_count dec = 2 := by
    simp [get_audio_channel_count, hstream]
  have hne : ¬ ((2 : Int) = 0) := by decide
  obtain ⟨m2, hm2, h1, h3, h4, h6⟩ := mix_samples_effect p_frames head
    ((head.sample_data.length : Int) / 2)
    (((head.sample_data.length : Int) / 2) - frp).toNat
    { p_buffer := p_buffer, pos := pos, update_playback_position := upd,
      playback := ⟨pp, lpp, dec, head :: rest, some head, frp, lp, bf, fp, pl, sl⟩ }
    (by
      show (head.sample_data.length : Int) / 2 - frp ≤ _
      omega)
    h0 (by omega) hle hpos
  have hpass : mix_pass p_frames
      { p_buffer := p_buffer, pos := pos, update_playback_position := upd,
        playback := ⟨pp, lpp, dec, head :: rest, lf, frp, lp, bf, fp, pl, sl⟩ }
      = some (mix_pass_end p_frames head ((head.sample_data.length : Int) / 2) m2) := by
    simp only [mix_pass, hch, hne, ↓reduceIte, hm2]
  obtain ⟨e1, e2, e3, e4, _⟩ := mix_pass_end_effect p_frames head
    ((head.sample_data.length : Int) / 2) m2
  refine ⟨_, hpass.trans (congrArg some (Prod.ext e1 rfl)), ?_, ?_, ?_, ?_⟩
  · rw [e3, h1]
  · rw [e2]
    exact h3
  · rw [e2]
    exact h4
  · rcases h6 with h | h
    · exact Or.inl (by rw [e2]; exact h)
    · refine Or.inr ?_
      obtain ⟨a, b⟩ := e4 h
      refine ⟨?_, b⟩
      rw [a, h1]
      rfl

theorem mix_loop_left (p_frames : Int) (n : Nat) (m : MixState)
    (hfuel : m.playback.available_audio_frames.length < n)
    (hstream : m.playback.decoder.audio_stream ≠ none)
    (h0 : 0 ≤ m.playback.frame_read_pos)
    (hhead : ∀ head, m.playback.available_audio_frames.head? = some head →
      m.playback.frame_read_pos ≤ (head.sample_data.length : Int) / 2)
    (hpos : m.pos < p_frames) :
    ∃ m', mix_loop p_frames n m = LoopOutcome.left m' ∧ m'.pos ≤ p_frames := by
  induction n generalizing m with
  | zero => exact absurd hfuel (Nat.not_lt_zero _)
  | succ k ih =>
    unfold mix_loop
    split
    · rename_i hc
      cases havail : m.playback.available_audio_frames with
      | nil => simp [mix_condition, havail] at hc
      | cons head rest =>
        obtain ⟨m', hp, hd, _, hle, hor⟩ := mix_pass_effect p_frames m head rest havail hstream
          h0 (hhead head (by rw [havail]; rfl)) hpos
        rw [hp]
        by_cases hfull : m'.pos = p_frames
        · simp only [hfull, decide_True]
          exact ⟨m', rfl, le_of_eq hfull⟩
        · simp only [hfull, decide_False]
          rcases hor with h | ⟨ha, hz⟩
          · exact absurd h hfull
          · refine ih m' ?_ ?_ ?_ ?_ ?_
            · rw [ha]
              rw [havail] at hfuel
              simp only [List.length_cons] at hfuel
              omega
            · rw [hd]
              exact hstream
            · rw [hz]
            · intro h2 _
              rw [hz]
              exact Int.ediv_nonneg (Int.ofNat_nonneg _) (by decide)
            · omega
    · exact ⟨m, rfl, le_of_lt hpos⟩

theorem mix_entry_fields (p_buffer : List AudioFrame) (p_frames : Int)
    (pb : FFmpegAudioStreamPlayback) :
    (mix_entry p_buffer p_frames pb).playback.available_audio_frames = pb.available_audio_frames
      ∧ (mix_entry p_buffer p_frames pb).playback.frame_read_pos = pb.frame_read_pos
      ∧ (mix_entry p_buffer p_frames pb).playback.decoder.audio_stream = pb.decoder.audio_stream
      ∧ (mix_entry p_buffer p_frames pb).pos = 0 := by
  have h1 : (mix_end_of_stream pb).available_audio_frames = pb.available_audio_frames
      ∧ (mix_end_of_stream pb).frame_read_pos = pb.frame_read_pos
      ∧ (mix_end_of_stream pb).decoder.audio_stream = pb.decoder.audio_stream := by
    unfold mix_end_of_stream seek_into_sync
    simp only
    split_ifs with h0 h1 h2 h3 h4
    all_goals first
      | exact ⟨rfl, rfl, rfl⟩
      | exact ⟨(List.length_eq_zero.mp h1.2).symm, rfl, rfl⟩
      | exact ⟨(List.length_eq_zero.mp h3.2).symm, rfl, rfl⟩
  have h2 : ∀ q : FFmpegAudioStreamPlayback,
      (mix_out_of_sync q).available_audio_frames = q.available_audio_frames
        ∧ (mix_out_of_sync q).frame_read_pos = q.frame_read_pos
        ∧ (mix_out_of_sync q).decoder = q.decoder := by
    intro q
    unfold mix_out_of_sync
    split
    · exact ⟨rfl, rfl, rfl⟩
    · split <;> exact ⟨rfl, rfl, rfl⟩
  obtain ⟨a1, a2, a3⟩ := h1
  obtain ⟨b1, b2, b3⟩ := h2 (mix_end_of_stream pb)
  refine ⟨?_, ?_, ?_, rfl⟩
  · show (mix_out_of_sync (mix_end_of_stream pb)).available_audio_frames = _
    rw [b1, a1]
  · show (mix_out_of_sync (mix_end_of_stream pb)).frame_read_pos = _
    rw [b2, a2]
  · show (mix_out_of_sync (mix_end_of_stream pb)).decoder.audio_stream = _
    rw [b3, a3]

/-- The mixer returns: for every playing playback whose decoder has its audio
stream and whose read position is not negative and does not lie beyond the
sample count of the head frame (as after any pass that removed a frame, which
resets it to 0), and for every `p_frames` > 0, each pass of the mixing loop of
`_mix_resampled` fills the output buffer or removes the head frame and resets
`frame_read_pos` to 0; with one pass more than there are frames at hand the loop
is left, and `_mix_resampled` returns `p_frames`. -/
theorem mix_resampled_returns (fuel : Nat) (p_buffer : List AudioFrame) (p_frames : Int)
    (pb : FFmpegAudioStreamPlayback) (hplay : pb.playing = true) (hframes : 0 < p_frames)
    (hstream : pb.decoder.audio_stream ≠ none) (h0 : 0 ≤ pb.frame_read_pos)
    (hhead : ∀ head ∈ pb.available_audio_frames.head?,
      pb.frame_read_pos ≤ (head.sample_data.length : Int) / 2)
    (hfuel : pb.available_audio_frames.length < fuel) :
    (∀ m head rest, m.playback.available_audio_frames = head :: rest →
        m.playback.decoder.audio_stream ≠ none →
        0 ≤ m.playback.frame_read_pos →
        m.playback.frame_read_pos ≤ (head.sample_data.length : Int) / 2 →
        m.pos < p_frames →
        ∃ m', mix_pass p_frames m = some (decide (m'.pos = p_frames), m')
          ∧ (m'.pos = p_frames
            ∨ (m'.playback.available_audio_frames = rest ∧ m'.playback.frame_read_pos = 0)))
      ∧ ∃ buf pb', _mix_resampled fuel p_buffer p_frames pb
          = MixOutcome.returned p_frames buf pb' := by
  refine ⟨?_, ?_⟩
  · intro m head rest havail hs hnn hle hpos
    obtain ⟨m', hp, _, _, _, hor⟩ := mix_pass_effect p_frames m head rest havail hs hnn hle hpos
    exact ⟨m', hp, hor⟩
  · obtain ⟨e1, e2, e3, e4⟩ := mix_entry_fields p_buffer p_frames pb
    obtain ⟨m', hm, _⟩ := mix_loop_left p_frames fuel (mix_entry p_buffer p_frames pb)
      (by rw [e1]; exact hfuel) (by rw [e3]; exact hstream) (by rw [e2]; exact h0)
      (by
        intro head hh
        rw [e1] at hh
        rw [e2]
        exact hhead head hh)
      (by rw [e4]; exact hframes)
    have hneg : ¬ p_frames < 0 := by omega
    simp only [_mix_resampled, hplay, not_true_eq_false, ↓reduceIte, hneg, hm, mix_epilogue]
    exact ⟨_, _, rfl⟩

theorem mix_resampled_returns_witness :
    playback_run example_fetch (load example_prepare example_codec) = some fetched_playback
      ∧ fetched_playback.playing = true
      ∧ (match _mix_resampled 2 (List.replicate 8 { left := 0, right := 0 }) 8
            fetched_playback with
          | MixOutcome.returned value _ pb =>
            some (value, pb.frame_read_pos, pb.available_audio_frames.length)
          | _ => none) = some (8, 8, 1)
      ∧ ∃ buf pb', _mix_resampled 2 (List.replicate 8 { left := 0, right := 0 }) 8
          fetched_playback = MixOutcome.returned 8 buf pb' :=
  ⟨by decide!, by decide, by decide!,
    (mix_resampled_returns 2 (List.replicate 8 { left := 0, right := 0 }) 8 fetched_playback
      (by decide) (by decide) (by decide!) (by decide) (by decide!) (by decide)).2⟩

end FFmpegAudio
